import Mathlib

/-!
# BendeRadio BT firmware: verification of the timing and signal core

Shallow embedding of `Timekeeper`, `AudioGainLimiter`, `AudioProcessor`,
`EncoderControl` and `SystemState` (directory `BendeRadioBT`).  Machine integers are mathematical integers with
the width conversions written out; the millisecond counter `millis()` and
the other readings of the environment are explicit arguments.
-/

namespace BendeRadio

/-! ## Machine integers -/

/-- Conversion of an integer to `int32_t` (two's complement, as the compiler does). -/
def wrapInt32 (x : Int) : Int := (x + 2147483648) % 4294967296 - 2147483648

/-- Conversion of an integer to `unsigned long`, 32 bits wide on the target. -/
def wrapUInt32 (x : Int) : Int := x % 4294967296

/-- Conversion of an integer to `uint8_t`. -/
def wrapUInt8 (x : Int) : Nat := (x % 256).toNat

/-- A value of the 32-bit millisecond counter `millis()`. -/
abbrev IsMillis (ms : Nat) : Prop := ms < 4294967296

/-- A value an `int32_t` can hold. -/
abbrev IsInt32 (x : Int) : Prop := -2147483648 ≤ x ∧ x ≤ 2147483647

/-- A value an `int16_t` can hold. -/
abbrev IsInt16 (x : Int) : Prop := -32768 ≤ x ∧ x ≤ 32767

/-- A value a `uint8_t` can hold. -/
abbrev IsUInt8 (n : Nat) : Prop := n < 256

/-! ## Timekeeper (`Timekeeper.h`, `Timekeeper.cpp`) -/

/-- The private fields of `class Timekeeper`. -/
structure Timekeeper where
  calibrationOffset : Int
  lastUpdateMillis : Nat
  currentHours : Nat
  currentMinutes : Nat
  currentTimeSeconds : Int
  deriving DecidableEq, Repr

namespace Timekeeper

/-- The constructor `Timekeeper::Timekeeper()`. -/
def new : Timekeeper :=
  { calibrationOffset := 0, lastUpdateMillis := 0, currentHours := 0,
    currentMinutes := 0, currentTimeSeconds := 0 }

def getHours (tk : Timekeeper) : Nat := tk.currentHours

def getMinutes (tk : Timekeeper) : Nat := tk.currentMinutes

def getCalibrationOffset (tk : Timekeeper) : Int := tk.calibrationOffset

/-- `secondsSinceMidnight`: `(int32_t)hours * 3600 + (int32_t)minutes * 60`. -/
def secondsSinceMidnight (hours minutes : Nat) : Int :=
  wrapInt32 (wrapInt32 ((hours : Int) * 3600) + wrapInt32 ((minutes : Int) * 60))

/-- `secondsToTime`: the pair `(hours, minutes)` written through the two
reference parameters.  `%` and `/` on `int32_t` truncate toward zero. -/
def secondsToTime (seconds : Int) : Nat × Nat :=
  let seconds := Int.tmod seconds 86400
  let seconds := if seconds < 0 then wrapInt32 (seconds + 86400) else seconds
  (wrapUInt8 (Int.tdiv seconds 3600), wrapUInt8 (Int.tdiv (Int.tmod seconds 3600) 60))

/-- `updateTime`, with `millis` the value `millis()` returns.  The sum is
formed in `unsigned long` (the offset is converted) and then stored in an
`int32_t`. -/
def updateTime (millis : Nat) (tk : Timekeeper) : Timekeeper :=
  let currentMillis : Int := millis
  let calculatedSeconds :=
    wrapInt32 (wrapUInt32 (currentMillis / 1000 + wrapUInt32 tk.calibrationOffset))
  let calculatedSeconds := Int.tmod calculatedSeconds 86400
  let calculatedSeconds :=
    if calculatedSeconds < 0 then wrapInt32 (calculatedSeconds + 86400) else calculatedSeconds
  let hm := secondsToTime calculatedSeconds
  { tk with
    currentTimeSeconds := calculatedSeconds
    currentHours := hm.1
    currentMinutes := hm.2
    lastUpdateMillis := millis }

/-- The method `tick`. -/
def tick (millis : Nat) (tk : Timekeeper) : Timekeeper := updateTime millis tk

/-- `setTime(hours, minutes)`, with `millis` the value `millis()` returns. -/
def setTime (millis : Nat) (hours minutes : Nat) (tk : Timekeeper) : Timekeeper :=
  let currentHours := hours % 24
  let currentMinutes := minutes % 60
  let currentTimeSeconds := secondsSinceMidnight currentHours currentMinutes
  let currentMillis : Int := millis
  let currentMillisSeconds := wrapInt32 (currentMillis / 1000)
  let calibrationOffset := wrapInt32 (currentTimeSeconds - currentMillisSeconds)
  let calibrationOffset :=
    if calibrationOffset < 0 then wrapInt32 (calibrationOffset + 86400) else calibrationOffset
  { tk with
    currentHours := currentHours
    currentMinutes := currentMinutes
    currentTimeSeconds := currentTimeSeconds
    calibrationOffset := calibrationOffset
    lastUpdateMillis := millis }

/-- `setCalibrationOffset(offset)`; `millis0` is the counter read by the
method itself and `millis1` the one read inside `updateTime`. -/
def setCalibrationOffset (millis0 millis1 : Nat) (offset : Int) (tk : Timekeeper) : Timekeeper :=
  updateTime millis1 { tk with calibrationOffset := offset, lastUpdateMillis := millis0 }

/-- `init(initialTimeSeconds)`; `millis0` is the counter read at entry and
`millis1` the one read by the closing `updateTime` or `tick`. -/
def init (millis0 millis1 : Nat) (initialTimeSeconds : Int) (tk : Timekeeper) : Timekeeper :=
  let tk : Timekeeper := { tk with lastUpdateMillis := millis0 }
  let tk : Timekeeper :=
    if initialTimeSeconds > 0 then
      let hm := secondsToTime initialTimeSeconds
      { tk with currentTimeSeconds := initialTimeSeconds, currentHours := hm.1,
                currentMinutes := hm.2 }
    else
      { tk with currentHours := 0, currentMinutes := 0, currentTimeSeconds := 0 }
  if tk.calibrationOffset ≠ 0 then updateTime millis1 tk else tick millis1 tk

/-- States reachable from construction by the public mutators, each called
with well-typed arguments at arbitrary counter values. -/
inductive Reachable : Timekeeper → Prop
  | new : Reachable Timekeeper.new
  | init (tk : Timekeeper) (millis0 millis1 : Nat) (t : Int) :
      Reachable tk → IsMillis millis0 → IsMillis millis1 → IsInt32 t →
      Reachable (Timekeeper.init millis0 millis1 t tk)
  | tick (tk : Timekeeper) (millis : Nat) :
      Reachable tk → IsMillis millis → Reachable (Timekeeper.tick millis tk)
  | setTime (tk : Timekeeper) (millis hours minutes : Nat) :
      Reachable tk → IsMillis millis → IsUInt8 hours → IsUInt8 minutes →
      Reachable (Timekeeper.setTime millis hours minutes tk)
  | setCalibrationOffset (tk : Timekeeper) (millis0 millis1 : Nat) (offset : Int) :
      Reachable tk → IsMillis millis0 → IsMillis millis1 → IsInt32 offset →
      Reachable (Timekeeper.setCalibrationOffset millis0 millis1 offset tk)

end Timekeeper

/-! ## Single-precision arithmetic

The firmware multiplies samples by a `float` gain.  A finite `float` is a
dyadic rational; it is kept as a pair `(m, e)` standing for `m / 2 ^ e`.
Every `float` of magnitude below `2 ^ 24` is such a pair with
`|m| < 2 ^ 24` and `e ≤ 149`.  An arithmetic operation computes the exact
dyadic result and rounds it to the nearest `float`, ties to even, as the
hardware does.  Infinities, NaN and the sign of zero are outside the model;
no value here exceeds `2 ^ 24` in magnitude. -/

/-- A finite `float`: the dyadic rational `m / 2 ^ e`. -/
structure F32 where
  m : Int
  e : Nat
  deriving DecidableEq, Repr

namespace F32

/-- The rational number a pair stands for. -/
def toRat (x : F32) : ℚ := (x.m : ℚ) / (2 : ℚ) ^ x.e

/-- The literal `0.0f`. -/
def zero : F32 := ⟨0, 0⟩

/-- The literal `1.0f`. -/
def one : F32 := ⟨1, 0⟩

/-- The comparison `a < b` of two floats (exact, by cross-multiplication). -/
def lt (a b : F32) : Bool := decide (a.m * 2 ^ b.e < b.m * 2 ^ a.e)

/-- Number of low bits a natural number must lose to fit 24 bits; the first
argument bounds the number of halvings and is never exhausted when it is
the number itself. -/
def dropBits : Nat → Nat → Nat
  | 0, _ => 0
  | fuel + 1, p => if p < 16777216 then 0 else dropBits fuel (p / 2) + 1

/-- The magnitude `p` without its `shift` low bits, rounded to nearest, ties to even. -/
def roundShift (p shift : Nat) : Nat :=
  let q := p / 2 ^ shift
  let r := p % 2 ^ shift
  if 2 * r > 2 ^ shift ∨ (2 * r = 2 ^ shift ∧ q % 2 = 1) then q + 1 else q

/-- Rounding of the exact dyadic `m / 2 ^ e` to the nearest `float`, ties to
even: the magnitude keeps 24 significant bits, and never a bit below
`2 ^ (-149)`. -/
def round (m : Int) (e : Nat) : F32 :=
  let p := m.natAbs
  let shift := max (dropBits p p) (e - 149)
  let q := roundShift p shift
  let sgn : Int := if m < 0 then -1 else 1
  if shift ≤ e then ⟨sgn * q, e - shift⟩ else ⟨sgn * q * 2 ^ (shift - e), 0⟩

/-- The conversion `(float)i` of an integer. -/
def ofInt (i : Int) : F32 := round i 0

/-- The product `a * b` in single precision. -/
def mul (a b : F32) : F32 := round (a.m * b.m) (a.e + b.e)

/-- The integer part of a float (conversion to an integer type truncates toward zero). -/
def trunc (x : F32) : Int := Int.tdiv x.m (2 ^ x.e)

end F32

/-- Conversion of an integer to `int16_t` (two's complement). -/
def wrapInt16 (x : Int) : Int := (x + 32768) % 65536 - 32768

/-- Conversion of an integer to `uint16_t`. -/
def wrapUInt16 (x : Int) : Nat := (x % 65536).toNat

/-- The Arduino macro `constrain(amt, low, high)` on integers:
`((amt) < (low) ? (low) : ((amt) > (high) ? (high) : (amt)))`. -/
def constrain (amt low high : Int) : Int :=
  if amt < low then low else if amt > high then high else amt

/-- The Arduino macro `constrain(amt, low, high)` on floats. -/
def constrainF (amt low high : F32) : F32 :=
  if F32.lt amt low then low else if F32.lt high amt then high else amt

/-! ## AudioGainLimiter (`AudioGainLimiter.h`, `AudioGainLimiter.cpp`) -/

def DAC_MAX_POSITIVE : Int := 32767

def DAC_MAX_NEGATIVE : Int := -32768

/-- The only field of `class AudioGainLimiter`. -/
structure AudioGainLimiter where
  gainFactor : F32
  deriving DecidableEq, Repr

namespace AudioGainLimiter

/-- The literal `0.3f`: the float nearest to 0.3, `10066330 / 2 ^ 25`. -/
def gain03 : F32 := ⟨10066330, 25⟩

/-- The constructor `AudioGainLimiter::AudioGainLimiter()`. -/
def new : AudioGainLimiter := { gainFactor := gain03 }

/-- `setGainFactor(gain)`. -/
def setGainFactor (gain : F32) (_l : AudioGainLimiter) : AudioGainLimiter :=
  { gainFactor := constrainF gain F32.zero F32.one }

/-- `init(gain)`. -/
def init (gain : F32) (l : AudioGainLimiter) : AudioGainLimiter := setGainFactor gain l

def getGainFactor (l : AudioGainLimiter) : F32 := l.gainFactor

/-- `processSample(sample)`: scale in single precision, convert back to
`int16_t`, constrain. -/
def processSample (l : AudioGainLimiter) (sample : Int) : Int :=
  let scaled := F32.mul (F32.ofInt sample) l.gainFactor
  let result := wrapInt16 (F32.trunc scaled)
  wrapInt16 (constrain result DAC_MAX_NEGATIVE DAC_MAX_POSITIVE)

/-- `processStereoPair(left, right)`: the new values of the two references. -/
def processStereoPair (l : AudioGainLimiter) (left right : Int) : Int × Int :=
  (processSample l left, processSample l right)

/-- The 16-bit sample at index `i` of a byte buffer read through an
`audio_sample_t*` (little-endian target). -/
def readSample (buffer : List Nat) (i : Nat) : Int :=
  wrapInt16 ((buffer.getD (2 * i) 0 : Int) + 256 * (buffer.getD (2 * i + 1) 0 : Int))

/-- Store of the 16-bit sample `v` at index `i` of a byte buffer. -/
def writeSample (buffer : List Nat) (i : Nat) (v : Int) : List Nat :=
  let u := (v % 65536).toNat
  (buffer.set (2 * i) (u % 256)).set (2 * i + 1) (u / 256)

/-- One iteration of the loop of `processBuffer`. -/
def processBufferStep (l : AudioGainLimiter) (buffer : List Nat) (i : Nat) : List Nat :=
  let leftIdx := i * 2
  let rightIdx := leftIdx + 1
  let buffer := writeSample buffer leftIdx (processSample l (readSample buffer leftIdx))
  writeSample buffer rightIdx (processSample l (readSample buffer rightIdx))

/-- `processBuffer(buffer, len)`: the buffer after the call and the returned length. -/
def processBuffer (l : AudioGainLimiter) (buffer : List Nat) (len : Nat) : List Nat × Nat :=
  let sampleCount := len / 2
  let pairCount := sampleCount / 2
  ((List.range pairCount).foldl (processBufferStep l) buffer, len)

end AudioGainLimiter

/-! ## AudioProcessor (`AudioProcessor.h`, `AudioProcessor.cpp`): beat detection -/

def DEFAULT_AUDIO_THRESHOLD : Nat := 512

def BEAT_DETECTION_WINDOW : Nat := 20

/-- The literal `0.7f` (`AUDIO_SMOOTHING_FACTOR`): `11744051 / 2 ^ 24`. -/
def AUDIO_SMOOTHING_FACTOR : F32 := ⟨11744051, 24⟩

/-- The private fields of `class AudioProcessor`. -/
structure AudioProcessor where
  bclkPin : Nat
  lrcPin : Nat
  doutPin : Nat
  adcPin : Nat
  audioThreshold : Nat
  rawLevel : Nat
  smoothedLevel : Nat
  peakLevel : Nat
  newDataAvailable : Bool
  beatDetected : Bool
  beatHistory : List Nat
  beatHistoryIndex : Nat
  beatAverage : Nat
  lastBeatTime : Nat
  smoothingFactor : F32
  deriving DecidableEq, Repr

namespace AudioProcessor

/-- The constructor `AudioProcessor::AudioProcessor()`. -/
def new : AudioProcessor :=
  { bclkPin := 0, lrcPin := 0, doutPin := 0, adcPin := 0
    audioThreshold := DEFAULT_AUDIO_THRESHOLD
    rawLevel := 0, smoothedLevel := 0, peakLevel := 0
    newDataAvailable := false, beatDetected := false
    beatHistory := List.replicate BEAT_DETECTION_WINDOW 0
    beatHistoryIndex := 0, beatAverage := 0, lastBeatTime := 0
    smoothingFactor := AUDIO_SMOOTHING_FACTOR }

def isBeatDetected (s : AudioProcessor) : Bool := s.beatDetected

/-- `calculateAverage(array, size)`: a `uint32_t` sum divided by `size`,
returned as `uint16_t`. -/
def calculateAverage (array : List Nat) (size : Nat) : Nat :=
  let sum := (List.range size).foldl (fun sum i => (sum + array.getD i 0) % 4294967296) 0
  wrapUInt16 ((sum / size : Nat) : Int)

/-- `detectBeat`, with `now` the value `millis()` returns when it is read. -/
def detectBeat (now : Nat) (s : AudioProcessor) : AudioProcessor :=
  let beatHistory := s.beatHistory.set s.beatHistoryIndex s.smoothedLevel
  let beatHistoryIndex := wrapUInt8 (((s.beatHistoryIndex + 1) % BEAT_DETECTION_WINDOW : Nat) : Int)
  let beatAverage := calculateAverage beatHistory BEAT_DETECTION_WINDOW
  let beatThreshold := wrapUInt16 ((beatAverage + beatAverage / 2 : Nat) : Int)
  let s := { s with beatHistory := beatHistory, beatHistoryIndex := beatHistoryIndex,
                    beatAverage := beatAverage }
  if s.smoothedLevel > beatThreshold ∧ s.smoothedLevel > 20 then
    if (now + 4294967296 - s.lastBeatTime) % 4294967296 > 100 then
      { s with beatDetected := true, lastBeatTime := now }
    else
      { s with beatDetected := false }
  else
    { s with beatDetected := false }

/-- A tick of the beat detector on the smoothed level `level`: the state in
which `updateAudioLevel` left `smoothedLevel = level`, passed to `detectBeat`. -/
def feedLevel (level now : Nat) (s : AudioProcessor) : AudioProcessor :=
  detectBeat now { s with smoothedLevel := level }

/-- Successive ticks on the same level `level`, read at the times `times`. -/
def feedConstant (level : Nat) (times : List Nat) (s : AudioProcessor) : AudioProcessor :=
  times.foldl (fun s now => feedLevel level now s) s

/-- The integer mean of the spec: the sum of the slots divided by their number, rounded down. -/
def historyMean (history : List Nat) : Nat := history.sum / history.length

/-- States of the data model: a full 20-slot history of levels in `[0, 100]`,
an index inside it, a level in `[0, 100]` and a 32-bit time stamp. -/
structure WellFormed (s : AudioProcessor) : Prop where
  length_eq : s.beatHistory.length = 20
  index_lt : s.beatHistoryIndex < 20
  history_le : ∀ x ∈ s.beatHistory, x ≤ 100
  level_le : s.smoothedLevel ≤ 100
  time_lt : s.lastBeatTime < 4294967296

end AudioProcessor

/-- The slots written by the last `j` ticks hold the level `c`. -/
def RecentSlots (c j : Nat) (s : AudioProcessor) : Prop :=
  s.beatHistory.length = 20 ∧ s.beatHistoryIndex < 20 ∧
  ∀ t, t < j → t < 20 → s.beatHistory.getD ((s.beatHistoryIndex + 19 - t) % 20) 0 = c

/-! ## AudioProcessor: level analysis -/

namespace F32

/-- The sum `a + b` in single precision. -/
def add (a b : F32) : F32 := round (a.m * 2 ^ b.e + b.m * 2 ^ a.e) (a.e + b.e)

/-- The difference `a - b` in single precision. -/
def sub (a b : F32) : F32 := round (a.m * 2 ^ b.e - b.m * 2 ^ a.e) (a.e + b.e)

end F32

/-- The value `map` returns for an empty input range (`in_max = in_min`): the
Arduino core for the ESP32, which `config.h` names as the board, tests the
range before it divides and returns -1. -/
def MAP_EMPTY_RANGE : Int := -1

/-- The Arduino core function
`long map(long x, long in_min, long in_max, long out_min, long out_max)`, which
is library code outside this repository: with `run = in_max - in_min` it
returns `MAP_EMPTY_RANGE` when `run == 0` and otherwise
`(x - in_min) * (out_max - out_min) / run + out_min` in 32-bit `long`
arithmetic, the division truncating. -/
def map (x in_min in_max out_min out_max : Int) : Int :=
  if wrapInt32 (in_max - in_min) = 0 then MAP_EMPTY_RANGE
  else
    wrapInt32 (Int.tdiv
      (wrapInt32 (wrapInt32 (x - in_min) * wrapInt32 (out_max - out_min)))
      (wrapInt32 (in_max - in_min)) + out_min)

/-- The literal `0.99f`: `16609444 / 2 ^ 24`. -/
def peakDecay : F32 := ⟨16609444, 24⟩

namespace AudioProcessor

/-- `init(bclk, lrc, dout, adcPin, threshold)`. -/
def init (bclk lrc dout adc threshold : Nat) (s : AudioProcessor) : AudioProcessor :=
  { s with bclkPin := bclk, lrcPin := lrc, doutPin := dout, adcPin := adc
           audioThreshold := threshold
           rawLevel := 0, smoothedLevel := 0, peakLevel := 0
           newDataAvailable := false, beatDetected := false }

def hasNewData (s : AudioProcessor) : Bool := s.newDataAvailable

/-- `getAudioLevel()`: `smoothedLevel` returned as `uint8_t`. -/
def getAudioLevel (s : AudioProcessor) : Nat := wrapUInt8 (s.smoothedLevel : Int)

def getRawLevel (s : AudioProcessor) : Nat := s.rawLevel

def getPeakLevel (s : AudioProcessor) : Nat := s.peakLevel

def setThreshold (threshold : Nat) (s : AudioProcessor) : AudioProcessor :=
  { s with audioThreshold := threshold }

def getThreshold (s : AudioProcessor) : Nat := s.audioThreshold

/-- The filtered raw level of `updateAudioLevel`:
`(uint16_t)(smoothingFactor * rawLevel + (1.0f - smoothingFactor) * newRaw)`. -/
def filteredLevel (newRaw : Nat) (s : AudioProcessor) : Nat :=
  wrapUInt16 (F32.trunc
    (F32.add (F32.mul s.smoothingFactor (F32.ofInt (s.rawLevel : Int)))
      (F32.mul (F32.sub F32.one s.smoothingFactor) (F32.ofInt (newRaw : Int)))))

/-- `updateAudioLevel`, with `newRaw` the value `analogRead(adcPin)` returns. -/
def updateAudioLevel (newRaw : Nat) (s : AudioProcessor) : AudioProcessor :=
  let rawLevel := filteredLevel newRaw s
  let adjustedLevel := wrapInt32 ((rawLevel : Int) - (s.audioThreshold : Int))
  let adjustedLevel := if adjustedLevel < 0 then 0 else adjustedLevel
  let scaledLevel := wrapUInt16 (map adjustedLevel 0 (4095 - (s.audioThreshold : Int)) 0 100)
  let scaledLevel := wrapUInt16 (constrain (scaledLevel : Int) 0 100)
  let peakLevel :=
    if rawLevel > s.peakLevel then rawLevel
    else wrapUInt16 (F32.trunc (F32.mul (F32.ofInt (s.peakLevel : Int)) peakDecay))
  { s with rawLevel := rawLevel, smoothedLevel := scaledLevel, peakLevel := peakLevel
           newDataAvailable := true }

/-- A state whose history holds level 10 in every slot and whose last beat
was detected at time `last`. -/
def steadyTen (last : Nat) : AudioProcessor :=
  { AudioProcessor.new with beatHistory := List.replicate 20 10, lastBeatTime := last }

/-- The method `tick`: `updateAudioLevel` then `detectBeat`; `newRaw` is the
ADC reading and `now` the value of `millis()`. -/
def tick (newRaw now : Nat) (s : AudioProcessor) : AudioProcessor :=
  detectBeat now (updateAudioLevel newRaw s)

end AudioProcessor

/-! ## EncoderControl (`EncoderControl.h`, `EncoderControl.cpp`) -/

/-- The values of `enum EncoderEventType`. -/
inductive EncoderEventType
  | EVENT_NONE
  | EVENT_ROTATE
  | EVENT_HOLD_ROTATE
  | EVENT_SINGLE_CLICK
  | EVENT_DOUBLE_CLICK
  | EVENT_TRIPLE_CLICK
  | EVENT_CLICK_HOLD_ROTATE
  | EVENT_DOUBLE_CLICK_HOLD_ROTATE
  deriving DecidableEq, Repr

/-- The record `struct EncoderEvent`. -/
structure EncoderEvent where
  type : EncoderEventType
  value : Int
  deriving DecidableEq, Repr

/-- What the `EncButton` driver and the clock report during one tick:
`turn()`, `dir()`, `pressing()`, `hasClicks()`, `getClicks()` and `millis()`. -/
structure EncoderInput where
  turn : Bool
  dir : Int
  pressing : Bool
  hasClicks : Bool
  getClicks : Nat
  millis : Nat
  deriving DecidableEq, Repr

/-- The private fields of `class EncoderControl` other than the driver. -/
structure EncoderControl where
  lastEvent : EncoderEvent
  eventConsumed : Bool
  clickStartTime : Nat
  clickCount : Nat
  wasHolding : Bool
  deriving DecidableEq, Repr

namespace EncoderControl

/-- The constructor `EncoderControl::EncoderControl()`. -/
def new : EncoderControl :=
  { lastEvent := ⟨EncoderEventType.EVENT_NONE, 0⟩, eventConsumed := true
    clickStartTime := 0, clickCount := 0, wasHolding := false }

/-- `processEncoderState`, on the driver readings `inp` of this tick. -/
def processEncoderState (inp : EncoderInput) (s : EncoderControl) : EncoderControl :=
  if inp.turn then
    let dir := inp.dir
    if inp.pressing then
      if s.clickCount = 0 then
        { s with lastEvent := ⟨EncoderEventType.EVENT_HOLD_ROTATE, dir⟩, eventConsumed := false }
      else if s.clickCount = 1 then
        { s with lastEvent := ⟨EncoderEventType.EVENT_CLICK_HOLD_ROTATE, dir⟩
                 eventConsumed := false }
      else if s.clickCount = 2 then
        { s with lastEvent := ⟨EncoderEventType.EVENT_DOUBLE_CLICK_HOLD_ROTATE, dir⟩
                 eventConsumed := false }
      else s
    else
      { s with lastEvent := ⟨EncoderEventType.EVENT_ROTATE, dir⟩, eventConsumed := false }
  else if inp.hasClicks then
    let s : EncoderControl := { s with clickCount := inp.getClicks }
    if s.clickCount = 1 then
      { s with lastEvent := ⟨EncoderEventType.EVENT_SINGLE_CLICK, 1⟩, eventConsumed := false
               clickStartTime := inp.millis }
    else if s.clickCount = 2 then
      { s with lastEvent := ⟨EncoderEventType.EVENT_DOUBLE_CLICK, 2⟩, eventConsumed := false }
    else if s.clickCount = 3 then
      { s with lastEvent := ⟨EncoderEventType.EVENT_TRIPLE_CLICK, 3⟩, eventConsumed := false
               clickCount := 0 }
    else s
  else
    let s : EncoderControl :=
      if s.clickCount > 0 ∧ (inp.millis + 4294967296 - s.clickStartTime) % 4294967296 > 1000 then
        { s with clickCount := 0 }
      else s
    let currentlyHolding := inp.pressing
    let s : EncoderControl :=
      if s.wasHolding = true ∧ currentlyHolding = false then { s with clickCount := 0 } else s
    { s with wasHolding := currentlyHolding }

/-- The method `tick`: the driver is polled, then `processEncoderState` runs. -/
def tick (inp : EncoderInput) (s : EncoderControl) : EncoderControl :=
  processEncoderState inp s

/-- `getEvent()`: the returned event and the state after the call. -/
def getEvent (s : EncoderControl) : EncoderEvent × EncoderControl :=
  if s.eventConsumed then
    let s : EncoderControl := { s with lastEvent := ⟨EncoderEventType.EVENT_NONE, 0⟩ }
    (s.lastEvent, s)
  else
    let s : EncoderControl := { s with eventConsumed := true }
    (s.lastEvent, s)

/-- The event a tick writes to `lastEvent`, if it writes one: the branches
of `processEncoderState` that assign `lastEvent` and clear `eventConsumed`. -/
def recordedEvent (inp : EncoderInput) (s : EncoderControl) : Option EncoderEvent :=
  if inp.turn then
    if inp.pressing then
      if s.clickCount = 0 then some ⟨EncoderEventType.EVENT_HOLD_ROTATE, inp.dir⟩
      else if s.clickCount = 1 then some ⟨EncoderEventType.EVENT_CLICK_HOLD_ROTATE, inp.dir⟩
      else if s.clickCount = 2 then
        some ⟨EncoderEventType.EVENT_DOUBLE_CLICK_HOLD_ROTATE, inp.dir⟩
      else none
    else some ⟨EncoderEventType.EVENT_ROTATE, inp.dir⟩
  else if inp.hasClicks then
    if inp.getClicks = 1 then some ⟨EncoderEventType.EVENT_SINGLE_CLICK, 1⟩
    else if inp.getClicks = 2 then some ⟨EncoderEventType.EVENT_DOUBLE_CLICK, 2⟩
    else if inp.getClicks = 3 then some ⟨EncoderEventType.EVENT_TRIPLE_CLICK, 3⟩
    else none
  else none

/-- A run of ticks, oldest first. -/
def ticks (inps : List EncoderInput) (s : EncoderControl) : EncoderControl :=
  inps.foldl (fun s inp => tick inp s) s

/-- The event recorded by the last event-recording tick of a run, if any tick records one. -/
def lastRecorded : List EncoderInput → EncoderControl → Option EncoderEvent
  | [], _ => none
  | inp :: rest, s =>
    match lastRecorded rest (tick inp s) with
    | some e => some e
    | none => recordedEvent inp s

/-- An idle tick: no rotation and no completed click burst. -/
def IsIdle (inp : EncoderInput) : Prop := inp.turn = false ∧ inp.hasClicks = false

/-- Runs of ticks each followed by one `getEvent()` call: the events those calls return. -/
def polls : List (List EncoderInput) → EncoderControl → List EncoderEvent
  | [], _ => []
  | round :: rest, s =>
    (getEvent (ticks round s)).1 :: polls rest (getEvent (ticks round s)).2

/-- No tick of the rounds records an event. -/
def QuietRounds : List (List EncoderInput) → EncoderControl → Prop
  | [], _ => True
  | round :: rest, s =>
    lastRecorded round s = none ∧ QuietRounds rest (getEvent (ticks round s)).2

end EncoderControl

/-! ## SystemState (`SystemState.h`, `SystemState.cpp`) and the settings store -/

def MAX_VOLUME : Int := 21

def MAX_BRIGHTNESS : Int := 15

def MAX_AUDIO_MODES : Int := 4

def MAX_VISUAL_EFFECTS : Int := 3

def EEPROM_SIZE : Nat := 512

def EEPROM_MAGIC_VALUE : Nat := 48830

def EEPROM_ADDR_MAGIC : Nat := 0

def EEPROM_ADDR_STATE : Nat := 2

def EEPROM_ADDR_VOLUME : Nat := 3

def EEPROM_ADDR_MOUTH_BRIGHT : Nat := 4

def EEPROM_ADDR_EYE_BRIGHT : Nat := 5

def EEPROM_ADDR_THRESHOLD : Nat := 6

def EEPROM_ADDR_MODE : Nat := 8

def EEPROM_ADDR_EFFECT : Nat := 9

def EEPROM_ADDR_TIME_OFFSET : Nat := 10

/-- The byte store behind `EEPROM`: the list of its bytes, address 0 first.
`EEPROM.get` and `EEPROM.put` copy the object representation of a value,
least significant byte first, from and to the address given. -/
abbrev Store := List Nat

namespace Store

/-- `EEPROM.get(addr, v)` for a `uint8_t`. -/
def getU8 (st : Store) (addr : Nat) : Nat := st.getD addr 0 % 256

/-- `EEPROM.get(addr, v)` for a `uint16_t`. -/
def getU16 (st : Store) (addr : Nat) : Nat := getU8 st addr + 256 * getU8 st (addr + 1)

/-- `EEPROM.get(addr, v)` for an `int32_t`. -/
def getI32 (st : Store) (addr : Nat) : Int :=
  wrapInt32 ((getU8 st addr : Int) + 256 * (getU8 st (addr + 1) : Int)
    + 65536 * (getU8 st (addr + 2) : Int) + 16777216 * (getU8 st (addr + 3) : Int))

/-- `EEPROM.put(addr, v)` for a `uint8_t`. -/
def putU8 (st : Store) (addr : Nat) (v : Nat) : Store := st.set addr (v % 256)

/-- `EEPROM.put(addr, v)` for a `uint16_t`. -/
def putU16 (st : Store) (addr : Nat) (v : Nat) : Store :=
  putU8 (putU8 st addr (v % 256)) (addr + 1) (v / 256 % 256)

/-- `EEPROM.put(addr, v)` for an `int32_t`. -/
def putI32 (st : Store) (addr : Nat) (v : Int) : Store :=
  let u := (v % 4294967296).toNat
  putU8 (putU8 (putU8 (putU8 st addr (u % 256)) (addr + 1) (u / 256 % 256))
    (addr + 2) (u / 65536 % 256)) (addr + 3) (u / 16777216 % 256)

end Store

/-- The private fields of `class SystemState`. -/
structure SystemState where
  powerOn : Bool
  volume : Nat
  mouthBrightness : Nat
  eyeBrightness : Nat
  audioThreshold : Nat
  audioMode : Nat
  visualEffect : Nat
  currentTimeSeconds : Int
  timeCalibrationOffset : Int
  lastTimeUpdate : Nat
  deriving DecidableEq, Repr

namespace SystemState

/-- The constructor `SystemState::SystemState()`. -/
def new : SystemState :=
  { powerOn := false, volume := 10, mouthBrightness := 8, eyeBrightness := 10
    audioThreshold := DEFAULT_AUDIO_THRESHOLD, audioMode := 0, visualEffect := 0
    currentTimeSeconds := 0, timeCalibrationOffset := 0, lastTimeUpdate := 0 }

def isPowerOn (s : SystemState) : Bool := s.powerOn

def setPowerOn (state : Bool) (s : SystemState) : SystemState := { s with powerOn := state }

def togglePower (s : SystemState) : SystemState := { s with powerOn := !s.powerOn }

def getVolume (s : SystemState) : Nat := s.volume

def setVolume (vol : Nat) (s : SystemState) : SystemState :=
  { s with volume := wrapUInt8 (constrain (vol : Int) 0 MAX_VOLUME) }

def getMouthBrightness (s : SystemState) : Nat := s.mouthBrightness

def setMouthBrightness (bright : Nat) (s : SystemState) : SystemState :=
  { s with mouthBrightness := wrapUInt8 (constrain (bright : Int) 0 MAX_BRIGHTNESS) }

def getEyeBrightness (s : SystemState) : Nat := s.eyeBrightness

def setEyeBrightness (bright : Nat) (s : SystemState) : SystemState :=
  { s with eyeBrightness := wrapUInt8 (constrain (bright : Int) 0 MAX_BRIGHTNESS) }

def getAudioThreshold (s : SystemState) : Nat := s.audioThreshold

def setAudioThreshold (threshold : Nat) (s : SystemState) : SystemState :=
  { s with audioThreshold := threshold }

def getAudioMode (s : SystemState) : Nat := s.audioMode

def setAudioMode (mode : Nat) (s : SystemState) : SystemState :=
  { s with audioMode := wrapUInt8 (constrain (mode : Int) 0 (MAX_AUDIO_MODES - 1)) }

def getVisualEffect (s : SystemState) : Nat := s.visualEffect

def setVisualEffect (effect : Nat) (s : SystemState) : SystemState :=
  { s with visualEffect := wrapUInt8 (constrain (effect : Int) 0 (MAX_VISUAL_EFFECTS - 1)) }

def getCurrentTime (s : SystemState) : Int := s.currentTimeSeconds

def setCurrentTime (seconds : Int) (s : SystemState) : SystemState :=
  { s with currentTimeSeconds := seconds }

def setTimeCalibration (offset : Int) (s : SystemState) : SystemState :=
  { s with timeCalibrationOffset := offset }

def getTimeCalibrationOffset (s : SystemState) : Int := s.timeCalibrationOffset

/-- `save()`: the store after the nine `EEPROM.put` calls and the commit. -/
def save (s : SystemState) (st : Store) : Store :=
  let magic := EEPROM_MAGIC_VALUE
  let stateByte := if s.powerOn then 1 else 0
  let st := Store.putU16 st EEPROM_ADDR_MAGIC magic
  let st := Store.putU8 st EEPROM_ADDR_STATE stateByte
  let st := Store.putU8 st EEPROM_ADDR_VOLUME s.volume
  let st := Store.putU8 st EEPROM_ADDR_MOUTH_BRIGHT s.mouthBrightness
  let st := Store.putU8 st EEPROM_ADDR_EYE_BRIGHT s.eyeBrightness
  let st := Store.putU16 st EEPROM_ADDR_THRESHOLD s.audioThreshold
  let st := Store.putU8 st EEPROM_ADDR_MODE s.audioMode
  let st := Store.putU8 st EEPROM_ADDR_EFFECT s.visualEffect
  Store.putI32 st EEPROM_ADDR_TIME_OFFSET s.timeCalibrationOffset

/-- `load()`: the fields read from the store, then validated. -/
def load (st : Store) (s : SystemState) : SystemState :=
  let stateByte := Store.getU8 st EEPROM_ADDR_STATE
  let powerOn := decide (stateByte ≠ 0)
  let volume := Store.getU8 st EEPROM_ADDR_VOLUME
  let mouthBrightness := Store.getU8 st EEPROM_ADDR_MOUTH_BRIGHT
  let eyeBrightness := Store.getU8 st EEPROM_ADDR_EYE_BRIGHT
  let audioThreshold := Store.getU16 st EEPROM_ADDR_THRESHOLD
  let audioMode := Store.getU8 st EEPROM_ADDR_MODE
  let visualEffect := Store.getU8 st EEPROM_ADDR_EFFECT
  let timeCalibrationOffset := Store.getI32 st EEPROM_ADDR_TIME_OFFSET
  let volume := wrapUInt8 (constrain (volume : Int) 0 MAX_VOLUME)
  let mouthBrightness := wrapUInt8 (constrain (mouthBrightness : Int) 0 MAX_BRIGHTNESS)
  let eyeBrightness := wrapUInt8 (constrain (eyeBrightness : Int) 0 MAX_BRIGHTNESS)
  let audioMode := wrapUInt8 (constrain (audioMode : Int) 0 (MAX_AUDIO_MODES - 1))
  let visualEffect := wrapUInt8 (constrain (visualEffect : Int) 0 (MAX_VISUAL_EFFECTS - 1))
  let audioThreshold := if audioThreshold = 0 then DEFAULT_AUDIO_THRESHOLD else audioThreshold
  { s with powerOn := powerOn, volume := volume, mouthBrightness := mouthBrightness
           eyeBrightness := eyeBrightness, audioThreshold := audioThreshold
           audioMode := audioMode, visualEffect := visualEffect
           timeCalibrationOffset := timeCalibrationOffset }

/-- `isValidEEPROM()`. -/
def isValidEEPROM (st : Store) : Bool :=
  decide (Store.getU16 st EEPROM_ADDR_MAGIC = EEPROM_MAGIC_VALUE)

/-- `writeDefaults()`. -/
def writeDefaults (s : SystemState) : SystemState :=
  { s with powerOn := false, volume := 10, mouthBrightness := 8, eyeBrightness := 10
           audioThreshold := DEFAULT_AUDIO_THRESHOLD, audioMode := 0, visualEffect := 0
           timeCalibrationOffset := 0 }

/-- `init()`: the state and the store after the call; `millis0` and
`millis1` are the two readings of `millis()`. -/
def init (millis0 millis1 : Nat) (st : Store) (s : SystemState) : SystemState × Store :=
  let r : SystemState × Store :=
    if isValidEEPROM st then (load st s, st)
    else (writeDefaults s, save (writeDefaults s) st)
  let s : SystemState := { r.1 with lastTimeUpdate := millis0 }
  let s : SystemState :=
    if s.timeCalibrationOffset ≠ 0 then
      { s with currentTimeSeconds :=
          wrapInt32 (wrapUInt32 ((millis1 : Int) / 1000 + wrapUInt32 s.timeCalibrationOffset)) }
    else s
  (s, r.2)

/-- A value a `uint16_t` can hold. -/
abbrev IsUInt16 (n : Nat) : Prop := n < 65536

/-- Every persisted field holds a value of its C type. -/
structure WellTyped (s : SystemState) : Prop where
  volume_lt : IsUInt8 s.volume
  mouthBrightness_lt : IsUInt8 s.mouthBrightness
  eyeBrightness_lt : IsUInt8 s.eyeBrightness
  audioThreshold_lt : IsUInt16 s.audioThreshold
  audioMode_lt : IsUInt8 s.audioMode
  visualEffect_lt : IsUInt8 s.visualEffect
  timeCalibrationOffset_int32 : IsInt32 s.timeCalibrationOffset

/-- States reachable from construction by `load` and `init` on arbitrary
store contents and by the setters on well-typed arguments. -/
inductive Reachable : SystemState → Prop
  | new : Reachable SystemState.new
  | load (s : SystemState) (st : Store) : Reachable s → Reachable (SystemState.load st s)
  | init (s : SystemState) (st : Store) (millis0 millis1 : Nat) :
      Reachable s → Reachable (SystemState.init millis0 millis1 st s).1
  | setPowerOn (s : SystemState) (b : Bool) : Reachable s → Reachable (s.setPowerOn b)
  | togglePower (s : SystemState) : Reachable s → Reachable s.togglePower
  | setVolume (s : SystemState) (v : Nat) : Reachable s → IsUInt8 v → Reachable (s.setVolume v)
  | setMouthBrightness (s : SystemState) (v : Nat) :
      Reachable s → IsUInt8 v → Reachable (s.setMouthBrightness v)
  | setEyeBrightness (s : SystemState) (v : Nat) :
      Reachable s → IsUInt8 v → Reachable (s.setEyeBrightness v)
  | setAudioThreshold (s : SystemState) (v : Nat) :
      Reachable s → IsUInt16 v → Reachable (s.setAudioThreshold v)
  | setAudioMode (s : SystemState) (v : Nat) :
      Reachable s → IsUInt8 v → Reachable (s.setAudioMode v)
  | setVisualEffect (s : SystemState) (v : Nat) :
      Reachable s → IsUInt8 v → Reachable (s.setVisualEffect v)
  | setCurrentTime (s : SystemState) (t : Int) :
      Reachable s → IsInt32 t → Reachable (s.setCurrentTime t)
  | setTimeCalibration (s : SystemState) (t : Int) :
      Reachable s → IsInt32 t → Reachable (s.setTimeCalibration t)

end SystemState

/-! ## LEDMatrixRenderer (`LEDMatrixRenderer.h`, `LEDMatrixRenderer.cpp`) -/

def MOUTH_WIDTH : Nat := 24

def EYE_WIDTH : Nat := 8

def MATRIX_HEIGHT : Nat := 8

def EYE_ANIMATION_INTERVAL : Nat := 100

/-- The fill mode `GFX_CLEAR` of the graphics library. -/
def GFX_CLEAR : Nat := 0

/-- The fill mode `GFX_FILL` of the graphics library. -/
def GFX_FILL : Nat := 1

/-- Conversion of an integer to `int8_t` (two's complement). -/
def wrapInt8 (x : Int) : Int := (x + 128) % 256 - 128

/-- A call of a draw primitive of the matrix driver: `rect(x0, y0, x1, y1, fill)`,
`lineV(x, y0, y1)`, `lineH(y, x0, x1)`, `dot(x, y)` and `update()`. -/
inductive DrawOp
  | rect (x0 y0 x1 y1 : Int) (fill : Nat)
  | lineV (x y0 y1 : Int)
  | lineH (y x0 x1 : Int)
  | dot (x y : Int)
  | update
  deriving DecidableEq, Repr

/-- The private fields of `class LEDMatrixRenderer` other than the driver. -/
structure LEDMatrixRenderer where
  mouthBrightness : Nat
  eyeBrightness : Nat
  waveformHistory : List Nat
  waveformIndex : Nat
  lastEyeUpdate : Nat
  eyeAnimationFrame : Nat
  eyePupilX : List Int
  eyePupilY : List Int
  deriving DecidableEq, Repr

namespace LEDMatrixRenderer

/-- The constructor `LEDMatrixRenderer::LEDMatrixRenderer()`. -/
def new : LEDMatrixRenderer :=
  { mouthBrightness := 8, eyeBrightness := 10
    waveformHistory := List.replicate MOUTH_WIDTH 0, waveformIndex := 0
    lastEyeUpdate := 0, eyeAnimationFrame := 0
    eyePupilX := [4, 4], eyePupilY := [4, 4] }

/-- `clearMouth()`. -/
def clearMouth : List DrawOp :=
  [DrawOp.rect 0 0 ((MOUTH_WIDTH : Int) - 1) ((MATRIX_HEIGHT : Int) - 1) GFX_CLEAR]

/-- `clearEyes()`. -/
def clearEyes : List DrawOp :=
  [DrawOp.rect (MOUTH_WIDTH : Int) 0 ((MOUTH_WIDTH : Int) + 2 * (EYE_WIDTH : Int) - 1)
    ((MATRIX_HEIGHT : Int) - 1) GFX_CLEAR]

/-- `map(level, 0, 100, out_min, out_max)` stored in a `uint8_t`. -/
def mapLevel (level : Nat) (out_min out_max : Int) : Nat :=
  wrapUInt8 (map (level : Int) 0 100 out_min out_max)

/-- The body of the column loop of `drawWaveformMode0` for column `x`
showing `level`: the dots of a vertical bar. -/
def waveformColumn0 (x level : Nat) : List DrawOp :=
  let height := mapLevel level 0 (MATRIX_HEIGHT : Int)
  let height := wrapUInt8 (constrain (height : Int) 0 ((MATRIX_HEIGHT : Int) - 1))
  (List.range (height + 1)).map fun y => DrawOp.dot (x : Int) ((MATRIX_HEIGHT : Int) - 1 - (y : Int))

/-- The history entry column `x` is drawn from. -/
def columnLevel (r : LEDMatrixRenderer) (x : Nat) : Nat :=
  r.waveformHistory.getD ((r.waveformIndex + x) % MOUTH_WIDTH) 0

/-- `drawWaveformMode0`: vertical bars. -/
def drawWaveformMode0 (r : LEDMatrixRenderer) : List DrawOp :=
  clearMouth
    ++ (List.range MOUTH_WIDTH).flatMap (fun x => waveformColumn0 x (columnLevel r x))
    ++ [DrawOp.update]

/-- The body of the column loop of `drawWaveformMode1`: a bar about the centre row. -/
def waveformColumn1 (x level : Nat) : List DrawOp :=
  let height := mapLevel level 0 ((MATRIX_HEIGHT : Int) / 2)
  let height := wrapUInt8 (constrain (height : Int) 0 ((MATRIX_HEIGHT : Int) / 2))
  let centerY : Int := (MATRIX_HEIGHT : Int) / 2
  (List.range height).flatMap (fun y =>
      [DrawOp.dot (x : Int) (centerY - (y : Int)), DrawOp.dot (x : Int) (centerY + (y : Int))])
    ++ [DrawOp.dot (x : Int) centerY]

/-- `drawWaveformMode1`: centred bars. -/
def drawWaveformMode1 (r : LEDMatrixRenderer) : List DrawOp :=
  clearMouth
    ++ (List.range MOUTH_WIDTH).flatMap (fun x => waveformColumn1 x (columnLevel r x))
    ++ [DrawOp.update]

/-- The body of the column loop of `drawWaveformMode2`: the dots of column
`x` and the new `prevY`. -/
def waveformColumn2 (x level prevY : Nat) : List DrawOp × Nat :=
  let y := mapLevel level 0 ((MATRIX_HEIGHT : Int) - 1)
  let y := wrapUInt8 (constrain (y : Int) 0 ((MATRIX_HEIGHT : Int) - 1))
  if x > 0 then
    let y1 := wrapInt8 (prevY : Int)
    let y2 := wrapInt8 (y : Int)
    let lo := if y1 > y2 then y2 else y1
    let hi := if y1 > y2 then y1 else y2
    ((List.range (hi - lo + 1).toNat).map (fun i => DrawOp.dot (x : Int) (lo + (i : Int))), y)
  else ([DrawOp.dot (x : Int) (y : Int)], y)

/-- `drawWaveformMode2`: the connected line plot. -/
def drawWaveformMode2 (r : LEDMatrixRenderer) : List DrawOp :=
  clearMouth
    ++ ((List.range MOUTH_WIDTH).foldl
          (fun (acc : List DrawOp × Nat) x =>
            let c := waveformColumn2 x (columnLevel r x) acc.2
            (acc.1 ++ c.1, c.2))
          ([], MATRIX_HEIGHT / 2)).1
    ++ [DrawOp.update]

/-- `drawMouthWaveform(audioLevel)`: the state after the call and the draw
calls it issues. -/
def drawMouthWaveform (audioLevel : Nat) (r : LEDMatrixRenderer) :
    LEDMatrixRenderer × List DrawOp :=
  let r : LEDMatrixRenderer :=
    { r with waveformHistory := r.waveformHistory.set r.waveformIndex audioLevel }
  let r : LEDMatrixRenderer :=
    { r with waveformIndex := wrapUInt8 (((r.waveformIndex + 1) % MOUTH_WIDTH : Nat) : Int) }
  (r, drawWaveformMode0 r)

/-- Successive calls `drawMouthWaveform(l)` for the levels of a list, oldest first. -/
def drawAll (levels : List Nat) (r : LEDMatrixRenderer) : LEDMatrixRenderer :=
  levels.foldl (fun r l => (drawMouthWaveform l r).1) r

/-- `drawEye(eyeIndex, xOffset)`. -/
def drawEye (xOffset : Nat) : List DrawOp :=
  [DrawOp.rect ((xOffset : Int) + 1) 1 ((xOffset : Int) + 6) 6 GFX_FILL,
   DrawOp.lineV ((xOffset : Int) + 0) 2 5,
   DrawOp.lineV ((xOffset : Int) + 7) 2 5,
   DrawOp.lineH 0 ((xOffset : Int) + 2) ((xOffset : Int) + 5),
   DrawOp.lineH 7 ((xOffset : Int) + 2) ((xOffset : Int) + 5)]

/-- `drawEyePupil(eyeIndex, xOffset, pupilX, pupilY, size)`. -/
def drawEyePupil (xOffset : Nat) (pupilX pupilY : Int) (size : Nat) : List DrawOp :=
  let halfSize := wrapInt8 ((size / 2 : Nat) : Int)
  let x1 := wrapInt8 (pupilX - halfSize)
  let y1 := wrapInt8 (pupilY - halfSize)
  let x2 := wrapInt8 (pupilX + halfSize)
  let y2 := wrapInt8 (pupilY + halfSize)
  let x1 := wrapInt8 (constrain x1 1 6)
  let y1 := wrapInt8 (constrain y1 1 6)
  let x2 := wrapInt8 (constrain x2 1 6)
  let y2 := wrapInt8 (constrain y2 1 6)
  [DrawOp.rect ((xOffset : Int) + x1) y1 ((xOffset : Int) + x2) y2 GFX_CLEAR]

/-- The two eyes drawn with pupils at the given positions. -/
def drawEyes (pupilX pupilY : List Int) (size : Nat) : List DrawOp :=
  (List.range 2).flatMap fun eye =>
    drawEye (MOUTH_WIDTH + eye * EYE_WIDTH)
      ++ drawEyePupil (MOUTH_WIDTH + eye * EYE_WIDTH) (pupilX.getD eye 0) (pupilY.getD eye 0) size

/-- `animateEyesMode0`: pulsing pupils. -/
def animateEyesMode0 (audioLevel : Nat) (isBeat : Bool) (r : LEDMatrixRenderer) :
    LEDMatrixRenderer × List DrawOp :=
  let pulseSize := mapLevel audioLevel 2 6
  let pulseSize := if isBeat then 7 else pulseSize
  (r, clearEyes ++ drawEyes [4, 4] [4, 4] pulseSize ++ [DrawOp.update])

/-- `animateEyesMode1`: wandering pupils; `rnd` lists the values the four
calls `random(-1, 2)` return. -/
def animateEyesMode1 (isBeat : Bool) (rnd : List Int) (r : LEDMatrixRenderer) :
    LEDMatrixRenderer × List DrawOp :=
  let step (v d : Int) : Int := wrapInt8 (constrain (wrapInt8 (v + d)) 2 5)
  let px := [step (r.eyePupilX.getD 0 0) (rnd.getD 0 0), step (r.eyePupilX.getD 1 0) (rnd.getD 2 0)]
  let py := [step (r.eyePupilY.getD 0 0) (rnd.getD 1 0), step (r.eyePupilY.getD 1 0) (rnd.getD 3 0)]
  let r : LEDMatrixRenderer := { r with eyePupilX := px, eyePupilY := py }
  let pupilSize := if isBeat then 4 else 2
  (r, clearEyes ++ drawEyes r.eyePupilX r.eyePupilY pupilSize ++ [DrawOp.update])

/-- `animateEyesMode2`: beat-reactive pupils. -/
def animateEyesMode2 (audioLevel : Nat) (isBeat : Bool) (r : LEDMatrixRenderer) :
    LEDMatrixRenderer × List DrawOp :=
  if isBeat then (r, clearEyes ++ drawEyes [4, 4] [4, 4] 6 ++ [DrawOp.update])
  else (r, clearEyes ++ drawEyes [4, 4] [4, 4] (mapLevel audioLevel 2 5) ++ [DrawOp.update])

/-- `updateEyeAnimation(audioLevel, isBeat, effectMode)`, with `now` the
value `millis()` returns and `rnd` the values `random` returns. -/
def updateEyeAnimation (now audioLevel : Nat) (isBeat : Bool) (effectMode : Nat)
    (rnd : List Int) (r : LEDMatrixRenderer) : LEDMatrixRenderer × List DrawOp :=
  if (now + 4294967296 - r.lastEyeUpdate) % 4294967296 < EYE_ANIMATION_INTERVAL then (r, [])
  else
    let r : LEDMatrixRenderer := { r with lastEyeUpdate := now }
    match effectMode with
    | 0 => animateEyesMode0 audioLevel isBeat r
    | 1 => animateEyesMode1 isBeat rnd r
    | 2 => animateEyesMode2 audioLevel isBeat r
    | _ => animateEyesMode0 audioLevel isBeat r

end LEDMatrixRenderer

/-! ## Histories and reachable states -/

/-- The level a ring buffer of `n` slots shows at circular position `x`
after the levels `ls` were pushed, oldest first, into slots holding 0:
entry `x` of the last `n` levels, 0 standing for a level not yet pushed. -/
def ringWindow (n : Nat) (ls : List Nat) (x : Nat) : Nat :=
  if ls.length + x < n then 0 else ls.getD (ls.length + x - n) 0

namespace AudioProcessor

/-- States reachable from construction by `init`, `setThreshold` and `tick`,
together with the smoothed levels the calls of `detectBeat` have pushed so
far, oldest first. -/
inductive Pushed : AudioProcessor → List Nat → Prop
  | new : Pushed AudioProcessor.new []
  | init (s : AudioProcessor) (ls : List Nat) (bclk lrc dout adc threshold : Nat) :
      Pushed s ls → Pushed (s.init bclk lrc dout adc threshold) ls
  | setThreshold (s : AudioProcessor) (ls : List Nat) (threshold : Nat) :
      Pushed s ls → Pushed (s.setThreshold threshold) ls
  | tick (s : AudioProcessor) (ls : List Nat) (newRaw now : Nat) :
      Pushed s ls → Pushed (s.tick newRaw now) (ls ++ [(s.updateAudioLevel newRaw).smoothedLevel])

end AudioProcessor

namespace EncoderControl

/-- States reachable from construction by `tick` and `getEvent`, together
with the driver readings of the ticks run so far, oldest first. -/
inductive Ran : EncoderControl → List EncoderInput → Prop
  | new : Ran EncoderControl.new []
  | tick (s : EncoderControl) (inps : List EncoderInput) (inp : EncoderInput) :
      Ran s inps → Ran (s.tick inp) (inps ++ [inp])
  | getEvent (s : EncoderControl) (inps : List EncoderInput) :
      Ran s inps → Ran s.getEvent.2 inps

/-- The pressed state sampled at the most recent idle tick (one with no
rotation and no completed click burst) of a run; false when there was none. -/
def lastIdlePressing (inps : List EncoderInput) : Bool :=
  inps.foldl (fun b inp => if inp.turn = false ∧ inp.hasClicks = false then inp.pressing else b)
    false

end EncoderControl

/-- A state with every persisted field away from its default. -/
def SystemState.sampleSettings : SystemState :=
  { SystemState.new with
    powerOn := true, volume := 21, mouthBrightness := 15, eyeBrightness := 3
    audioThreshold := 65535, audioMode := 3, visualEffect := 2
    timeCalibrationOffset := -2147483648 }

/-- The bounded settings of a state are within their bounds. -/
def SettingsInRange (s : SystemState) : Prop :=
  s.volume ≤ 21 ∧ s.mouthBrightness ≤ 15 ∧ s.eyeBrightness ≤ 15 ∧ s.audioMode ≤ 3 ∧
  s.visualEffect ≤ 2

/-! ## The statements of the specification -/

/-- The value the specification gives for `processSample`:
`clamp(round(s * k), -32768, 32767)` with the gain `k` as a rational number. -/
def specProcessSample (k : ℚ) (s : Int) : Int :=
  max (-32768) (min 32767 (round ((s : ℚ) * k)))

/-- Truncation of a rational number toward zero. -/
def truncRat (x : ℚ) : Int := if 0 ≤ x then ⌊x⌋ else ⌈x⌉

/-! ## Timekeeper: lemmas -/

theorem wrapInt32_of_range {x : Int} (h1 : -2147483648 ≤ x) (h2 : x ≤ 2147483647) :
    wrapInt32 x = x := by
  unfold wrapInt32; omega

theorem wrapUInt32_of_range {x : Int} (h1 : 0 ≤ x) (h2 : x < 4294967296) :
    wrapUInt32 x = x := by
  unfold wrapUInt32; omega

theorem tmod_neg_left (y b : Int) : Int.tmod (-y) b = -(Int.tmod y b) := by
  rw [Int.tmod_def, Int.tmod_def, Int.neg_tdiv]; ring

/-- The truncated remainder followed by the `+ 86400` correction is the floored modulus. -/
theorem tmod_fix (x : Int) :
    (if Int.tmod x 86400 < 0 then wrapInt32 (Int.tmod x 86400 + 86400) else Int.tmod x 86400)
      = x % 86400 := by
  rcases Int.le_total 0 x with hx | hx
  · rw [Int.tmod_eq_emod hx (by decide)]
    have := Int.emod_nonneg x (show (86400 : Int) ≠ 0 by decide)
    rw [if_neg (by omega)]
  · obtain ⟨y, rfl⟩ : ∃ y : Int, x = -y := ⟨-x, by omega⟩
    have hy : 0 ≤ y := by omega
    have e : Int.tmod (-y) 86400 = -(y % 86400) := by
      rw [tmod_neg_left, Int.tmod_eq_emod hy (by decide)]
    rw [e]
    have h1 := Int.emod_nonneg y (show (86400 : Int) ≠ 0 by decide)
    have h2 := Int.emod_lt_of_pos y (show (0 : Int) < 86400 by decide)
    by_cases h0 : y % 86400 = 0
    · rw [if_neg (by omega)]; omega
    · rw [if_pos (by omega), wrapInt32_of_range (by omega) (by omega)]; omega

theorem secondsToTime_of_range {s : Int} (h0 : 0 ≤ s) (h1 : s < 86400) :
    Timekeeper.secondsToTime s = ((s / 3600).toNat, (s % 3600 / 60).toNat) := by
  unfold Timekeeper.secondsToTime
  have e1 : Int.tmod s 86400 = s := Int.tmod_eq_of_lt h0 h1
  simp only [e1, if_neg (show ¬ s < 0 by omega)]
  have e2 : Int.tdiv s 3600 = s / 3600 := Int.tdiv_eq_ediv h0 (by decide)
  have e3 : Int.tmod s 3600 = s % 3600 := Int.tmod_eq_emod h0 (by decide)
  have e4 : Int.tdiv (s % 3600) 60 = s % 3600 / 60 :=
    Int.tdiv_eq_ediv (Int.emod_nonneg s (by decide)) (by decide)
  rw [e2, e3, e4]
  unfold wrapUInt8
  have a1 : s / 3600 % 256 = s / 3600 := by omega
  have a2 : s % 3600 / 60 % 256 = s % 3600 / 60 := by omega
  rw [a1, a2]

/-- What `updateTime` stores, in closed form: the 32-bit sum reduced by the floored modulus. -/
theorem updateTime_seconds (ms : Nat) (tk : Timekeeper) :
    (Timekeeper.updateTime ms tk).currentTimeSeconds
      = wrapInt32 (wrapUInt32 ((ms : Int) / 1000 + wrapUInt32 tk.calibrationOffset)) % 86400 := by
  unfold Timekeeper.updateTime
  simp only []
  exact tmod_fix _

theorem updateTime_hm (ms : Nat) (tk : Timekeeper) :
    ((Timekeeper.updateTime ms tk).currentHours, (Timekeeper.updateTime ms tk).currentMinutes)
      = Timekeeper.secondsToTime (Timekeeper.updateTime ms tk).currentTimeSeconds := by
  unfold Timekeeper.updateTime
  simp only []

/-- The 32-bit sum of `updateTime` is the exact sum whenever that fits an `int32_t`. -/
theorem wrap_sum_exact {a off : Int} (h1 : -2147483648 ≤ a + off) (h2 : a + off ≤ 2147483647) :
    wrapInt32 (wrapUInt32 (a + wrapUInt32 off)) = a + off := by
  unfold wrapInt32 wrapUInt32; omega

theorem updateTime_range (ms : Nat) (tk : Timekeeper) :
    0 ≤ (Timekeeper.updateTime ms tk).currentTimeSeconds ∧
    (Timekeeper.updateTime ms tk).currentTimeSeconds < 86400 ∧
    (Timekeeper.updateTime ms tk).currentHours ≤ 23 ∧
    (Timekeeper.updateTime ms tk).currentMinutes ≤ 59 := by
  have hs := updateTime_seconds ms tk
  have hhm := updateTime_hm ms tk
  generalize (Timekeeper.updateTime ms tk).currentTimeSeconds = s at hs hhm
  generalize wrapInt32 (wrapUInt32 ((ms : Int) / 1000 + wrapUInt32 tk.calibrationOffset)) = x at hs
  have h0 : 0 ≤ s := by omega
  have h1 : s < 86400 := by omega
  rw [secondsToTime_of_range h0 h1] at hhm
  have ha := congrArg Prod.fst hhm
  have hb := congrArg Prod.snd hhm
  simp only [] at ha hb
  refine ⟨h0, h1, ?_, ?_⟩
  · rw [ha]; omega
  · rw [hb]; omega

theorem secondsSinceMidnight_exact {h m : Nat} (hh : h < 24) (hm : m < 60) :
    Timekeeper.secondsSinceMidnight h m = (h : Int) * 3600 + (m : Int) * 60 := by
  unfold Timekeeper.secondsSinceMidnight
  rw [wrapInt32_of_range (x := (h : Int) * 3600) (by omega) (by omega),
    wrapInt32_of_range (x := (m : Int) * 60) (by omega) (by omega),
    wrapInt32_of_range (by omega) (by omega)]

/-- The offset `setTime` stores, in closed form. -/
theorem setTime_offset (ms h m : Nat) (tk : Timekeeper) (hms : ms < 4294967296) :
    (Timekeeper.setTime ms h m tk).calibrationOffset
      = if ((h % 24 : Nat) : Int) * 3600 + ((m % 60 : Nat) : Int) * 60 - (ms : Int) / 1000 < 0
        then ((h % 24 : Nat) : Int) * 3600 + ((m % 60 : Nat) : Int) * 60 - (ms : Int) / 1000 + 86400
        else ((h % 24 : Nat) : Int) * 3600 + ((m % 60 : Nat) : Int) * 60 - (ms : Int) / 1000 := by
  unfold Timekeeper.setTime
  simp only []
  have hh : h % 24 < 24 := Nat.mod_lt _ (by decide)
  have hm : m % 60 < 60 := Nat.mod_lt _ (by decide)
  rw [secondsSinceMidnight_exact hh hm]
  have hq : (0 : Int) ≤ (ms : Int) / 1000 ∧ (ms : Int) / 1000 ≤ 4294967 := by omega
  rw [wrapInt32_of_range (x := (ms : Int) / 1000) (by omega) (by omega)]
  rw [wrapInt32_of_range
    (x := ((h % 24 : Nat) : Int) * 3600 + ((m % 60 : Nat) : Int) * 60 - (ms : Int) / 1000)
    (by omega) (by omega)]
  split
  · rw [wrapInt32_of_range (by omega) (by omega)]
  · rfl

/-- Seconds of day shown by a `tick` at counter `ms1` after `setTime` at counter `ms0`. -/
theorem tick_setTime_seconds (ms0 ms1 h m : Nat) (tk : Timekeeper)
    (h0 : ms0 < 4294967296) (h1 : ms1 < 4294967296) :
    (Timekeeper.tick ms1 (Timekeeper.setTime ms0 h m tk)).currentTimeSeconds
      = (((h % 24 : Nat) : Int) * 3600 + ((m % 60 : Nat) : Int) * 60
          + ((ms1 : Int) / 1000 - (ms0 : Int) / 1000)) % 86400 := by
  unfold Timekeeper.tick
  rw [updateTime_seconds, setTime_offset ms0 h m tk h0]
  have hh : h % 24 < 24 := Nat.mod_lt _ (by decide)
  have hm : m % 60 < 60 := Nat.mod_lt _ (by decide)
  split
  · rw [wrap_sum_exact (by omega) (by omega)]; omega
  · rw [wrap_sum_exact (by omega) (by omega)]; omega

/-- Hours and minutes shown by a `tick` at counter `ms1` after `setTime` at counter `ms0`. -/
theorem tick_setTime_hm (ms0 ms1 h m : Nat) (tk : Timekeeper)
    (h0 : ms0 < 4294967296) (h1 : ms1 < 4294967296) (S : Int)
    (hS : S = (((h % 24 : Nat) : Int) * 3600 + ((m % 60 : Nat) : Int) * 60
          + ((ms1 : Int) / 1000 - (ms0 : Int) / 1000)) % 86400) :
    (Timekeeper.tick ms1 (Timekeeper.setTime ms0 h m tk)).currentHours = (S / 3600).toNat ∧
    (Timekeeper.tick ms1 (Timekeeper.setTime ms0 h m tk)).currentMinutes
      = (S % 3600 / 60).toNat := by
  have g0 : 0 ≤ S := hS ▸ Int.emod_nonneg _ (by decide)
  have g1 : S < 86400 := hS ▸ Int.emod_lt_of_pos _ (by decide)
  have hs := tick_setTime_seconds ms0 ms1 h m tk h0 h1
  rw [← hS] at hs
  have hhm := updateTime_hm ms1 (Timekeeper.setTime ms0 h m tk)
  unfold Timekeeper.tick at hs ⊢
  rw [hs, secondsToTime_of_range g0 g1, Prod.mk.injEq] at hhm
  exact hhm

/-- Whatever its argument, `init` ends in an `updateTime` on a state with the old offset. -/
theorem init_eq_updateTime (millis0 millis1 : Nat) (t : Int) (tk : Timekeeper) :
    ∃ tk0 : Timekeeper, tk0.calibrationOffset = tk.calibrationOffset ∧
      Timekeeper.init millis0 millis1 t tk = Timekeeper.updateTime millis1 tk0 := by
  unfold Timekeeper.init Timekeeper.tick
  simp only [ite_self]
  split
  · exact ⟨_, rfl, rfl⟩
  · exact ⟨_, rfl, rfl⟩

theorem getHours_eq (tk : Timekeeper) : tk.getHours = tk.currentHours := rfl

theorem getMinutes_eq (tk : Timekeeper) : tk.getMinutes = tk.currentMinutes := rfl

theorem getCalibrationOffset_eq (tk : Timekeeper) :
    tk.getCalibrationOffset = tk.calibrationOffset := rfl

/-! ## Timekeeper: the claims -/

/-- C4: for every hours and minutes value (any natural number, so every
`uint8_t`) and every value `ms` of the 32-bit millisecond counter (uptimes
beyond one day included), `setTime(hours, minutes)` followed by `tick()` at
the same counter value shows `hours mod 24` and `minutes mod 60`. -/
theorem setTime_tick_reproduces (tk : Timekeeper) (ms hours minutes : Nat)
    (hms : IsMillis ms) :
    (Timekeeper.tick ms (Timekeeper.setTime ms hours minutes tk)).getHours = hours % 24 ∧
    (Timekeeper.tick ms (Timekeeper.setTime ms hours minutes tk)).getMinutes
      = minutes % 60 := by
  obtain ⟨a, b⟩ := tick_setTime_hm ms ms hours minutes tk hms hms _ rfl
  rw [getHours_eq, getMinutes_eq, a, b]
  clear a b
  constructor <;> omega

theorem setTime_tick_reproduces_witness :
    IsMillis 4000000000 ∧
    (Timekeeper.tick 4000000000 (Timekeeper.setTime 4000000000 250 255 Timekeeper.new)).getHours
      = 250 % 24 ∧
    (Timekeeper.tick 4000000000
      (Timekeeper.setTime 4000000000 250 255 Timekeeper.new)).getMinutes = 255 % 60 :=
  ⟨by decide, setTime_tick_reproduces Timekeeper.new 4000000000 250 255 (by decide)⟩

/-- C5: for every `h`, `m`, `t0` and `k`, `setTime(h, m)` at counter `t0`
followed by `tick()` at counter `t0 + 1000 * k` (a value of the 32-bit
counter, so the counter has not wrapped) shows the time of day
`S = (3600 * (h mod 24) + 60 * (m mod 60) + k) mod 86400`, that is hours
`S / 3600` and minutes `(S mod 3600) / 60`. -/
theorem setTime_tick_advance (tk : Timekeeper) (t0 k h m : Nat)
    (hk : IsMillis (t0 + 1000 * k)) :
    (Timekeeper.tick (t0 + 1000 * k) (Timekeeper.setTime t0 h m tk)).getHours
      = (3600 * (h % 24) + 60 * (m % 60) + k) % 86400 / 3600 ∧
    (Timekeeper.tick (t0 + 1000 * k) (Timekeeper.setTime t0 h m tk)).getMinutes
      = (3600 * (h % 24) + 60 * (m % 60) + k) % 86400 % 3600 / 60 := by
  unfold IsMillis at hk
  obtain ⟨a, b⟩ := tick_setTime_hm t0 (t0 + 1000 * k) h m tk (by omega) hk _ rfl
  rw [getHours_eq, getMinutes_eq, a, b]
  clear a b
  constructor <;> omega

theorem setTime_tick_advance_witness :
    (IsMillis (777 + 1000 * 3661) ∧
      (Timekeeper.tick (777 + 1000 * 3661) (Timekeeper.setTime 777 13 45 Timekeeper.new)).getHours
        = 14 ∧
      (Timekeeper.tick (777 + 1000 * 3661)
        (Timekeeper.setTime 777 13 45 Timekeeper.new)).getMinutes = 46) ∧
    (IsMillis (777 + 1000 * 120) ∧
      (Timekeeper.tick (777 + 1000 * 120) (Timekeeper.setTime 777 23 59 Timekeeper.new)).getHours
        = 0 ∧
      (Timekeeper.tick (777 + 1000 * 120)
        (Timekeeper.setTime 777 23 59 Timekeeper.new)).getMinutes = 1) :=
  ⟨⟨by decide, setTime_tick_advance Timekeeper.new 777 3661 13 45 (by decide)⟩,
    ⟨by decide, setTime_tick_advance Timekeeper.new 777 120 23 59 (by decide)⟩⟩

/-- C6: in every `Timekeeper` state reachable from construction by `init`,
`tick`, `setTime` and `setCalibrationOffset` (any counter values, any
`int32_t` arguments), `currentTimeSeconds` is in `[0, 86400)`, `getHours()`
is at most 23 and `getMinutes()` is at most 59. -/
theorem reachable_time_in_range (tk : Timekeeper) (hr : Timekeeper.Reachable tk) :
    0 ≤ tk.currentTimeSeconds ∧ tk.currentTimeSeconds < 86400 ∧
    tk.getHours ≤ 23 ∧ tk.getMinutes ≤ 59 := by
  rw [getHours_eq, getMinutes_eq]
  induction hr with
  | new => decide
  | init tk millis0 millis1 t _ _ _ _ _ =>
    obtain ⟨tk0, _, e⟩ := init_eq_updateTime millis0 millis1 t tk
    rw [e]
    exact updateTime_range _ _
  | tick tk millis _ _ _ => exact updateTime_range _ _
  | setTime tk millis hours minutes _ _ _ _ _ =>
    have hh : hours % 24 < 24 := Nat.mod_lt _ (by decide)
    have hm : minutes % 60 < 60 := Nat.mod_lt _ (by decide)
    have e : (Timekeeper.setTime millis hours minutes tk).currentTimeSeconds
        = ((hours % 24 : Nat) : Int) * 3600 + ((minutes % 60 : Nat) : Int) * 60 := by
      unfold Timekeeper.setTime
      simp only []
      exact secondsSinceMidnight_exact hh hm
    have e1 : (Timekeeper.setTime millis hours minutes tk).currentHours = hours % 24 := by
      unfold Timekeeper.setTime
      simp only []
    have e2 : (Timekeeper.setTime millis hours minutes tk).currentMinutes = minutes % 60 := by
      unfold Timekeeper.setTime
      simp only []
    rw [e, e1, e2]
    clear e e1 e2
    omega
  | setCalibrationOffset tk millis0 millis1 offset _ _ _ _ _ => exact updateTime_range _ _

theorem reachable_time_in_range_witness :
    Timekeeper.Reachable
      (Timekeeper.setCalibrationOffset 10 20 (-2147483648)
        (Timekeeper.init 0 5 90000 Timekeeper.new)) ∧
    0 ≤ (Timekeeper.setCalibrationOffset 10 20 (-2147483648)
        (Timekeeper.init 0 5 90000 Timekeeper.new)).currentTimeSeconds ∧
    (Timekeeper.setCalibrationOffset 10 20 (-2147483648)
        (Timekeeper.init 0 5 90000 Timekeeper.new)).currentTimeSeconds < 86400 ∧
    (Timekeeper.setCalibrationOffset 10 20 (-2147483648)
        (Timekeeper.init 0 5 90000 Timekeeper.new)).getHours ≤ 23 ∧
    (Timekeeper.setCalibrationOffset 10 20 (-2147483648)
        (Timekeeper.init 0 5 90000 Timekeeper.new)).getMinutes ≤ 59 :=
  have hr : Timekeeper.Reachable
      (Timekeeper.setCalibrationOffset 10 20 (-2147483648)
        (Timekeeper.init 0 5 90000 Timekeeper.new)) :=
    Timekeeper.Reachable.setCalibrationOffset _ 10 20 (-2147483648)
      (Timekeeper.Reachable.init _ 0 5 90000 Timekeeper.Reachable.new
        (by decide) (by decide) (by decide))
      (by decide) (by decide) (by decide)
  ⟨hr, reachable_time_in_range _ hr⟩

/-- C7, counterexample: with the offset 2147483647 installed by
`setCalibrationOffset`, a `tick()` at counter value 1000 stores 74752, while
the floored modulus of `1000 / 1000 + 2147483647` over the integers is 11648. -/
theorem tick_seconds_overflow_counterexample :
    (Timekeeper.tick 1000
      (Timekeeper.setCalibrationOffset 0 0 2147483647 Timekeeper.new)).currentTimeSeconds
        = 74752 ∧
    (((1000 : Nat) : Int) / 1000 + 2147483647) % 86400 = 11648 := by
  decide

/-- C7, amended: for every value `ms` of the millisecond counter and every
stored calibration offset such that `ms / 1000 + offset` fits an `int32_t`
(every offset from -2147483648 up to 2143188680 does, for every `ms`), after
`tick()` the seconds of day equal the floored modulus
`((ms / 1000) + offset) mod 86400` over the integers. -/
theorem tick_seconds_floored_mod (tk : Timekeeper) (ms : Nat)
    (hms : IsMillis ms) (hoff : IsInt32 tk.calibrationOffset)
    (hfit : (ms : Int) / 1000 + tk.calibrationOffset ≤ 2147483647) :
    (Timekeeper.tick ms tk).currentTimeSeconds
      = ((ms : Int) / 1000 + tk.calibrationOffset) % 86400 := by
  unfold Timekeeper.tick
  rw [updateTime_seconds]
  unfold IsMillis at hms
  unfold IsInt32 at hoff
  generalize tk.calibrationOffset = off at hoff hfit
  rw [wrap_sum_exact (by omega) (by omega)]

theorem tick_seconds_floored_mod_witness :
    IsMillis 4294967295 ∧
    IsInt32 (Timekeeper.setCalibrationOffset 0 0 (-2147483648) Timekeeper.new).calibrationOffset ∧
    ((4294967295 : Nat) : Int) / 1000
      + (Timekeeper.setCalibrationOffset 0 0 (-2147483648) Timekeeper.new).calibrationOffset
      ≤ 2147483647 ∧
    (Timekeeper.tick 4294967295
      (Timekeeper.setCalibrationOffset 0 0 (-2147483648) Timekeeper.new)).currentTimeSeconds
      = (((4294967295 : Nat) : Int) / 1000
          + (Timekeeper.setCalibrationOffset 0 0 (-2147483648)
              Timekeeper.new).calibrationOffset) % 86400 :=
  ⟨by decide, by decide, by decide,
    tick_seconds_floored_mod (Timekeeper.setCalibrationOffset 0 0 (-2147483648) Timekeeper.new)
      4294967295 (by decide) (by decide) (by decide)⟩

/-- C8, failing input: `setTime(0, 0)` at counter value 200000000 (an uptime
of 200000 s, more than one day) stores the calibration offset -113600, which
is negative: the single `+ 86400` does not bring `0 - 200000` into
`[0, 86400)`. -/
theorem setTime_offset_negative_after_one_day :
    (Timekeeper.setTime 200000000 0 0 Timekeeper.new).getCalibrationOffset = -113600 := by
  decide

/-! ## Single precision and the gain limiter: lemmas -/

theorem F32.dropBits_of_lt (fuel p : Nat) (h : p < 16777216) : F32.dropBits fuel p = 0 := by
  cases fuel with
  | zero => rfl
  | succ f => simp [F32.dropBits, h]

theorem F32.dropBits_le (fuel : Nat) :
    ∀ p d : Nat, p < 2 ^ (24 + d) → F32.dropBits fuel p ≤ d := by
  induction fuel with
  | zero => intro p d _; simp [F32.dropBits]
  | succ f ih =>
    intro p d h
    simp only [F32.dropBits]
    split
    · omega
    · rename_i hp
      cases d with
      | zero => exact absurd (by simpa using h) hp
      | succ d =>
        have h2 : p / 2 < 2 ^ (24 + d) := by
          rw [show 24 + (d + 1) = (24 + d) + 1 by omega, pow_succ] at h
          omega
        have := ih (p / 2) d h2
        omega

theorem F32.dropBits_fits (fuel : Nat) :
    ∀ p : Nat, p < 16777216 * 2 ^ fuel → p / 2 ^ F32.dropBits fuel p < 16777216 := by
  induction fuel with
  | zero =>
    intro p h
    simp only [F32.dropBits, pow_zero, Nat.div_one]
    omega
  | succ f ih =>
    intro p h
    simp only [F32.dropBits]
    split
    · simpa using ‹p < 16777216›
    · rw [pow_succ] at h
      have h2 := ih (p / 2) (by omega)
      rw [pow_succ, Nat.mul_comm, ← Nat.div_div_eq_div_mul]
      exact h2

theorem F32.dropBits_normal (fuel : Nat) :
    ∀ p : Nat, 0 < F32.dropBits fuel p → 8388608 ≤ p / 2 ^ F32.dropBits fuel p := by
  induction fuel with
  | zero => intro p h; simp [F32.dropBits] at h
  | succ f ih =>
    intro p h
    simp only [F32.dropBits] at h ⊢
    split
    · rename_i hp
      rw [if_pos hp] at h
      omega
    · rename_i hp
      rw [pow_succ, Nat.mul_comm, ← Nat.div_div_eq_div_mul]
      rcases Nat.eq_zero_or_pos (F32.dropBits f (p / 2)) with h0 | h0
      · rw [h0, pow_zero, Nat.div_one]
        omega
      · exact ih (p / 2) h0

/-- The fuel `p` suffices: `round` keeps a magnitude of at most 24 bits, and
of exactly 24 bits whenever it drops any. -/
theorem F32.dropBits_self (p : Nat) :
    p / 2 ^ F32.dropBits p p < 16777216 ∧
    (0 < F32.dropBits p p → 8388608 ≤ p / 2 ^ F32.dropBits p p) := by
  refine ⟨F32.dropBits_fits p p ?_, F32.dropBits_normal p p⟩
  have := Nat.lt_two_pow p
  omega

theorem F32.roundShift_le (p k b : Nat) (h : p ≤ b * 2 ^ k) : F32.roundShift p k ≤ b := by
  unfold F32.roundShift
  have hP : 0 < 2 ^ k := Nat.pow_pos (by decide)
  have hdm := Nat.div_add_mod p (2 ^ k)
  have hr := Nat.mod_lt p hP
  generalize 2 ^ k = P at *
  generalize p / P = q at *
  generalize p % P = r at *
  simp only []
  have hq : q ≤ b := by
    apply Nat.le_of_mul_le_mul_right _ hP
    rw [Nat.mul_comm q P]
    omega
  split
  · rename_i hc
    have hr0 : 0 < r := by omega
    have : q * P < b * P := by rw [Nat.mul_comm q P]; omega
    have := Nat.lt_of_mul_lt_mul_right this
    omega
  · exact hq

theorem F32.ofInt_exact (s : Int) (h : s.natAbs < 16777216) : F32.ofInt s = ⟨s, 0⟩ := by
  unfold F32.ofInt F32.round
  have e1 : max (F32.dropBits s.natAbs s.natAbs) (0 - 149) = 0 := by
    rw [F32.dropBits_of_lt _ _ h]; rfl
  have e2 : F32.roundShift s.natAbs 0 = s.natAbs := by
    unfold F32.roundShift
    simp only [pow_zero, Nat.div_one, Nat.mod_one]
    rw [if_neg (by omega)]
  have e3 : (if s < 0 then (-1 : Int) else 1) * (s.natAbs : Int) = s := by
    split <;> omega
  simp only [e1, e2, e3, Nat.le_refl, if_true, Nat.sub_self]

theorem tdiv_natCast_pow (q n : Nat) :
    Int.tdiv (q : Int) ((2 : Int) ^ n) = ((q / 2 ^ n : Nat) : Int) := by
  rw [Int.tdiv_eq_ediv (Int.ofNat_nonneg q) (by positivity)]
  push_cast
  rfl

/-- Integer part of the single-precision product of a sample and a gain in `[0, 1]`:
a magnitude at most that of the sample, with the sign of the exact product. -/
theorem F32.trunc_mul_bounds (s : Int) (g : F32) (hs : s.natAbs ≤ 32768)
    (h0 : 0 ≤ g.m) (h1 : g.m ≤ 2 ^ g.e) :
    ∃ t : Nat, t ≤ s.natAbs ∧ (s * g.m = 0 → t = 0) ∧
      (F32.mul (F32.ofInt s) g).trunc = (if s * g.m < 0 then -1 else 1) * (t : Int) := by
  rw [F32.ofInt_exact s (by omega)]
  unfold F32.mul F32.round
  simp only [Nat.zero_add]
  have hpb : (s * g.m).natAbs ≤ s.natAbs * 2 ^ g.e := by
    rw [Int.natAbs_mul]
    apply Nat.mul_le_mul_left
    have e1 : ((g.m.natAbs : Nat) : Int) = g.m := Int.natAbs_of_nonneg h0
    have e2 : ((g.m.natAbs : Nat) : Int) ≤ ((2 ^ g.e : Nat) : Int) := by
      rw [e1]; exact_mod_cast h1
    exact_mod_cast e2
  have hp0 : s * g.m = 0 → (s * g.m).natAbs = 0 := fun h => by rw [h]; rfl
  generalize (s * g.m).natAbs = p at hpb hp0
  have hsh : max (F32.dropBits p p) (g.e - 149) ≤ g.e := by
    apply max_le
    · apply F32.dropBits_le
      calc p ≤ s.natAbs * 2 ^ g.e := hpb
        _ ≤ 32768 * 2 ^ g.e := Nat.mul_le_mul_right _ hs
        _ < 2 ^ 24 * 2 ^ g.e :=
            Nat.mul_lt_mul_of_pos_right (by norm_num) (Nat.pow_pos (by decide))
        _ = 2 ^ (24 + g.e) := (pow_add 2 24 g.e).symm
    · omega
  generalize max (F32.dropBits p p) (g.e - 149) = k at hsh
  rw [if_pos hsh]
  unfold F32.trunc
  simp only []
  have hq : F32.roundShift p k ≤ s.natAbs * 2 ^ (g.e - k) := by
    apply F32.roundShift_le
    rw [Nat.mul_assoc, ← pow_add, Nat.sub_add_cancel hsh]
    exact hpb
  have hq0 : s * g.m = 0 → F32.roundShift p k = 0 := fun h => by
    have := F32.roundShift_le p k 0 (by rw [hp0 h]; exact Nat.zero_le _)
    omega
  generalize F32.roundShift p k = q at hq hq0
  refine ⟨q / 2 ^ (g.e - k), ?_, ?_, ?_⟩
  · exact Nat.div_le_of_le_mul (by rw [Nat.mul_comm]; exact hq)
  · intro h
    rw [hq0 h, Nat.zero_div]
  · split
    · rw [show (-1 : Int) * (q : Int) = -(q : Int) by ring, Int.neg_tdiv, tdiv_natCast_pow]
      ring
    · rw [one_mul, one_mul, tdiv_natCast_pow]

theorem F32.toRat_nonneg_iff (g : F32) : 0 ≤ g.toRat ↔ 0 ≤ g.m := by
  unfold F32.toRat
  rw [le_div_iff₀ (by positivity), zero_mul]
  exact_mod_cast Iff.rfl

theorem F32.toRat_le_one_iff (g : F32) : g.toRat ≤ 1 ↔ g.m ≤ 2 ^ g.e := by
  unfold F32.toRat
  rw [div_le_iff₀ (by positivity), one_mul]
  exact_mod_cast Iff.rfl

theorem F32.trunc_eq_truncRat (x : F32) : x.trunc = truncRat x.toRat := by
  have hfl : ∀ n : Int, ⌊(n : ℚ) / (2 : ℚ) ^ x.e⌋ = n / (2 : Int) ^ x.e := by
    intro n
    have := Rat.floor_intCast_div_natCast n (2 ^ x.e)
    push_cast at this
    exact this
  unfold F32.trunc truncRat
  rcases le_or_lt 0 x.m with h | h
  · rw [if_pos ((F32.toRat_nonneg_iff x).2 h)]
    unfold F32.toRat
    rw [hfl, Int.tdiv_eq_ediv h (by positivity)]
  · rw [if_neg (by rw [F32.toRat_nonneg_iff]; omega)]
    unfold F32.toRat
    have e1 : (x.m : ℚ) / (2 : ℚ) ^ x.e = -(((-x.m : Int) : ℚ) / (2 : ℚ) ^ x.e) := by
      push_cast; ring
    rw [e1, Int.ceil_neg, hfl]
    have e2 : x.m = -(-x.m) := by ring
    conv_lhs => rw [e2]
    rw [Int.neg_tdiv, Int.tdiv_eq_ediv (by omega) (by positivity)]

theorem wrapInt16_of_range {x : Int} (h1 : -32768 ≤ x) (h2 : x ≤ 32767) : wrapInt16 x = x := by
  unfold wrapInt16; omega

/-- With a gain in `[0, 1]` the integer part of the product lies between 0 and the sample. -/
theorem trunc_mul_between (s : Int) (g : F32) (hs : IsInt16 s)
    (h0 : 0 ≤ g.toRat) (h1 : g.toRat ≤ 1) :
    (0 ≤ s → 0 ≤ (F32.mul (F32.ofInt s) g).trunc ∧ (F32.mul (F32.ofInt s) g).trunc ≤ s) ∧
    (s ≤ 0 → s ≤ (F32.mul (F32.ofInt s) g).trunc ∧ (F32.mul (F32.ofInt s) g).trunc ≤ 0) := by
  rw [F32.toRat_nonneg_iff] at h0
  rw [F32.toRat_le_one_iff] at h1
  unfold IsInt16 at hs
  obtain ⟨t, ht, ht0, e⟩ := F32.trunc_mul_bounds s g (by omega) h0 h1
  rw [e]
  clear e h1
  have hpos : 0 ≤ s → 0 ≤ s * g.m := fun h => mul_nonneg h h0
  have hneg : s ≤ 0 → s * g.m ≤ 0 := fun h => mul_nonpos_of_nonpos_of_nonneg h h0
  generalize s * g.m = x at ht0 hpos hneg
  constructor
  · intro h
    rw [if_neg (by have := hpos h; omega)]
    omega
  · intro h
    have := hneg h
    split
    · omega
    · have := ht0 (by omega)
      omega

/-- With a gain in `[0, 1]` neither conversion nor `constrain` changes the
integer part of the product. -/
theorem processSample_eq_trunc (l : AudioGainLimiter) (s : Int) (hs : IsInt16 s)
    (h0 : 0 ≤ l.gainFactor.toRat) (h1 : l.gainFactor.toRat ≤ 1) :
    l.processSample s = (F32.mul (F32.ofInt s) l.gainFactor).trunc := by
  obtain ⟨a, b⟩ := trunc_mul_between s l.gainFactor hs h0 h1
  unfold IsInt16 at hs
  unfold AudioGainLimiter.processSample
  simp only []
  generalize (F32.mul (F32.ofInt s) l.gainFactor).trunc = t at a b
  have ht : -32768 ≤ t ∧ t ≤ 32767 := by
    rcases le_total 0 s with h | h
    · have := a h; omega
    · have := b h; omega
  rw [wrapInt16_of_range ht.1 ht.2]
  unfold constrain DAC_MAX_NEGATIVE DAC_MAX_POSITIVE
  rw [if_neg (by omega), if_neg (by omega), wrapInt16_of_range ht.1 ht.2]


theorem F32.toRat_lt_iff (a b : F32) : F32.lt a b = true ↔ a.toRat < b.toRat := by
  unfold F32.lt F32.toRat
  rw [decide_eq_true_iff, div_lt_div_iff₀ (by positivity) (by positivity)]
  exact_mod_cast Iff.rfl

theorem F32.toRat_zero : F32.zero.toRat = 0 := by
  simp [F32.zero, F32.toRat]

theorem F32.toRat_one : F32.one.toRat = 1 := by
  simp [F32.one, F32.toRat]

theorem constrainF_zero_one (g : F32) :
    (g.toRat < 0 → constrainF g F32.zero F32.one = F32.zero) ∧
    (1 < g.toRat → constrainF g F32.zero F32.one = F32.one) ∧
    (0 ≤ g.toRat → g.toRat ≤ 1 → constrainF g F32.zero F32.one = g) := by
  have hz := F32.toRat_lt_iff g F32.zero
  have ho := F32.toRat_lt_iff F32.one g
  rw [F32.toRat_zero] at hz
  rw [F32.toRat_one] at ho
  unfold constrainF
  refine ⟨fun h => ?_, fun h => ?_, fun h0 h1 => ?_⟩
  · rw [if_pos (hz.2 h)]
  · have h0 : ¬ F32.lt g F32.zero = true := fun h2 => by
      have := hz.1 h2
      linarith
    rw [if_neg h0, if_pos (ho.2 h)]
  · have h2 : ¬ F32.lt g F32.zero = true := fun h2 => by
      have := hz.1 h2
      linarith
    have h3 : ¬ F32.lt F32.one g = true := fun h2 => by
      have := ho.1 h2
      linarith
    rw [if_neg h2, if_neg h3]


theorem writeSample_length (buf : List Nat) (i : Nat) (v : Int) :
    (AudioGainLimiter.writeSample buf i v).length = buf.length := by
  simp [AudioGainLimiter.writeSample]

theorem writeSample_getD_of_ne (buf : List Nat) (i j : Nat) (v : Int)
    (h1 : j ≠ 2 * i) (h2 : j ≠ 2 * i + 1) :
    (AudioGainLimiter.writeSample buf i v).getD j 0 = buf.getD j 0 := by
  simp only [AudioGainLimiter.writeSample, List.getD_eq_getElem?_getD]
  rw [List.getElem?_set_ne (Ne.symm h2), List.getElem?_set_ne (Ne.symm h1)]

theorem readSample_writeSample_of_ne (buf : List Nat) (i j : Nat) (v : Int) (h : j ≠ i) :
    AudioGainLimiter.readSample (AudioGainLimiter.writeSample buf i v) j
      = AudioGainLimiter.readSample buf j := by
  unfold AudioGainLimiter.readSample
  rw [writeSample_getD_of_ne buf i (2 * j) v (by omega) (by omega),
    writeSample_getD_of_ne buf i (2 * j + 1) v (by omega) (by omega)]

theorem readSample_writeSample_self (buf : List Nat) (i : Nat) (v : Int)
    (h : 2 * i + 1 < buf.length) :
    AudioGainLimiter.readSample (AudioGainLimiter.writeSample buf i v) i = wrapInt16 v := by
  simp only [AudioGainLimiter.readSample, AudioGainLimiter.writeSample,
    List.getD_eq_getElem?_getD]
  rw [List.getElem?_set_ne (by omega), List.getElem?_set_self (by omega),
    List.getElem?_set_self (by rw [List.length_set]; exact h)]
  simp only [Option.getD_some]
  unfold wrapInt16
  omega

theorem wrapInt16_idem (x : Int) : wrapInt16 (wrapInt16 x) = wrapInt16 x := by
  unfold wrapInt16; omega

theorem wrapInt16_processSample (l : AudioGainLimiter) (s : Int) :
    wrapInt16 (l.processSample s) = l.processSample s := by
  unfold AudioGainLimiter.processSample
  exact wrapInt16_idem _

theorem processBufferStep_length (l : AudioGainLimiter) (buf : List Nat) (i : Nat) :
    (l.processBufferStep buf i).length = buf.length := by
  unfold AudioGainLimiter.processBufferStep
  simp only [writeSample_length]

theorem processBufferStep_getD_of_outside (l : AudioGainLimiter) (buf : List Nat) (i j : Nat)
    (h : j < 4 * i ∨ 4 * i + 4 ≤ j) :
    (l.processBufferStep buf i).getD j 0 = buf.getD j 0 := by
  unfold AudioGainLimiter.processBufferStep
  simp only []
  rw [writeSample_getD_of_ne _ _ _ _ (by omega) (by omega),
    writeSample_getD_of_ne _ _ _ _ (by omega) (by omega)]

theorem processBufferStep_read_of_ne (l : AudioGainLimiter) (buf : List Nat) (i j : Nat)
    (h1 : j ≠ 2 * i) (h2 : j ≠ 2 * i + 1) :
    AudioGainLimiter.readSample (l.processBufferStep buf i) j
      = AudioGainLimiter.readSample buf j := by
  unfold AudioGainLimiter.processBufferStep
  simp only []
  rw [readSample_writeSample_of_ne _ _ _ _ (by omega),
    readSample_writeSample_of_ne _ _ _ _ (by omega)]

theorem processBufferStep_read_left (l : AudioGainLimiter) (buf : List Nat) (i : Nat)
    (h : 4 * i + 4 ≤ buf.length) :
    AudioGainLimiter.readSample (l.processBufferStep buf i) (2 * i)
      = l.processSample (AudioGainLimiter.readSample buf (2 * i)) := by
  unfold AudioGainLimiter.processBufferStep
  simp only []
  rw [readSample_writeSample_of_ne _ _ _ _ (by omega), Nat.mul_comm i 2,
    readSample_writeSample_self _ _ _ (by omega), wrapInt16_processSample]

theorem processBufferStep_read_right (l : AudioGainLimiter) (buf : List Nat) (i : Nat)
    (h : 4 * i + 4 ≤ buf.length) :
    AudioGainLimiter.readSample (l.processBufferStep buf i) (2 * i + 1)
      = l.processSample (AudioGainLimiter.readSample buf (2 * i + 1)) := by
  unfold AudioGainLimiter.processBufferStep
  simp only []
  rw [Nat.mul_comm i 2,
    readSample_writeSample_self _ _ _ (by rw [writeSample_length]; omega),
    wrapInt16_processSample, readSample_writeSample_of_ne _ _ _ _ (by omega)]

/-- The loop of `processBuffer` after `n` iterations. -/
theorem processBuffer_loop (l : AudioGainLimiter) (buf : List Nat) :
    ∀ n : Nat, 4 * n ≤ buf.length →
      ((List.range n).foldl (l.processBufferStep) buf).length = buf.length ∧
      (∀ i, i < 2 * n →
        AudioGainLimiter.readSample ((List.range n).foldl (l.processBufferStep) buf) i
          = l.processSample (AudioGainLimiter.readSample buf i)) ∧
      (∀ j, 4 * n ≤ j →
        ((List.range n).foldl (l.processBufferStep) buf).getD j 0 = buf.getD j 0) := by
  intro n
  induction n with
  | zero =>
    intro _
    refine ⟨rfl, ?_, ?_⟩
    · intro i hi; omega
    · intro j _; rfl
  | succ n ih =>
    intro hn
    obtain ⟨hl, hr, hu⟩ := ih (by omega)
    rw [List.range_succ, List.foldl_append]
    simp only [List.foldl_cons, List.foldl_nil]
    generalize (List.range n).foldl (l.processBufferStep) buf = mid at hl hr hu
    have hread : ∀ i, 2 * n ≤ i →
        AudioGainLimiter.readSample mid i = AudioGainLimiter.readSample buf i := by
      intro i hi
      unfold AudioGainLimiter.readSample
      rw [hu _ (by omega), hu _ (by omega)]
    refine ⟨by rw [processBufferStep_length, hl], ?_, ?_⟩
    · intro i hi
      by_cases h1 : i = 2 * n
      · rw [h1, processBufferStep_read_left l mid n (by omega), hread _ (by omega)]
      · by_cases h2 : i = 2 * n + 1
        · rw [h2, processBufferStep_read_right l mid n (by omega), hread _ (by omega)]
        · rw [processBufferStep_read_of_ne l mid n i h1 h2]
          exact hr i (by omega)
    · intro j hj
      rw [processBufferStep_getD_of_outside l mid n j (by omega)]
      exact hu j (by omega)


/-- The product is rounded before its fraction is dropped: for the gain
`254648 / 2 ^ 18` and the sample -20668 the exact product is -20076.99915,
its nearest float is -20077, and that is what `processSample` returns. -/
theorem processSample_rounds_product_first :
    AudioGainLimiter.processSample ⟨⟨254648, 18⟩⟩ (-20668) = -20077 ∧
    truncRat (((-20668 : Int) : ℚ) * F32.toRat ⟨254648, 18⟩) = -20076 := by
  refine ⟨by decide, ?_⟩
  unfold truncRat F32.toRat
  rw [if_neg (by norm_num), Int.ceil_eq_iff]
  norm_num

/-! ## AudioGainLimiter: the claims -/

/-- C1, counterexample: with the default gain `0.3f` the sample 6 is scaled
to 1 (the product 1.8 loses its fraction), while
`clamp(round(6 * 0.3), -32768, 32767)` is 2. -/
theorem processSample_not_rounded :
    IsInt16 6 ∧ 0 ≤ AudioGainLimiter.new.getGainFactor.toRat ∧
    AudioGainLimiter.new.getGainFactor.toRat ≤ 1 ∧
    AudioGainLimiter.new.processSample 6 = 1 ∧
    specProcessSample AudioGainLimiter.new.getGainFactor.toRat 6 = 2 := by
  refine ⟨by decide, ?_, ?_, by decide, ?_⟩
  · norm_num [AudioGainLimiter.new, AudioGainLimiter.getGainFactor, AudioGainLimiter.gain03,
      F32.toRat]
  · norm_num [AudioGainLimiter.new, AudioGainLimiter.getGainFactor, AudioGainLimiter.gain03,
      F32.toRat]
  · have e : AudioGainLimiter.new.getGainFactor.toRat = 5033165 / 16777216 := by
      norm_num [AudioGainLimiter.new, AudioGainLimiter.getGainFactor, AudioGainLimiter.gain03,
        F32.toRat]
    rw [e]
    unfold specProcessSample
    have r : round (((6 : Int) : ℚ) * (5033165 / 16777216)) = 2 := by
      rw [round_eq, Int.floor_eq_iff]
      norm_num
    rw [r]
    decide

/-- C1, amended: for every 16-bit sample `s` and every gain `k` in `[0, 1]`,
`processSample(s)` lies in `[-32768, 32767]` and equals
`clamp(trunc(s * k), -32768, 32767)`, where `s * k` is the product in
single precision and `trunc` drops its fractional part (rounding toward
zero); the clamp leaves that integer unchanged. -/
theorem processSample_truncates (l : AudioGainLimiter) (s : Int) (hs : IsInt16 s)
    (h0 : 0 ≤ l.getGainFactor.toRat) (h1 : l.getGainFactor.toRat ≤ 1) :
    IsInt16 (l.processSample s) ∧
    l.processSample s
      = max (-32768) (min 32767 (truncRat (F32.mul (F32.ofInt s) l.getGainFactor).toRat)) ∧
    l.processSample s = truncRat (F32.mul (F32.ofInt s) l.getGainFactor).toRat := by
  have e : l.getGainFactor = l.gainFactor := rfl
  rw [e] at h0 h1 ⊢
  obtain ⟨a, b⟩ := trunc_mul_between s l.gainFactor hs h0 h1
  rw [processSample_eq_trunc l s hs h0 h1, ← F32.trunc_eq_truncRat]
  unfold IsInt16 at hs ⊢
  generalize (F32.mul (F32.ofInt s) l.gainFactor).trunc = t at a b
  have ht : -32768 ≤ t ∧ t ≤ 32767 := by
    rcases le_total 0 s with h | h
    · have := a h; omega
    · have := b h; omega
  refine ⟨ht, ?_, rfl⟩
  rw [min_eq_right ht.2, max_eq_right ht.1]

theorem processSample_truncates_witness :
    IsInt16 (-20668) ∧
    0 ≤ (AudioGainLimiter.new.setGainFactor ⟨254648, 18⟩).getGainFactor.toRat ∧
    (AudioGainLimiter.new.setGainFactor ⟨254648, 18⟩).getGainFactor.toRat ≤ 1 ∧
    IsInt16 ((AudioGainLimiter.new.setGainFactor ⟨254648, 18⟩).processSample (-20668)) ∧
    (AudioGainLimiter.new.setGainFactor ⟨254648, 18⟩).processSample (-20668)
      = max (-32768) (min 32767 (truncRat (F32.mul (F32.ofInt (-20668))
          (AudioGainLimiter.new.setGainFactor ⟨254648, 18⟩).getGainFactor).toRat)) ∧
    (AudioGainLimiter.new.setGainFactor ⟨254648, 18⟩).processSample (-20668)
      = truncRat (F32.mul (F32.ofInt (-20668))
          (AudioGainLimiter.new.setGainFactor ⟨254648, 18⟩).getGainFactor).toRat :=
  have e : (AudioGainLimiter.new.setGainFactor ⟨254648, 18⟩).getGainFactor = ⟨254648, 18⟩ := by
    decide
  have h0 : 0 ≤ (AudioGainLimiter.new.setGainFactor ⟨254648, 18⟩).getGainFactor.toRat := by
    rw [e]; norm_num [F32.toRat]
  have h1 : (AudioGainLimiter.new.setGainFactor ⟨254648, 18⟩).getGainFactor.toRat ≤ 1 := by
    rw [e]; norm_num [F32.toRat]
  ⟨by decide, h0, h1,
    processSample_truncates (AudioGainLimiter.new.setGainFactor ⟨254648, 18⟩) (-20668)
      (by decide) h0 h1⟩

/-- C2: `setGainFactor(g)` followed by `getGainFactor()` returns
`clamp(g, 0, 1)` for every finite float `g` (so for every `g` in `[-1, 2]`):
`g` below 0 gives `0.0f`, `g` above 1 gives `1.0f`, and `g` in `[0, 1]` is
stored unchanged. -/
theorem setGainFactor_getGainFactor (g : F32) (l : AudioGainLimiter) :
    ((l.setGainFactor g).getGainFactor).toRat = max 0 (min 1 g.toRat) ∧
    (g.toRat < 0 → (l.setGainFactor g).getGainFactor = F32.zero) ∧
    (1 < g.toRat → (l.setGainFactor g).getGainFactor = F32.one) ∧
    (0 ≤ g.toRat → g.toRat ≤ 1 → (l.setGainFactor g).getGainFactor = g) := by
  obtain ⟨a, b, c⟩ := constrainF_zero_one g
  have e : (l.setGainFactor g).getGainFactor = constrainF g F32.zero F32.one := rfl
  rw [e]
  refine ⟨?_, a, b, c⟩
  rcases lt_or_le g.toRat 0 with h | h
  · rw [a h, F32.toRat_zero, min_eq_right (by linarith), max_eq_left (le_of_lt h)]
  · rcases lt_or_le 1 g.toRat with h1 | h1
    · rw [b h1, F32.toRat_one, min_eq_left (le_of_lt h1), max_eq_right (by norm_num)]
    · rw [c h h1, min_eq_right h1, max_eq_right h]

theorem setGainFactor_getGainFactor_witness :
    ((AudioGainLimiter.new.setGainFactor ⟨2, 0⟩).getGainFactor = F32.one) ∧
    ((AudioGainLimiter.new.setGainFactor ⟨-1, 0⟩).getGainFactor = F32.zero) ∧
    ((AudioGainLimiter.new.setGainFactor ⟨3, 2⟩).getGainFactor = ⟨3, 2⟩) :=
  ⟨(setGainFactor_getGainFactor ⟨2, 0⟩ AudioGainLimiter.new).2.2.1
      (by norm_num [F32.toRat]),
    (setGainFactor_getGainFactor ⟨-1, 0⟩ AudioGainLimiter.new).2.1
      (by norm_num [F32.toRat]),
    (setGainFactor_getGainFactor ⟨3, 2⟩ AudioGainLimiter.new).2.2.2
      (by norm_num [F32.toRat]) (by norm_num [F32.toRat])⟩

/-- C3: for every buffer and every byte length `len` within it,
`processBuffer` returns `len`; each 16-bit sample with index below
`2 * (len / 4)` is replaced in place by `processSample` of its old value, and
every byte at or after offset `4 * (len / 4)` is left unchanged (the buffer
keeps its size). -/
theorem processBuffer_spec (l : AudioGainLimiter) (buffer : List Nat) (len : Nat)
    (hlen : len ≤ buffer.length) :
    (l.processBuffer buffer len).2 = len ∧
    (l.processBuffer buffer len).1.length = buffer.length ∧
    (∀ i, i < 2 * (len / 4) →
      AudioGainLimiter.readSample (l.processBuffer buffer len).1 i
        = l.processSample (AudioGainLimiter.readSample buffer i)) ∧
    (∀ j, 4 * (len / 4) ≤ j →
      (l.processBuffer buffer len).1.getD j 0 = buffer.getD j 0) := by
  have e : len / 2 / 2 = len / 4 := by omega
  obtain ⟨a, b, c⟩ := processBuffer_loop l buffer (len / 4) (by omega)
  unfold AudioGainLimiter.processBuffer
  simp only [e]
  exact ⟨trivial, a, b, c⟩

theorem processBuffer_spec_witness :
    (4 ≤ [232, 3, 24, 252].length) ∧
    ((AudioGainLimiter.new.processBuffer [232, 3, 24, 252] 4).2 = 4 ∧
      (AudioGainLimiter.new.processBuffer [232, 3, 24, 252] 4).1.length
        = [232, 3, 24, 252].length ∧
      (∀ i, i < 2 * (4 / 4) →
        AudioGainLimiter.readSample (AudioGainLimiter.new.processBuffer [232, 3, 24, 252] 4).1 i
          = AudioGainLimiter.new.processSample
              (AudioGainLimiter.readSample [232, 3, 24, 252] i)) ∧
      (∀ j, 4 * (4 / 4) ≤ j →
        (AudioGainLimiter.new.processBuffer [232, 3, 24, 252] 4).1.getD j 0
          = List.getD [232, 3, 24, 252] j 0)) ∧
    AudioGainLimiter.readSample [232, 3, 24, 252] 0 = 1000 ∧
    AudioGainLimiter.readSample [232, 3, 24, 252] 1 = -1000 ∧
    AudioGainLimiter.readSample (AudioGainLimiter.new.processBuffer [232, 3, 24, 252] 4).1 0
      = 300 ∧
    AudioGainLimiter.readSample (AudioGainLimiter.new.processBuffer [232, 3, 24, 252] 4).1 1
      = -300 ∧
    AudioGainLimiter.new.processBuffer [232, 3, 24, 252, 7] 5 = ([44, 1, 212, 254, 7], 5) :=
  ⟨by decide, processBuffer_spec AudioGainLimiter.new [232, 3, 24, 252] 4 (by decide),
    by decide, by decide, by decide, by decide, by decide⟩

/-! ## AudioProcessor: lemmas on the beat detector -/

theorem wrapUInt16_of_lt {n : Nat} (h : n < 65536) : wrapUInt16 (n : Int) = n := by
  unfold wrapUInt16; omega

theorem wrapUInt8_of_lt {n : Nat} (h : n < 256) : wrapUInt8 (n : Int) = n := by
  unfold wrapUInt8; omega

/-- The summation loop of `calculateAverage` without the reduction modulo `2 ^ 32`. -/
theorem foldl_sum_take (l : List Nat) (n : Nat) (hs : l.sum < 4294967296) :
    (List.range n).foldl (fun sum i => (sum + l.getD i 0) % 4294967296) 0 = (l.take n).sum := by
  induction n with
  | zero => simp
  | succ n ih =>
    rw [List.range_succ, List.foldl_append, ih]
    simp only [List.foldl_cons, List.foldl_nil]
    have h1 : (l.take (n + 1)).sum = (l.take n).sum + l.getD n 0 := by
      rw [List.take_succ, List.sum_append, List.getD_eq_getElem?_getD]
      cases l[n]? <;> simp
    have h2 : (l.take (n + 1)).sum ≤ l.sum := by
      conv_rhs => rw [← List.take_append_drop (n + 1) l, List.sum_append]
      exact Nat.le_add_right _ _
    rw [h1] at h2 ⊢
    omega

theorem sum_le_of_forall_le (l : List Nat) (b : Nat) (h : ∀ x ∈ l, x ≤ b) :
    l.sum ≤ l.length * b := by
  induction l with
  | nil => simp
  | cons a t ih =>
    have h1 := h a (List.mem_cons_self a t)
    have h2 := ih (fun x hx => h x (List.mem_cons_of_mem a hx))
    simp only [List.sum_cons, List.length_cons]
    rw [Nat.add_mul]
    omega

/-- On a 20-slot history of levels up to 100, `calculateAverage` is the integer mean. -/
theorem calculateAverage_eq_mean (l : List Nat) (hl : l.length = 20) (hb : ∀ x ∈ l, x ≤ 100) :
    AudioProcessor.calculateAverage l BEAT_DETECTION_WINDOW = AudioProcessor.historyMean l ∧
    AudioProcessor.historyMean l ≤ 100 := by
  have hs := sum_le_of_forall_le l 100 hb
  rw [hl] at hs
  unfold AudioProcessor.calculateAverage AudioProcessor.historyMean BEAT_DETECTION_WINDOW
  simp only []
  rw [foldl_sum_take l 20 (by omega), ← hl, List.take_length, hl]
  constructor
  · exact wrapUInt16_of_lt (by omega)
  · omega

theorem detectBeat_beatHistory (now : Nat) (s : AudioProcessor) :
    (s.detectBeat now).beatHistory = s.beatHistory.set s.beatHistoryIndex s.smoothedLevel := by
  unfold AudioProcessor.detectBeat
  simp only []
  split
  · split <;> rfl
  · rfl

theorem detectBeat_beatHistoryIndex (now : Nat) (s : AudioProcessor) :
    (s.detectBeat now).beatHistoryIndex
      = wrapUInt8 (((s.beatHistoryIndex + 1) % BEAT_DETECTION_WINDOW : Nat) : Int) := by
  unfold AudioProcessor.detectBeat
  simp only []
  split
  · split <;> rfl
  · rfl

/-- The beat flag after `detectBeat`, in terms of the history it has just written. -/
theorem detectBeat_beatDetected (now : Nat) (s : AudioProcessor) :
    (s.detectBeat now).beatDetected = true ↔
      (s.smoothedLevel >
          wrapUInt16 ((AudioProcessor.calculateAverage (s.detectBeat now).beatHistory
              BEAT_DETECTION_WINDOW
            + AudioProcessor.calculateAverage (s.detectBeat now).beatHistory
              BEAT_DETECTION_WINDOW / 2 : Nat) : Int)
        ∧ s.smoothedLevel > 20
        ∧ (now + 4294967296 - s.lastBeatTime) % 4294967296 > 100) := by
  rw [detectBeat_beatHistory]
  unfold AudioProcessor.detectBeat
  simp only []
  split
  · rename_i h
    split
    · rename_i h2
      exact ⟨fun _ => ⟨h.1, h.2, h2⟩, fun _ => rfl⟩
    · rename_i h2
      exact ⟨fun h3 => Bool.noConfusion h3, fun h3 => absurd h3.2.2 h2⟩
  · rename_i h
    exact ⟨fun h3 => Bool.noConfusion h3, fun h3 => absurd ⟨h3.1, h3.2.1⟩ h⟩

theorem detectBeat_lastBeatTime (now : Nat) (s : AudioProcessor) :
    (s.detectBeat now).lastBeatTime
      = if (s.detectBeat now).beatDetected = true then now else s.lastBeatTime := by
  unfold AudioProcessor.detectBeat
  simp only []
  split
  · split
    · simp
    · simp
  · simp

theorem feedLevel_recentSlots (c j now : Nat) (s : AudioProcessor) (h : RecentSlots c j s) :
    RecentSlots c (j + 1) (s.feedLevel c now) := by
  obtain ⟨hl, hi, hr⟩ := h
  unfold RecentSlots AudioProcessor.feedLevel
  rw [detectBeat_beatHistory, detectBeat_beatHistoryIndex]
  simp only [BEAT_DETECTION_WINDOW, List.length_set]
  generalize s.beatHistory = hist at hl hr
  generalize s.beatHistoryIndex = idx at hi hr
  have e : wrapUInt8 (((idx + 1) % 20 : Nat) : Int) = (idx + 1) % 20 :=
    wrapUInt8_of_lt (by omega)
  rw [e]
  refine ⟨hl, by omega, ?_⟩
  intro t ht ht20
  rw [List.getD_eq_getElem?_getD]
  by_cases h0 : t = 0
  · have e2 : ((idx + 1) % 20 + 19 - t) % 20 = idx := by omega
    rw [e2, List.getElem?_set_self (by omega)]
    rfl
  · have e2 : ((idx + 1) % 20 + 19 - t) % 20 = (idx + 19 - (t - 1)) % 20 := by omega
    have e3 : idx ≠ (idx + 19 - (t - 1)) % 20 := by omega
    rw [e2, List.getElem?_set_ne e3, ← List.getD_eq_getElem?_getD]
    exact hr (t - 1) (by omega) (by omega)

theorem feedConstant_recentSlots (c : Nat) (times : List Nat) :
    ∀ (j : Nat) (s : AudioProcessor), RecentSlots c j s →
      RecentSlots c (j + times.length) (s.feedConstant c times) := by
  induction times with
  | nil => intro j s h; exact h
  | cons now rest ih =>
    intro j s h
    have h2 := ih (j + 1) (s.feedLevel c now) (feedLevel_recentSlots c j now s h)
    rw [List.length_cons, show j + (rest.length + 1) = j + 1 + rest.length by omega]
    exact h2

theorem recentSlots_full (c j : Nat) (s : AudioProcessor) (hj : 20 ≤ j)
    (h : RecentSlots c j s) : s.beatHistory = List.replicate 20 c := by
  obtain ⟨hl, hi, hr⟩ := h
  apply List.ext_getElem (by rw [hl, List.length_replicate])
  intro n h1 h2
  rw [List.getElem_replicate]
  have h3 := hr ((s.beatHistoryIndex + 19 - n) % 20) (by omega) (by omega)
  have e : (s.beatHistoryIndex + 19 - (s.beatHistoryIndex + 19 - n) % 20) % 20 = n := by omega
  rw [e, List.getD_eq_getElem _ _ h1] at h3
  exact h3

theorem historyMean_replicate (c : Nat) :
    AudioProcessor.historyMean (List.replicate 20 c) = c := by
  unfold AudioProcessor.historyMean
  rw [List.sum_replicate, List.length_replicate]
  simp

/-- A tick on a level that fills the whole history detects no beat. -/
theorem feedLevel_no_beat_of_full (c now : Nat) (s : AudioProcessor) (hc : c ≤ 100)
    (h : (s.feedLevel c now).beatHistory = List.replicate 20 c) :
    (s.feedLevel c now).beatDetected = false := by
  have hm := calculateAverage_eq_mean (List.replicate 20 c) (List.length_replicate 20 c)
    (fun x hx => by rw [List.eq_of_mem_replicate hx]; exact hc)
  rw [historyMean_replicate] at hm
  have hb := detectBeat_beatDetected now { s with smoothedLevel := c }
  unfold AudioProcessor.feedLevel at h ⊢
  rw [h, hm.1] at hb
  simp only [] at hb
  rw [wrapUInt16_of_lt (by omega)] at hb
  cases hd : (AudioProcessor.detectBeat now { s with smoothedLevel := c }).beatDetected with
  | false => rfl
  | true =>
    have := (hb.1 hd).1
    omega


/-! ## AudioProcessor: the claims on the beat detector -/

/-- C9: for every `AudioProcessor` state of the data model (20-slot history
of levels in `[0, 100]`), smoothed level `L` and time `now`, `detectBeat`
sets `beatDetected` to true exactly when `L > mean + mean / 2`, `L > 20` and
the 32-bit difference `now - lastBeatTime` exceeds 100, where `mean` is the
integer mean of the history after `L` has been written into it; that
difference is the plain `now - lastBeatTime` when the counter has not wrapped;
`lastBeatTime` becomes `now` when a beat is detected and is unchanged
otherwise. -/
theorem detectBeat_spec (s : AudioProcessor) (now : Nat) (hw : s.WellFormed)
    (hnow : IsMillis now) :
    ((s.detectBeat now).isBeatDetected = true ↔
      (s.smoothedLevel >
          AudioProcessor.historyMean (s.beatHistory.set s.beatHistoryIndex s.smoothedLevel)
          + AudioProcessor.historyMean
              (s.beatHistory.set s.beatHistoryIndex s.smoothedLevel) / 2
        ∧ s.smoothedLevel > 20
        ∧ (now + 4294967296 - s.lastBeatTime) % 4294967296 > 100)) ∧
    (s.lastBeatTime ≤ now →
      (now + 4294967296 - s.lastBeatTime) % 4294967296 = now - s.lastBeatTime) ∧
    ((s.detectBeat now).isBeatDetected = true → (s.detectBeat now).lastBeatTime = now) ∧
    ((s.detectBeat now).isBeatDetected = false →
      (s.detectBeat now).lastBeatTime = s.lastBeatTime) := by
  have hb := detectBeat_beatDetected now s
  have ht := detectBeat_lastBeatTime now s
  have hm := calculateAverage_eq_mean (s.beatHistory.set s.beatHistoryIndex s.smoothedLevel)
    (by rw [List.length_set]; exact hw.length_eq)
    (fun x hx => by
      rcases List.mem_or_eq_of_mem_set hx with h | h
      · exact hw.history_le x h
      · rw [h]; exact hw.level_le)
  rw [detectBeat_beatHistory, hm.1] at hb
  have e : (s.detectBeat now).isBeatDetected = (s.detectBeat now).beatDetected := rfl
  rw [e]
  have hmean := hm.2
  generalize AudioProcessor.historyMean
    (s.beatHistory.set s.beatHistoryIndex s.smoothedLevel) = mean at hb hmean
  rw [wrapUInt16_of_lt (by omega)] at hb
  have hlast := hw.time_lt
  unfold IsMillis at hnow
  refine ⟨hb, ?_, ?_, ?_⟩
  · intro h
    clear hb ht e
    omega
  · intro h
    rw [ht, if_pos h]
  · intro h
    rw [ht, if_neg (by rw [h]; exact Bool.false_ne_true)]

theorem detectBeat_spec_witness :
    AudioProcessor.WellFormed
      { AudioProcessor.new with beatHistory := List.replicate 20 10, smoothedLevel := 60,
                                lastBeatTime := 4294967246 } ∧
    IsMillis 60 ∧
    (AudioProcessor.detectBeat 60
      { AudioProcessor.new with beatHistory := List.replicate 20 10, smoothedLevel := 60,
                                lastBeatTime := 4294967246 }).isBeatDetected = true ∧
    (AudioProcessor.detectBeat 60
      { AudioProcessor.new with beatHistory := List.replicate 20 10, smoothedLevel := 60,
                                lastBeatTime := 4294967246 }).lastBeatTime = 60 :=
  have hw : AudioProcessor.WellFormed
      { AudioProcessor.new with beatHistory := List.replicate 20 10, smoothedLevel := 60,
                                lastBeatTime := 4294967246 } :=
    ⟨by decide, by decide, by decide, by decide, by decide⟩
  have h := detectBeat_spec
    { AudioProcessor.new with beatHistory := List.replicate 20 10, smoothedLevel := 60,
                              lastBeatTime := 4294967246 } 60 hw (by decide)
  have hb := h.1.2 (by decide)
  ⟨hw, by decide, hb, h.2.2.1 hb⟩

/-- C10: for every constant smoothed level `c` in `[0, 100]`, every starting
state (20-slot history, index inside it) and every timing, a tick fed `c`
yields `beatDetected == false` whenever it is the 20th or a later one of a
run of ticks all fed `c`; and for `c <= 20` no tick yields a beat, whatever
the history. -/
theorem constant_level_no_beat (c : Nat) (hc : c ≤ 100) :
    (∀ (s : AudioProcessor) (times : List Nat),
      s.beatHistory.length = 20 → s.beatHistoryIndex < 20 → 20 ≤ times.length →
      (s.feedConstant c times).isBeatDetected = false) ∧
    (c ≤ 20 → ∀ (s : AudioProcessor) (now : Nat), (s.feedLevel c now).isBeatDetected = false) := by
  constructor
  · intro s times hl hi hn
    have hne : times ≠ [] := by
      intro h
      rw [h] at hn
      simp at hn
    have hsplit := List.dropLast_append_getLast hne
    have hr0 : RecentSlots c 0 s := ⟨hl, hi, fun t ht _ => absurd ht (Nat.not_lt_zero t)⟩
    have hr1 := feedConstant_recentSlots c times 0 s hr0
    have hfull := recentSlots_full c _ _ (by omega) hr1
    have e : s.feedConstant c times
        = (s.feedConstant c times.dropLast).feedLevel c (times.getLast hne) := by
      conv_lhs => rw [← hsplit]
      unfold AudioProcessor.feedConstant
      rw [List.foldl_append]
      rfl
    rw [e] at hfull ⊢
    exact feedLevel_no_beat_of_full c _ _ hc hfull
  · intro h20 s now
    have hb := detectBeat_beatDetected now { s with smoothedLevel := c }
    unfold AudioProcessor.feedLevel
    cases hd : (AudioProcessor.detectBeat now { s with smoothedLevel := c }).beatDetected with
    | false => exact hd
    | true =>
      have h2 := (hb.1 hd).2.1
      simp only [] at h2
      omega

theorem constant_level_no_beat_witness :
    (10 ≤ 100) ∧
    (AudioProcessor.feedConstant 10 (List.range 25)
      { AudioProcessor.new with beatHistory := List.replicate 20 90,
                                beatHistoryIndex := 7 }).isBeatDetected = false ∧
    (AudioProcessor.feedLevel 10 500
      { AudioProcessor.new with beatHistory := List.replicate 20 0 }).isBeatDetected = false :=
  ⟨by decide,
    (constant_level_no_beat 10 (by decide)).1 _ (List.range 25) (by decide) (by decide)
      (by decide),
    (constant_level_no_beat 10 (by decide)).2 (by decide) _ 500⟩

/-! ## AudioProcessor: lemmas on spikes and on the level analysis -/

theorem feedLevel_beatHistory (level now : Nat) (s : AudioProcessor) :
    (s.feedLevel level now).beatHistory = s.beatHistory.set s.beatHistoryIndex level :=
  detectBeat_beatHistory now { s with smoothedLevel := level }

theorem feedLevel_beatHistoryIndex (level now : Nat) (s : AudioProcessor) :
    (s.feedLevel level now).beatHistoryIndex
      = wrapUInt8 (((s.beatHistoryIndex + 1) % BEAT_DETECTION_WINDOW : Nat) : Int) :=
  detectBeat_beatHistoryIndex now { s with smoothedLevel := level }

theorem feedLevel_beatDetected (level now : Nat) (s : AudioProcessor) :
    (s.feedLevel level now).beatDetected = true ↔
      (level >
          wrapUInt16 ((AudioProcessor.calculateAverage (s.feedLevel level now).beatHistory
              BEAT_DETECTION_WINDOW
            + AudioProcessor.calculateAverage (s.feedLevel level now).beatHistory
              BEAT_DETECTION_WINDOW / 2 : Nat) : Int)
        ∧ level > 20
        ∧ (now + 4294967296 - s.lastBeatTime) % 4294967296 > 100) :=
  detectBeat_beatDetected now { s with smoothedLevel := level }

theorem feedLevel_lastBeatTime (level now : Nat) (s : AudioProcessor) :
    (s.feedLevel level now).lastBeatTime
      = if (s.feedLevel level now).beatDetected = true then now else s.lastBeatTime :=
  detectBeat_lastBeatTime now { s with smoothedLevel := level }

/-- The mean after a spike to 60 enters a history of tens, and after a second one. -/
theorem spike_averages :
    ∀ i, i < 20 →
      AudioProcessor.calculateAverage ((List.replicate 20 10).set i 60) BEAT_DETECTION_WINDOW
        = 12 ∧
      AudioProcessor.calculateAverage
        (((List.replicate 20 10).set i 60).set ((i + 1) % 20) 60) BEAT_DETECTION_WINDOW = 15 := by
  intro i hi
  interval_cases i <;> exact ⟨by decide, by decide⟩


/-- `map` of a non-negative value from `[0, d]` onto `[0, 100]`: the floored quotient. -/
theorem map_percent (a d : Nat) (hd : 0 < d) (ha : a ≤ 4095) (hd2 : d ≤ 4095) :
    map (a : Int) 0 (d : Int) 0 100 = ((a * 100 / d : Nat) : Int) := by
  unfold map
  have e1 : wrapInt32 ((d : Int) - 0) = (d : Int) := wrapInt32_of_range (by omega) (by omega)
  have e2 : wrapInt32 ((a : Int) - 0) = (a : Int) := wrapInt32_of_range (by omega) (by omega)
  have e3 : wrapInt32 ((100 : Int) - 0) = 100 := by decide
  have e4 : wrapInt32 ((a : Int) * 100) = (a : Int) * 100 :=
    wrapInt32_of_range (by omega) (by omega)
  rw [e1, e2, e3, e4, if_neg (by omega)]
  have e5 : Int.tdiv ((a : Int) * 100) (d : Int) = ((a * 100 / d : Nat) : Int) := by
    rw [Int.tdiv_eq_ediv (by omega) (by omega)]
    push_cast
    rfl
  rw [e5]
  have hq : a * 100 / d ≤ a * 100 := Nat.div_le_self _ _
  generalize a * 100 / d = q at hq
  rw [wrapInt32_of_range (by omega) (by omega), Int.add_zero]


/-! ## AudioProcessor: the claims on spikes and on the level analysis -/

set_option maxRecDepth 100000 in
/-- C11, counterexample: a beat at time 5000, twenty ticks at level 10 (the
history then holds 10 in every slot), and a tick with level 60 at time 5100,
exactly 100 ms after the beat: no beat is detected. -/
theorem spike_at_100ms_not_detected :
    (AudioProcessor.feedLevel 60 5000 AudioProcessor.new).isBeatDetected = true ∧
    (AudioProcessor.feedConstant 10 (List.range' 5001 20)
      (AudioProcessor.feedLevel 60 5000 AudioProcessor.new)).beatHistory
        = List.replicate 20 10 ∧
    (AudioProcessor.feedConstant 10 (List.range' 5001 20)
      (AudioProcessor.feedLevel 60 5000 AudioProcessor.new)).lastBeatTime = 5000 ∧
    (AudioProcessor.feedLevel 60 5100
      (AudioProcessor.feedConstant 10 (List.range' 5001 20)
        (AudioProcessor.feedLevel 60 5000 AudioProcessor.new))).isBeatDetected = false := by
  decide

/-- C11, amended: when the 20-slot history holds level 10 in every slot and
more than 100 ms (`> 100`, as a 32-bit difference) have passed since the last
detected beat, a tick with smoothed level 60 yields `beatDetected == true`;
an immediately following tick still at level 60 and not more than 100 ms
later (so also less than 100 ms later) yields `beatDetected == false`. -/
theorem spike_detected_once (s : AudioProcessor) (now1 now2 : Nat)
    (hh : s.beatHistory = List.replicate 20 10) (hi : s.beatHistoryIndex < 20)
    (h1 : (now1 + 4294967296 - s.lastBeatTime) % 4294967296 > 100)
    (h2 : (now2 + 4294967296 - now1) % 4294967296 ≤ 100) :
    (s.feedLevel 60 now1).isBeatDetected = true ∧
    ((s.feedLevel 60 now1).feedLevel 60 now2).isBeatDetected = false := by
  obtain ⟨a1, a2⟩ := spike_averages s.beatHistoryIndex hi
  have e1 : (s.feedLevel 60 now1).beatHistory
      = (List.replicate 20 10).set s.beatHistoryIndex 60 := by
    rw [feedLevel_beatHistory, hh]
  have e2 : (s.feedLevel 60 now1).beatHistoryIndex = (s.beatHistoryIndex + 1) % 20 := by
    rw [feedLevel_beatHistoryIndex]
    exact wrapUInt8_of_lt (by unfold BEAT_DETECTION_WINDOW; omega)
  have b1 := feedLevel_beatDetected 60 now1 s
  rw [e1, a1] at b1
  have hb1 : (s.feedLevel 60 now1).beatDetected = true :=
    b1.2 ⟨by decide, by decide, h1⟩
  have t1 : (s.feedLevel 60 now1).lastBeatTime = now1 := by
    rw [feedLevel_lastBeatTime, if_pos hb1]
  have b2 := feedLevel_beatDetected 60 now2 (s.feedLevel 60 now1)
  rw [t1] at b2
  refine ⟨hb1, ?_⟩
  cases hd : ((s.feedLevel 60 now1).feedLevel 60 now2).beatDetected with
  | false => exact hd
  | true =>
    have := (b2.1 hd).2.2
    omega

theorem spike_detected_once_witness :
    (AudioProcessor.steadyTen 5000).beatHistory = List.replicate 20 10 ∧
    (AudioProcessor.steadyTen 5000).beatHistoryIndex < 20 ∧
    (5101 + 4294967296 - (AudioProcessor.steadyTen 5000).lastBeatTime) % 4294967296 > 100 ∧
    (5200 + 4294967296 - 5101) % 4294967296 ≤ 100 ∧
    (AudioProcessor.feedLevel 60 5101 (AudioProcessor.steadyTen 5000)).isBeatDetected = true ∧
    (AudioProcessor.feedLevel 60 5200
      (AudioProcessor.feedLevel 60 5101 (AudioProcessor.steadyTen 5000))).isBeatDetected
        = false :=
  ⟨by decide, by decide, by decide, by decide,
    spike_detected_once (AudioProcessor.steadyTen 5000) 5101 5200
      (by decide) (by decide) (by decide) (by decide)⟩

/-- C12: for every filtered raw level `r` in `[0, 4095]` and every threshold
`t < 4095`, `updateAudioLevel` sets `smoothedLevel` to
`min(100, floor(max(0, r - t) * 100 / (4095 - t)))` (the subtraction on
naturals stops at 0), so `getAudioLevel()` is that value, lies in `[0, 100]`
and is 0 whenever `r <= t`. -/
theorem updateAudioLevel_smoothedLevel (s : AudioProcessor) (newRaw : Nat)
    (hr : AudioProcessor.filteredLevel newRaw s ≤ 4095) (ht : s.audioThreshold < 4095) :
    (s.updateAudioLevel newRaw).rawLevel = AudioProcessor.filteredLevel newRaw s ∧
    (s.updateAudioLevel newRaw).smoothedLevel
      = min 100 ((AudioProcessor.filteredLevel newRaw s - s.audioThreshold) * 100
          / (4095 - s.audioThreshold)) ∧
    (s.updateAudioLevel newRaw).getAudioLevel = (s.updateAudioLevel newRaw).smoothedLevel ∧
    (s.updateAudioLevel newRaw).getAudioLevel ≤ 100 ∧
    (AudioProcessor.filteredLevel newRaw s ≤ s.audioThreshold →
      (s.updateAudioLevel newRaw).getAudioLevel = 0) := by
  unfold AudioProcessor.updateAudioLevel AudioProcessor.getAudioLevel
  simp only []
  generalize AudioProcessor.filteredLevel newRaw s = r at hr
  generalize hte : s.audioThreshold = t at ht
  have e1 : (if wrapInt32 ((r : Int) - (t : Int)) < 0 then 0
      else wrapInt32 ((r : Int) - (t : Int))) = ((r - t : Nat) : Int) := by
    rw [wrapInt32_of_range (by omega) (by omega)]
    split <;> omega
  have e2 : (4095 : Int) - (t : Int) = ((4095 - t : Nat) : Int) := by omega
  rw [e1, e2, map_percent (r - t) (4095 - t) (by omega) (by omega) (by omega)]
  have hq : (r - t) * 100 / (4095 - t) ≤ 100 :=
    Nat.div_le_of_le_mul (by
      have : r - t ≤ 4095 - t := by omega
      calc (r - t) * 100 ≤ (4095 - t) * 100 := Nat.mul_le_mul_right _ this)
  have hz : r ≤ t → (r - t) * 100 / (4095 - t) = 0 := by
    intro h
    rw [show r - t = 0 by omega]
    simp
  generalize (r - t) * 100 / (4095 - t) = q at hq hz
  have e3 : wrapUInt16 (q : Int) = q := wrapUInt16_of_lt (by omega)
  have e4 : constrain (q : Int) 0 100 = (q : Int) := by
    unfold constrain
    rw [if_neg (by omega), if_neg (by omega)]
  rw [e3, e4, e3]
  have e5 : wrapUInt8 (q : Int) = q := wrapUInt8_of_lt (by omega)
  refine ⟨trivial, ?_, ?_, ?_, ?_⟩
  · show q = min 100 q
    omega
  · show wrapUInt8 (q : Int) = q
    exact e5
  · show wrapUInt8 (q : Int) ≤ 100
    rw [e5]
    exact hq
  · intro h
    show wrapUInt8 (q : Int) = 0
    rw [e5]
    exact hz h

theorem updateAudioLevel_smoothedLevel_witness :
    AudioProcessor.filteredLevel 4095 (AudioProcessor.init 27 26 25 34 512 AudioProcessor.new)
      ≤ 4095 ∧
    (AudioProcessor.init 27 26 25 34 512 AudioProcessor.new).audioThreshold < 4095 ∧
    ((AudioProcessor.init 27 26 25 34 512 AudioProcessor.new).updateAudioLevel 4095).rawLevel
      = AudioProcessor.filteredLevel 4095 (AudioProcessor.init 27 26 25 34 512 AudioProcessor.new) ∧
    ((AudioProcessor.init 27 26 25 34 512 AudioProcessor.new).updateAudioLevel 4095).smoothedLevel
      = min 100 ((AudioProcessor.filteredLevel 4095
            (AudioProcessor.init 27 26 25 34 512 AudioProcessor.new)
          - (AudioProcessor.init 27 26 25 34 512 AudioProcessor.new).audioThreshold) * 100
          / (4095 - (AudioProcessor.init 27 26 25 34 512 AudioProcessor.new).audioThreshold)) ∧
    ((AudioProcessor.init 27 26 25 34 512 AudioProcessor.new).updateAudioLevel 4095).getAudioLevel
      ≤ 100 :=
  have h := updateAudioLevel_smoothedLevel
    (AudioProcessor.init 27 26 25 34 512 AudioProcessor.new) 4095 (by decide) (by decide)
  ⟨by decide, by decide, h.1, h.2.1, h.2.2.2.1⟩


/-! ## EncoderControl: lemmas -/

/-- The event fields after a tick: the recorded event, unconsumed, or the old fields. -/
theorem processEncoderState_event (inp : EncoderInput) (s : EncoderControl) :
    (∀ e, EncoderControl.recordedEvent inp s = some e →
      (s.processEncoderState inp).lastEvent = e ∧
      (s.processEncoderState inp).eventConsumed = false) ∧
    (EncoderControl.recordedEvent inp s = none →
      (s.processEncoderState inp).lastEvent = s.lastEvent ∧
      (s.processEncoderState inp).eventConsumed = s.eventConsumed) := by
  unfold EncoderControl.recordedEvent EncoderControl.processEncoderState
  simp only []
  constructor
  · intro e h
    split_ifs at h ⊢ <;> simp_all
  · intro h
    split_ifs at h ⊢ <;> simp_all

/-- An idle tick in closed form: only the pending click count and `wasHolding` change. -/
theorem processEncoderState_idle (inp : EncoderInput) (s : EncoderControl)
    (hi : EncoderControl.IsIdle inp) :
    s.processEncoderState inp =
      { s with
        clickCount :=
          if (s.clickCount > 0 ∧
                (inp.millis + 4294967296 - s.clickStartTime) % 4294967296 > 1000) ∨
              (s.wasHolding = true ∧ inp.pressing = false) then 0
          else s.clickCount
        wasHolding := inp.pressing } := by
  obtain ⟨h1, h2⟩ := hi
  unfold EncoderControl.processEncoderState
  rw [if_neg (by rw [h1]; exact Bool.false_ne_true), if_neg (by rw [h2]; exact Bool.false_ne_true)]
  simp only []
  by_cases ha : s.clickCount > 0 ∧
      (inp.millis + 4294967296 - s.clickStartTime) % 4294967296 > 1000
  · by_cases hb : s.wasHolding = true ∧ inp.pressing = false
    · rw [if_pos ha, if_pos hb, if_pos (Or.inl ha)]
    · rw [if_pos ha, if_neg hb, if_pos (Or.inl ha)]
  · by_cases hb : s.wasHolding = true ∧ inp.pressing = false
    · rw [if_neg ha, if_pos hb, if_pos (Or.inr hb)]
    · rw [if_neg ha, if_neg hb, if_neg (fun h => h.elim ha hb)]

/-- An idle tick records nothing and can only clear the pending click count. -/
theorem idle_tick (inp : EncoderInput) (s : EncoderControl)
    (hi : EncoderControl.IsIdle inp) :
    EncoderControl.recordedEvent inp s = none ∧
    (s.tick inp).lastEvent = s.lastEvent ∧
    (s.tick inp).eventConsumed = s.eventConsumed ∧
    (s.tick inp).clickStartTime = s.clickStartTime ∧
    (s.tick inp).wasHolding = inp.pressing ∧
    ((s.tick inp).clickCount = 0 ∨ (s.tick inp).clickCount = s.clickCount) ∧
    ((inp.millis + 4294967296 - s.clickStartTime) % 4294967296 > 1000 →
      (s.tick inp).clickCount = 0) ∧
    (s.wasHolding = true → inp.pressing = false → (s.tick inp).clickCount = 0) ∧
    (¬ (s.clickCount > 0 ∧ (inp.millis + 4294967296 - s.clickStartTime) % 4294967296 > 1000) →
      ¬ (s.wasHolding = true ∧ inp.pressing = false) →
      (s.tick inp).clickCount = s.clickCount) := by
  have hr : EncoderControl.recordedEvent inp s = none := by
    unfold EncoderControl.recordedEvent
    rw [if_neg (by rw [hi.1]; exact Bool.false_ne_true),
      if_neg (by rw [hi.2]; exact Bool.false_ne_true)]
  unfold EncoderControl.tick
  rw [processEncoderState_idle inp s hi]
  refine ⟨hr, rfl, rfl, rfl, rfl, ?_, ?_, ?_, ?_⟩
  · show (if _ then 0 else s.clickCount) = 0 ∨ (if _ then 0 else s.clickCount) = s.clickCount
    split_ifs
    · exact Or.inl rfl
    · exact Or.inr rfl
  · intro h
    show (if _ then 0 else s.clickCount) = 0
    split_ifs with hc
    · rfl
    · have : ¬ s.clickCount > 0 := fun h0 => hc (Or.inl ⟨h0, h⟩)
      omega
  · intro ha hb
    show (if _ then 0 else s.clickCount) = 0
    rw [if_pos (Or.inr ⟨ha, hb⟩)]
  · intro ha hb
    show (if _ then 0 else s.clickCount) = s.clickCount
    rw [if_neg (fun h => h.elim ha hb)]

theorem ticks_cons (inp : EncoderInput) (rest : List EncoderInput) (s : EncoderControl) :
    EncoderControl.ticks (inp :: rest) s = EncoderControl.ticks rest (s.tick inp) := rfl

theorem ticks_append (a b : List EncoderInput) (s : EncoderControl) :
    EncoderControl.ticks (a ++ b) s = EncoderControl.ticks b (EncoderControl.ticks a s) := by
  unfold EncoderControl.ticks
  rw [List.foldl_append]

theorem lastRecorded_cons (inp : EncoderInput) (rest : List EncoderInput) (s : EncoderControl) :
    EncoderControl.lastRecorded (inp :: rest) s =
      match EncoderControl.lastRecorded rest (s.tick inp) with
      | some e => some e
      | none => EncoderControl.recordedEvent inp s := rfl

/-- The event fields after a run of ticks: those of its last recording tick,
otherwise the old ones. -/
theorem ticks_event (inps : List EncoderInput) :
    ∀ s : EncoderControl,
      (∀ e, EncoderControl.lastRecorded inps s = some e →
        (EncoderControl.ticks inps s).lastEvent = e ∧
        (EncoderControl.ticks inps s).eventConsumed = false) ∧
      (EncoderControl.lastRecorded inps s = none →
        (EncoderControl.ticks inps s).lastEvent = s.lastEvent ∧
        (EncoderControl.ticks inps s).eventConsumed = s.eventConsumed) := by
  induction inps with
  | nil =>
    intro s
    exact ⟨fun e h => by simp [EncoderControl.lastRecorded] at h, fun _ => ⟨rfl, rfl⟩⟩
  | cons inp rest ih =>
    intro s
    obtain ⟨ih1, ih2⟩ := ih (s.tick inp)
    obtain ⟨p1, p2⟩ := processEncoderState_event inp s
    rw [ticks_cons, lastRecorded_cons]
    cases hl : EncoderControl.lastRecorded rest (s.tick inp) with
    | some e0 =>
      constructor
      · intro e h
        simp only [Option.some.injEq] at h
        rw [← h]
        exact ih1 e0 hl
      · intro h
        simp at h
    | none =>
      obtain ⟨q1, q2⟩ := ih2 hl
      constructor
      · intro e h
        simp only [] at h
        obtain ⟨r1, r2⟩ := p1 e h
        exact ⟨q1.trans r1, q2.trans r2⟩
      · intro h
        simp only [] at h
        obtain ⟨r1, r2⟩ := p2 h
        exact ⟨q1.trans r1, q2.trans r2⟩

/-- A run of idle ticks records nothing and can only clear the pending click count. -/
theorem idle_ticks (idle : List EncoderInput) :
    ∀ s : EncoderControl, (∀ i ∈ idle, EncoderControl.IsIdle i) →
      EncoderControl.lastRecorded idle s = none ∧
      (EncoderControl.ticks idle s).clickStartTime = s.clickStartTime ∧
      ((EncoderControl.ticks idle s).clickCount = 0 ∨
        (EncoderControl.ticks idle s).clickCount = s.clickCount) := by
  induction idle with
  | nil => intro s _; exact ⟨rfl, rfl, Or.inr rfl⟩
  | cons inp rest ih =>
    intro s h
    obtain ⟨a1, a2, a3⟩ := ih (s.tick inp) (fun i hi => h i (List.mem_cons_of_mem _ hi))
    obtain ⟨b1, _, _, b4, _, b6, _⟩ := idle_tick inp s (h inp (List.mem_cons_self _ _))
    rw [ticks_cons, lastRecorded_cons, a1]
    refine ⟨b1, a2.trans b4, ?_⟩
    rcases a3 with a3 | a3
    · exact Or.inl a3
    · rcases b6 with b6 | b6
      · exact Or.inl (a3.trans b6)
      · exact Or.inr (a3.trans b6)

theorem getEvent_consumed (s : EncoderControl) (h : s.eventConsumed = true) :
    s.getEvent.1 = ⟨EncoderEventType.EVENT_NONE, 0⟩ ∧ s.getEvent.2.eventConsumed = true := by
  unfold EncoderControl.getEvent
  rw [if_pos h]
  exact ⟨rfl, h⟩

theorem getEvent_unconsumed (s : EncoderControl) (h : s.eventConsumed = false) :
    s.getEvent.1 = s.lastEvent ∧ s.getEvent.2.eventConsumed = true := by
  unfold EncoderControl.getEvent
  rw [if_neg (by rw [h]; exact Bool.false_ne_true)]
  exact ⟨rfl, rfl⟩

theorem getEvent_marks_consumed (s : EncoderControl) : s.getEvent.2.eventConsumed = true := by
  cases h : s.eventConsumed with
  | true => exact (getEvent_consumed s h).2
  | false => exact (getEvent_unconsumed s h).2

/-- From a consumed state, quiet rounds of ticks and `getEvent()` calls return only "none". -/
theorem polls_quiet (rounds : List (List EncoderInput)) :
    ∀ s : EncoderControl, s.eventConsumed = true → EncoderControl.QuietRounds rounds s →
      ∀ e ∈ EncoderControl.polls rounds s, e = ⟨EncoderEventType.EVENT_NONE, 0⟩ := by
  induction rounds with
  | nil => intro s _ _ e he; simp [EncoderControl.polls] at he
  | cons round rest ih =>
    intro s hs hq e he
    obtain ⟨q1, q2⟩ := hq
    have hc : (EncoderControl.ticks round s).eventConsumed = true :=
      (((ticks_event round s).2 q1).2).trans hs
    obtain ⟨g1, g2⟩ := getEvent_consumed _ hc
    simp only [EncoderControl.polls, List.mem_cons] at he
    rcases he with he | he
    · rw [he]; exact g1
    · exact ih _ g2 q2 e he

/-! ## EncoderControl: the claims -/

/-- C13, counterexample: a single click at 5000 ms and a burst of four
clicks at 5900 ms leave the pending click count at 4; after an idle tick with
the button pressed and a `getEvent()` call, a rotation with the button
pressed records no event: `eventConsumed` stays true and the next
`getEvent()` returns "none". -/
theorem rotation_after_four_clicks_not_recorded :
    (EncoderControl.ticks
      [⟨false, 0, false, true, 1, 5000⟩, ⟨false, 0, false, true, 4, 5900⟩,
        ⟨false, 0, true, false, 0, 5905⟩] EncoderControl.new).clickCount = 4 ∧
    EncoderControl.recordedEvent ⟨true, 1, true, false, 0, 5950⟩
      (EncoderControl.ticks
        [⟨false, 0, false, true, 1, 5000⟩, ⟨false, 0, false, true, 4, 5900⟩,
          ⟨false, 0, true, false, 0, 5905⟩] EncoderControl.new).getEvent.2 = none ∧
    (EncoderControl.processEncoderState ⟨true, 1, true, false, 0, 5950⟩
      (EncoderControl.ticks
        [⟨false, 0, false, true, 1, 5000⟩, ⟨false, 0, false, true, 4, 5900⟩,
          ⟨false, 0, true, false, 0, 5905⟩] EncoderControl.new).getEvent.2).eventConsumed
      = true ∧
    (EncoderControl.processEncoderState ⟨true, 1, true, false, 0, 5950⟩
      (EncoderControl.ticks
        [⟨false, 0, false, true, 1, 5000⟩, ⟨false, 0, false, true, 4, 5900⟩,
          ⟨false, 0, true, false, 0, 5905⟩] EncoderControl.new).getEvent.2).getEvent.1
      = ⟨EncoderEventType.EVENT_NONE, 0⟩ := by
  decide

/-- C13, amended: on every tick `processEncoderState` records the event of
the priority order.  A rotation with direction `d` and the button pressed
records `HOLD_ROTATE`, `CLICK_HOLD_ROTATE` or `DOUBLE_CLICK_HOLD_ROTATE` for a
pending click count of 0, 1 or 2, and nothing at all (the state is unchanged)
for a pending count of 3 or more; a rotation with the button not pressed
records `ROTATE`; each with value `d` and marked unconsumed.  A rotation takes
priority over a click burst of the same tick: the burst is ignored and the
pending count kept.  Without rotation a completed burst of 1, 2 or 3 clicks
records `SINGLE_CLICK`, `DOUBLE_CLICK` or `TRIPLE_CLICK` with value equal to
the count, unconsumed, leaving the pending count 1, 2 and 0. -/
theorem processEncoderState_priority (inp : EncoderInput) (s : EncoderControl) :
    (inp.turn = true → inp.pressing = true → s.clickCount = 0 →
      (s.processEncoderState inp).lastEvent = ⟨EncoderEventType.EVENT_HOLD_ROTATE, inp.dir⟩ ∧
      (s.processEncoderState inp).eventConsumed = false) ∧
    (inp.turn = true → inp.pressing = true → s.clickCount = 1 →
      (s.processEncoderState inp).lastEvent
        = ⟨EncoderEventType.EVENT_CLICK_HOLD_ROTATE, inp.dir⟩ ∧
      (s.processEncoderState inp).eventConsumed = false) ∧
    (inp.turn = true → inp.pressing = true → s.clickCount = 2 →
      (s.processEncoderState inp).lastEvent
        = ⟨EncoderEventType.EVENT_DOUBLE_CLICK_HOLD_ROTATE, inp.dir⟩ ∧
      (s.processEncoderState inp).eventConsumed = false) ∧
    (inp.turn = true → inp.pressing = true → 3 ≤ s.clickCount →
      s.processEncoderState inp = s) ∧
    (inp.turn = true → inp.pressing = false →
      (s.processEncoderState inp).lastEvent = ⟨EncoderEventType.EVENT_ROTATE, inp.dir⟩ ∧
      (s.processEncoderState inp).eventConsumed = false) ∧
    (inp.turn = true →
      (s.processEncoderState inp).clickCount = s.clickCount ∧
      ∀ (b : Bool) (n : Nat),
        s.processEncoderState { inp with hasClicks := b, getClicks := n }
          = s.processEncoderState inp) ∧
    (inp.turn = false → inp.hasClicks = true → inp.getClicks = 1 →
      (s.processEncoderState inp).lastEvent = ⟨EncoderEventType.EVENT_SINGLE_CLICK, 1⟩ ∧
      (s.processEncoderState inp).eventConsumed = false ∧
      (s.processEncoderState inp).clickCount = 1 ∧
      (s.processEncoderState inp).clickStartTime = inp.millis) ∧
    (inp.turn = false → inp.hasClicks = true → inp.getClicks = 2 →
      (s.processEncoderState inp).lastEvent = ⟨EncoderEventType.EVENT_DOUBLE_CLICK, 2⟩ ∧
      (s.processEncoderState inp).eventConsumed = false ∧
      (s.processEncoderState inp).clickCount = 2) ∧
    (inp.turn = false → inp.hasClicks = true → inp.getClicks = 3 →
      (s.processEncoderState inp).lastEvent = ⟨EncoderEventType.EVENT_TRIPLE_CLICK, 3⟩ ∧
      (s.processEncoderState inp).eventConsumed = false ∧
      (s.processEncoderState inp).clickCount = 0) := by
  refine ⟨?_, ?_, ?_, ?_, ?_, ?_, ?_, ?_, ?_⟩
  · intro h1 h2 h3
    simp [EncoderControl.processEncoderState, h1, h2, h3]
  · intro h1 h2 h3
    simp [EncoderControl.processEncoderState, h1, h2, h3]
  · intro h1 h2 h3
    simp [EncoderControl.processEncoderState, h1, h2, h3]
  · intro h1 h2 h3
    unfold EncoderControl.processEncoderState
    rw [if_pos h1, if_pos h2, if_neg (by omega), if_neg (by omega), if_neg (by omega)]
  · intro h1 h2
    simp [EncoderControl.processEncoderState, h1, h2]
  · intro h1
    constructor
    · unfold EncoderControl.processEncoderState
      rw [if_pos h1]
      simp only []
      split_ifs <;> rfl
    · intro b n
      unfold EncoderControl.processEncoderState
      rw [if_pos h1, if_pos h1]
  · intro h1 h2 h3
    simp [EncoderControl.processEncoderState, h1, h2, h3]
  · intro h1 h2 h3
    simp [EncoderControl.processEncoderState, h1, h2, h3]
  · intro h1 h2 h3
    simp [EncoderControl.processEncoderState, h1, h2, h3]

theorem processEncoderState_priority_witness :
    ((EncoderControl.new.processEncoderState ⟨true, -1, true, true, 2, 100⟩).lastEvent
        = ⟨EncoderEventType.EVENT_HOLD_ROTATE, -1⟩ ∧
      (EncoderControl.new.processEncoderState ⟨true, -1, true, true, 2, 100⟩).eventConsumed
        = false) ∧
    ((EncoderControl.new.processEncoderState ⟨false, 0, false, true, 3, 100⟩).lastEvent
        = ⟨EncoderEventType.EVENT_TRIPLE_CLICK, 3⟩ ∧
      (EncoderControl.new.processEncoderState ⟨false, 0, false, true, 3, 100⟩).eventConsumed
        = false ∧
      (EncoderControl.new.processEncoderState ⟨false, 0, false, true, 3, 100⟩).clickCount = 0) :=
  ⟨(processEncoderState_priority ⟨true, -1, true, true, 2, 100⟩ EncoderControl.new).1
      rfl rfl rfl,
    (processEncoderState_priority ⟨false, 0, false, true, 3, 100⟩
      EncoderControl.new).2.2.2.2.2.2.2.2 rfl rfl rfl⟩

/-- C14: after a tick that reports a single-click burst at time `t`, for
every sequence of idle ticks (no rotation, no completed burst) no tick records
an event (the pending event stays the unconsumed `SINGLE_CLICK`), and once
the sequence contains an idle tick whose time exceeds `t` by more than
1000 ms (as a 32-bit difference) the pending click count is 0. -/
theorem single_click_then_idle (s0 : EncoderControl) (click : EncoderInput)
    (idle : List EncoderInput)
    (h0 : click.turn = false) (h1 : click.hasClicks = true) (h2 : click.getClicks = 1)
    (hidle : ∀ i ∈ idle, EncoderControl.IsIdle i) :
    EncoderControl.recordedEvent click s0 = some ⟨EncoderEventType.EVENT_SINGLE_CLICK, 1⟩ ∧
    EncoderControl.lastRecorded idle (s0.tick click) = none ∧
    (EncoderControl.ticks idle (s0.tick click)).lastEvent
      = ⟨EncoderEventType.EVENT_SINGLE_CLICK, 1⟩ ∧
    (EncoderControl.ticks idle (s0.tick click)).eventConsumed = false ∧
    (∀ (pre post : List EncoderInput) (x : EncoderInput), idle = pre ++ x :: post →
      (x.millis + 4294967296 - click.millis) % 4294967296 > 1000 →
      (EncoderControl.ticks idle (s0.tick click)).clickCount = 0) := by
  have hrec : EncoderControl.recordedEvent click s0
      = some ⟨EncoderEventType.EVENT_SINGLE_CLICK, 1⟩ := by
    simp [EncoderControl.recordedEvent, h0, h1, h2]
  obtain ⟨e1, e2, _, e4⟩ := (processEncoderState_priority click s0).2.2.2.2.2.2.1 h0 h1 h2
  obtain ⟨a1, _, _⟩ := idle_ticks idle (s0.tick click) hidle
  obtain ⟨b1, b2⟩ := (ticks_event idle (s0.tick click)).2 a1
  refine ⟨hrec, a1, b1.trans e1, b2.trans e2, ?_⟩
  intro pre post x hsplit hx
  have hpre : ∀ i ∈ pre, EncoderControl.IsIdle i := fun i hi =>
    hidle i (by rw [hsplit]; exact List.mem_append_left _ hi)
  have hxi : EncoderControl.IsIdle x :=
    hidle x (by rw [hsplit]; exact List.mem_append_right _ (List.mem_cons_self _ _))
  have hpost : ∀ i ∈ post, EncoderControl.IsIdle i := fun i hi =>
    hidle i (by rw [hsplit]; exact List.mem_append_right _ (List.mem_cons_of_mem _ hi))
  obtain ⟨_, c2, _⟩ := idle_ticks pre (s0.tick click) hpre
  have ht : (EncoderControl.ticks pre (s0.tick click)).clickStartTime = click.millis :=
    c2.trans e4
  obtain ⟨_, _, _, _, _, _, d7, _⟩ := idle_tick x (EncoderControl.ticks pre (s0.tick click)) hxi
  rw [ht] at d7
  have hz := d7 hx
  obtain ⟨_, _, f3⟩ := idle_ticks post ((EncoderControl.ticks pre (s0.tick click)).tick x) hpost
  rw [hsplit, ticks_append, ticks_cons]
  rcases f3 with f3 | f3
  · exact f3
  · exact f3.trans hz

theorem single_click_then_idle_witness :
    (EncoderInput.turn ⟨false, 0, false, true, 1, 5000⟩ = false) ∧
    (EncoderInput.hasClicks ⟨false, 0, false, true, 1, 5000⟩ = true) ∧
    (EncoderInput.getClicks ⟨false, 0, false, true, 1, 5000⟩ = 1) ∧
    (∀ i ∈ [(⟨false, 0, false, false, 0, 5500⟩ : EncoderInput), ⟨false, 0, false, false, 0, 6001⟩],
      EncoderControl.IsIdle i) ∧
    (EncoderControl.ticks [⟨false, 0, false, false, 0, 5500⟩, ⟨false, 0, false, false, 0, 6001⟩]
      (EncoderControl.new.tick ⟨false, 0, false, true, 1, 5000⟩)).lastEvent
      = ⟨EncoderEventType.EVENT_SINGLE_CLICK, 1⟩ ∧
    (EncoderControl.ticks [⟨false, 0, false, false, 0, 5500⟩, ⟨false, 0, false, false, 0, 6001⟩]
      (EncoderControl.new.tick ⟨false, 0, false, true, 1, 5000⟩)).clickCount = 0 ∧
    (EncoderControl.ticks [⟨false, 0, false, false, 0, 5500⟩]
      (EncoderControl.new.tick ⟨false, 0, false, true, 1, 5000⟩)).clickCount = 1 :=
  have hi : ∀ i ∈ [(⟨false, 0, false, false, 0, 5500⟩ : EncoderInput),
      ⟨false, 0, false, false, 0, 6001⟩], EncoderControl.IsIdle i := by
    intro i hi
    simp only [List.mem_cons, List.mem_singleton, List.not_mem_nil, or_false] at hi
    rcases hi with h | h <;> rw [h] <;> exact ⟨rfl, rfl⟩
  have h := single_click_then_idle EncoderControl.new ⟨false, 0, false, true, 1, 5000⟩
    [⟨false, 0, false, false, 0, 5500⟩, ⟨false, 0, false, false, 0, 6001⟩] rfl rfl rfl hi
  ⟨rfl, rfl, rfl, hi, h.2.2.1,
    h.2.2.2.2 [⟨false, 0, false, false, 0, 5500⟩] [] ⟨false, 0, false, false, 0, 6001⟩ rfl
      (by decide),
    by decide⟩

/-- C15: for every `EncoderControl` state holding an unconsumed event `E`,
the first `getEvent()` returns `E`; every later `getEvent()` call, each
preceded by any run of ticks none of which records an event, returns an
event of type `EVENT_NONE` with value 0. -/
theorem getEvent_once (s : EncoderControl) (rounds : List (List EncoderInput))
    (hu : s.eventConsumed = false)
    (hq : EncoderControl.QuietRounds rounds s.getEvent.2) :
    s.getEvent.1 = s.lastEvent ∧
    ∀ e ∈ EncoderControl.polls rounds s.getEvent.2, e = ⟨EncoderEventType.EVENT_NONE, 0⟩ := by
  obtain ⟨g1, g2⟩ := getEvent_unconsumed s hu
  exact ⟨g1, polls_quiet rounds _ g2 hq⟩

theorem getEvent_once_witness :
    (EncoderControl.new.tick ⟨true, 1, false, false, 0, 100⟩).eventConsumed = false ∧
    EncoderControl.QuietRounds [[], [⟨false, 0, true, false, 0, 200⟩]]
      (EncoderControl.new.tick ⟨true, 1, false, false, 0, 100⟩).getEvent.2 ∧
    (EncoderControl.new.tick ⟨true, 1, false, false, 0, 100⟩).getEvent.1
      = ⟨EncoderEventType.EVENT_ROTATE, 1⟩ ∧
    EncoderControl.polls [[], [⟨false, 0, true, false, 0, 200⟩]]
      (EncoderControl.new.tick ⟨true, 1, false, false, 0, 100⟩).getEvent.2
      = [⟨EncoderEventType.EVENT_NONE, 0⟩, ⟨EncoderEventType.EVENT_NONE, 0⟩] :=
  have hq : EncoderControl.QuietRounds [[], [⟨false, 0, true, false, 0, 200⟩]]
      (EncoderControl.new.tick ⟨true, 1, false, false, 0, 100⟩).getEvent.2 :=
    ⟨rfl, rfl, trivial⟩
  ⟨rfl, hq,
    (getEvent_once (EncoderControl.new.tick ⟨true, 1, false, false, 0, 100⟩)
      [[], [⟨false, 0, true, false, 0, 200⟩]] rfl hq).1,
    by decide⟩

/-- C16: depth-1 overwrite.  For every sequence of ticks between two
`getEvent()` calls, the second call returns the event recorded by the last
event-recording tick of the sequence, and `EVENT_NONE` with value 0 when no
tick of the sequence records an event (the first call has consumed the
previous one). -/
theorem getEvent_after_ticks (s0 : EncoderControl) (inps : List EncoderInput) :
    (∀ e, EncoderControl.lastRecorded inps s0.getEvent.2 = some e →
      (EncoderControl.ticks inps s0.getEvent.2).getEvent.1 = e) ∧
    (EncoderControl.lastRecorded inps s0.getEvent.2 = none →
      (EncoderControl.ticks inps s0.getEvent.2).getEvent.1
        = ⟨EncoderEventType.EVENT_NONE, 0⟩) := by
  obtain ⟨t1, t2⟩ := ticks_event inps s0.getEvent.2
  constructor
  · intro e h
    obtain ⟨a, b⟩ := t1 e h
    exact (getEvent_unconsumed _ b).1.trans a
  · intro h
    obtain ⟨_, b⟩ := t2 h
    exact (getEvent_consumed _ (b.trans (getEvent_marks_consumed s0))).1

theorem getEvent_after_ticks_witness :
    EncoderControl.lastRecorded
      [⟨true, 1, false, false, 0, 100⟩, ⟨false, 0, false, true, 2, 300⟩,
        ⟨false, 0, false, false, 0, 310⟩] EncoderControl.new.getEvent.2
      = some ⟨EncoderEventType.EVENT_DOUBLE_CLICK, 2⟩ ∧
    (EncoderControl.ticks
      [⟨true, 1, false, false, 0, 100⟩, ⟨false, 0, false, true, 2, 300⟩,
        ⟨false, 0, false, false, 0, 310⟩] EncoderControl.new.getEvent.2).getEvent.1
      = ⟨EncoderEventType.EVENT_DOUBLE_CLICK, 2⟩ :=
  ⟨by decide,
    (getEvent_after_ticks EncoderControl.new
      [⟨true, 1, false, false, 0, 100⟩, ⟨false, 0, false, true, 2, 300⟩,
        ⟨false, 0, false, false, 0, 310⟩]).1 _ (by decide)⟩

/-! ## SystemState: lemmas -/

theorem Store.length_putU8 (st : Store) (a v : Nat) : (Store.putU8 st a v).length = st.length := by
  unfold Store.putU8
  exact List.length_set _ _ _

theorem Store.getD_putU8 (st : Store) (a v j : Nat) :
    (Store.putU8 st a v).getD j 0 = if a = j ∧ a < st.length then v % 256 else st.getD j 0 := by
  unfold Store.putU8
  rw [List.getD_eq_getElem?_getD, List.getD_eq_getElem?_getD, List.getElem?_set]
  by_cases h : a = j
  · by_cases h2 : a < st.length
    · rw [if_pos h, if_pos h2, if_pos ⟨h, h2⟩]
      rfl
    · rw [if_pos h, if_neg h2, if_neg (fun hh => h2 hh.2)]
      rw [← h, List.getElem?_eq_none (by omega)]
  · rw [if_neg h, if_neg (fun hh => h hh.1)]

theorem save_length (s : SystemState) (st : Store) : (s.save st).length = st.length := by
  unfold SystemState.save Store.putU16 Store.putI32
  simp only [Store.length_putU8]

/-- The fourteen bytes `save` writes, and the bytes it leaves alone. -/
theorem save_bytes (s : SystemState) (st : Store) (h : 14 ≤ st.length) :
    (s.save st).getD 0 0 = 190 ∧ (s.save st).getD 1 0 = 190 ∧
    (s.save st).getD 2 0 = (if s.powerOn then 1 else 0) ∧
    (s.save st).getD 3 0 = s.volume % 256 ∧
    (s.save st).getD 4 0 = s.mouthBrightness % 256 ∧
    (s.save st).getD 5 0 = s.eyeBrightness % 256 ∧
    (s.save st).getD 6 0 = s.audioThreshold % 256 ∧
    (s.save st).getD 7 0 = s.audioThreshold / 256 % 256 ∧
    (s.save st).getD 8 0 = s.audioMode % 256 ∧
    (s.save st).getD 9 0 = s.visualEffect % 256 ∧
    (s.save st).getD 10 0 = (s.timeCalibrationOffset % 4294967296).toNat % 256 ∧
    (s.save st).getD 11 0 = (s.timeCalibrationOffset % 4294967296).toNat / 256 % 256 ∧
    (s.save st).getD 12 0 = (s.timeCalibrationOffset % 4294967296).toNat / 65536 % 256 ∧
    (s.save st).getD 13 0 = (s.timeCalibrationOffset % 4294967296).toNat / 16777216 % 256 ∧
    ∀ j, 14 ≤ j → (s.save st).getD j 0 = st.getD j 0 := by
  have h0 : 0 < st.length := by omega
  have h1 : 1 < st.length := by omega
  have h2 : 2 < st.length := by omega
  have h3 : 3 < st.length := by omega
  have h4 : 4 < st.length := by omega
  have h5 : 5 < st.length := by omega
  have h6 : 6 < st.length := by omega
  have h7 : 7 < st.length := by omega
  have h8 : 8 < st.length := by omega
  have h9 : 9 < st.length := by omega
  have h10 : 10 < st.length := by omega
  have h11 : 11 < st.length := by omega
  have h12 : 12 < st.length := by omega
  have h13 : 13 < st.length := by omega
  unfold SystemState.save Store.putU16 Store.putI32 EEPROM_ADDR_MAGIC EEPROM_ADDR_STATE
    EEPROM_ADDR_VOLUME EEPROM_ADDR_MOUTH_BRIGHT EEPROM_ADDR_EYE_BRIGHT EEPROM_ADDR_THRESHOLD
    EEPROM_ADDR_MODE EEPROM_ADDR_EFFECT EEPROM_ADDR_TIME_OFFSET EEPROM_MAGIC_VALUE
  simp only [Store.getD_putU8, Store.length_putU8]
  refine ⟨?_, ?_, ?_, ?_, ?_, ?_, ?_, ?_, ?_, ?_, ?_, ?_, ?_, ?_, ?_⟩
  · simp [h0]
  · simp [h1]
  · simp [h2]
    split <;> decide
  · simp [h3]
  · simp [h4]
  · simp [h5]
  · simp [h6]
  · simp [h7]
  · simp [h8]
  · simp [h9]
  · simp [h10]
  · simp [h11]
  · simp [h12]
  · simp [h13]
  · intro j hj
    have hne : ∀ a : Nat, a < 14 → ¬ (a = j ∧ a < st.length) := fun a ha hh => by omega
    simp only [hne 0 (by decide), hne 1 (by decide), hne 2 (by decide), hne 3 (by decide),
      hne 4 (by decide), hne 5 (by decide), hne 6 (by decide), hne 7 (by decide),
      hne 8 (by decide), hne 9 (by decide), hne 10 (by decide), hne 11 (by decide),
      hne 12 (by decide), hne 13 (by decide), if_false]

theorem Store.getU8_eq (st : Store) (a : Nat) : Store.getU8 st a = st.getD a 0 % 256 := rfl

/-- Every field read back from the store `save` has written, and the bytes it leaves alone. -/
theorem save_reads (s : SystemState) (st : Store) (h : 14 ≤ st.length) (ht : s.WellTyped) :
    Store.getU16 (s.save st) 0 = 48830 ∧
    Store.getU8 (s.save st) 2 = (if s.powerOn then 1 else 0) ∧
    Store.getU8 (s.save st) 3 = s.volume ∧
    Store.getU8 (s.save st) 4 = s.mouthBrightness ∧
    Store.getU8 (s.save st) 5 = s.eyeBrightness ∧
    Store.getU16 (s.save st) 6 = s.audioThreshold ∧
    Store.getU8 (s.save st) 8 = s.audioMode ∧
    Store.getU8 (s.save st) 9 = s.visualEffect ∧
    Store.getI32 (s.save st) 10 = s.timeCalibrationOffset := by
  obtain ⟨b0, b1, b2, b3, b4, b5, b6, b7, b8, b9, b10, b11, b12, b13, _⟩ := save_bytes s st h
  obtain ⟨t1, t2, t3, t4, t5, t6, t7⟩ := ht
  unfold IsUInt8 at t1 t2 t3 t5 t6
  unfold SystemState.IsUInt16 at t4
  unfold IsInt32 at t7
  unfold Store.getI32 Store.getU16
  simp only [Store.getU8_eq, b0, b1, b2, b3, b4, b5, b6, b7, b8, b9, b10, b11, b12, b13]
  refine ⟨by decide, ?_, ?_, ?_, ?_, ?_, ?_, ?_, ?_⟩
  · split <;> decide
  · omega
  · omega
  · omega
  · omega
  · omega
  · omega
  · generalize s.timeCalibrationOffset = v at t7
    unfold wrapInt32
    omega

/-- `constrain(v, 0, b)` on an unsigned byte argument is `min(v, b)`. -/
theorem constrain_byte (v : Nat) (b : Int) (h0 : 0 ≤ b) (h1 : b < 256) :
    wrapUInt8 (constrain (v : Int) 0 b) = min v b.toNat := by
  unfold constrain wrapUInt8
  rw [if_neg (by omega)]
  split <;> omega

/-- The fields after `load`, in closed form. -/
theorem load_fields (st : Store) (s : SystemState) :
    (s.load st).powerOn = decide (Store.getU8 st 2 ≠ 0) ∧
    (s.load st).volume = min (Store.getU8 st 3) 21 ∧
    (s.load st).mouthBrightness = min (Store.getU8 st 4) 15 ∧
    (s.load st).eyeBrightness = min (Store.getU8 st 5) 15 ∧
    (s.load st).audioThreshold
      = (if Store.getU16 st 6 = 0 then 512 else Store.getU16 st 6) ∧
    (s.load st).audioMode = min (Store.getU8 st 8) 3 ∧
    (s.load st).visualEffect = min (Store.getU8 st 9) 2 ∧
    (s.load st).timeCalibrationOffset = Store.getI32 st 10 := by
  refine ⟨rfl, ?_, ?_, ?_, rfl, ?_, ?_, rfl⟩
  · exact constrain_byte _ 21 (by decide) (by decide)
  · exact constrain_byte _ 15 (by decide) (by decide)
  · exact constrain_byte _ 15 (by decide) (by decide)
  · exact constrain_byte _ (4 - 1) (by decide) (by decide)
  · exact constrain_byte _ (3 - 1) (by decide) (by decide)

theorem writeDefaults_fields (s : SystemState) :
    s.writeDefaults.powerOn = false ∧ s.writeDefaults.volume = 10 ∧
    s.writeDefaults.mouthBrightness = 8 ∧ s.writeDefaults.eyeBrightness = 10 ∧
    s.writeDefaults.audioThreshold = 512 ∧ s.writeDefaults.audioMode = 0 ∧
    s.writeDefaults.visualEffect = 0 ∧ s.writeDefaults.timeCalibrationOffset = 0 :=
  ⟨rfl, rfl, rfl, rfl, rfl, rfl, rfl, rfl⟩

theorem writeDefaults_wellTyped (s : SystemState) : s.writeDefaults.WellTyped :=
  ⟨show (10 : Nat) < 256 by decide, show (8 : Nat) < 256 by decide,
    show (10 : Nat) < 256 by decide, show (512 : Nat) < 65536 by decide,
    show (0 : Nat) < 256 by decide, show (0 : Nat) < 256 by decide,
    show (-2147483648 : Int) ≤ 0 ∧ (0 : Int) ≤ 2147483647 by decide⟩

/-- The settings and the store after `init`: those of `load` on a valid
store, which is left alone, and the defaults, saved, otherwise. -/
theorem init_settings (millis0 millis1 : Nat) (st : Store) (s : SystemState) :
    (SystemState.isValidEEPROM st = true →
      (s.init millis0 millis1 st).2 = st ∧
      (s.init millis0 millis1 st).1.powerOn = (s.load st).powerOn ∧
      (s.init millis0 millis1 st).1.volume = (s.load st).volume ∧
      (s.init millis0 millis1 st).1.mouthBrightness = (s.load st).mouthBrightness ∧
      (s.init millis0 millis1 st).1.eyeBrightness = (s.load st).eyeBrightness ∧
      (s.init millis0 millis1 st).1.audioThreshold = (s.load st).audioThreshold ∧
      (s.init millis0 millis1 st).1.audioMode = (s.load st).audioMode ∧
      (s.init millis0 millis1 st).1.visualEffect = (s.load st).visualEffect ∧
      (s.init millis0 millis1 st).1.timeCalibrationOffset
        = (s.load st).timeCalibrationOffset) ∧
    (SystemState.isValidEEPROM st = false →
      (s.init millis0 millis1 st).2 = s.writeDefaults.save st ∧
      (s.init millis0 millis1 st).1.powerOn = s.writeDefaults.powerOn ∧
      (s.init millis0 millis1 st).1.volume = s.writeDefaults.volume ∧
      (s.init millis0 millis1 st).1.mouthBrightness = s.writeDefaults.mouthBrightness ∧
      (s.init millis0 millis1 st).1.eyeBrightness = s.writeDefaults.eyeBrightness ∧
      (s.init millis0 millis1 st).1.audioThreshold = s.writeDefaults.audioThreshold ∧
      (s.init millis0 millis1 st).1.audioMode = s.writeDefaults.audioMode ∧
      (s.init millis0 millis1 st).1.visualEffect = s.writeDefaults.visualEffect ∧
      (s.init millis0 millis1 st).1.timeCalibrationOffset
        = s.writeDefaults.timeCalibrationOffset) := by
  unfold SystemState.init
  constructor
  · intro h
    rw [if_pos h]
    simp only []
    split <;> simp
  · intro h
    rw [if_neg (by rw [h]; exact Bool.false_ne_true)]
    simp only []
    split <;> simp

theorem isValidEEPROM_iff (st : Store) :
    SystemState.isValidEEPROM st = true ↔ Store.getU16 st 0 = 48830 := by
  unfold SystemState.isValidEEPROM EEPROM_ADDR_MAGIC EEPROM_MAGIC_VALUE
  exact decide_eq_true_iff

theorem load_inRange (st : Store) (s : SystemState) : SettingsInRange (s.load st) := by
  obtain ⟨_, a, b, c, _, d, e, _⟩ := load_fields st s
  unfold SettingsInRange
  rw [a, b, c, d, e]
  omega

theorem init_inRange (millis0 millis1 : Nat) (st : Store) (s : SystemState) :
    SettingsInRange (s.init millis0 millis1 st).1 := by
  obtain ⟨h1, h2⟩ := init_settings millis0 millis1 st s
  unfold SettingsInRange
  cases hv : SystemState.isValidEEPROM st with
  | true =>
    obtain ⟨_, _, a, b, c, _, d, e, _⟩ := h1 hv
    rw [a, b, c, d, e]
    exact load_inRange st s
  | false =>
    obtain ⟨_, _, a, b, c, _, d, e, _⟩ := h2 hv
    rw [a, b, c, d, e]
    exact ⟨show (10 : Nat) ≤ 21 by decide, show (8 : Nat) ≤ 15 by decide,
      show (10 : Nat) ≤ 15 by decide, show (0 : Nat) ≤ 3 by decide,
      show (0 : Nat) ≤ 2 by decide⟩

/-- The setters of the bounded fields store `min(v, bound)`. -/
theorem setters_clamp (s : SystemState) (v : Nat) :
    (s.setVolume v).volume = min v 21 ∧
    (s.setMouthBrightness v).mouthBrightness = min v 15 ∧
    (s.setEyeBrightness v).eyeBrightness = min v 15 ∧
    (s.setAudioMode v).audioMode = min v 3 ∧
    (s.setVisualEffect v).visualEffect = min v 2 :=
  ⟨constrain_byte v 21 (by decide) (by decide), constrain_byte v 15 (by decide) (by decide),
    constrain_byte v 15 (by decide) (by decide), constrain_byte v (4 - 1) (by decide) (by decide),
    constrain_byte v (3 - 1) (by decide) (by decide)⟩

theorem reachable_inRange (s : SystemState) (hr : SystemState.Reachable s) :
    SettingsInRange s := by
  induction hr with
  | new => exact ⟨by decide, by decide, by decide, by decide, by decide⟩
  | load s st _ _ => exact load_inRange st s
  | init s st millis0 millis1 _ _ => exact init_inRange millis0 millis1 st s
  | setPowerOn s b _ ih => exact ih
  | togglePower s _ ih => exact ih
  | setVolume s v _ _ ih =>
    obtain ⟨_, b, c, d, e⟩ := ih
    have := (setters_clamp s v).1
    exact ⟨by rw [this]; omega, b, c, d, e⟩
  | setMouthBrightness s v _ _ ih =>
    obtain ⟨a, _, c, d, e⟩ := ih
    have := (setters_clamp s v).2.1
    exact ⟨a, by rw [this]; omega, c, d, e⟩
  | setEyeBrightness s v _ _ ih =>
    obtain ⟨a, b, _, d, e⟩ := ih
    have := (setters_clamp s v).2.2.1
    exact ⟨a, b, by rw [this]; omega, d, e⟩
  | setAudioThreshold s v _ _ ih => exact ih
  | setAudioMode s v _ _ ih =>
    obtain ⟨a, b, c, _, e⟩ := ih
    have := (setters_clamp s v).2.2.2.1
    exact ⟨a, b, c, by rw [this]; omega, e⟩
  | setVisualEffect s v _ _ ih =>
    obtain ⟨a, b, c, d, _⟩ := ih
    have := (setters_clamp s v).2.2.2.2
    exact ⟨a, b, c, d, by rw [this]; omega⟩
  | setCurrentTime s t _ _ ih => exact ih
  | setTimeCalibration s t _ _ ih => exact ih

theorem load_threshold_ne_zero (st : Store) (s : SystemState) :
    (s.load st).audioThreshold ≠ 0 := by
  rw [(load_fields st s).2.2.2.2.1]
  split <;> omega

/-! ## SystemState: the claims -/

/-- C17: in every `SystemState` reachable from construction by `load` (on
arbitrary store contents), `init` and the setters, `volume <= 21`,
`mouthBrightness <= 15`, `eyeBrightness <= 15`, `audioMode <= 3` and
`visualEffect <= 2`; each setter stores `min(v, bound)` for its argument `v`
and `load` stores `min(v, bound)` for the stored byte `v`; and `save` writes
in-range values to the store. -/
theorem settings_clamped (s : SystemState) (hr : SystemState.Reachable s) :
    (s.getVolume ≤ 21 ∧ s.getMouthBrightness ≤ 15 ∧ s.getEyeBrightness ≤ 15 ∧
      s.getAudioMode ≤ 3 ∧ s.getVisualEffect ≤ 2) ∧
    (∀ v : Nat,
      (s.setVolume v).getVolume = min v 21 ∧
      (s.setMouthBrightness v).getMouthBrightness = min v 15 ∧
      (s.setEyeBrightness v).getEyeBrightness = min v 15 ∧
      (s.setAudioMode v).getAudioMode = min v 3 ∧
      (s.setVisualEffect v).getVisualEffect = min v 2) ∧
    (∀ st : Store,
      (s.load st).getVolume = min (Store.getU8 st 3) 21 ∧
      (s.load st).getMouthBrightness = min (Store.getU8 st 4) 15 ∧
      (s.load st).getEyeBrightness = min (Store.getU8 st 5) 15 ∧
      (s.load st).getAudioMode = min (Store.getU8 st 8) 3 ∧
      (s.load st).getVisualEffect = min (Store.getU8 st 9) 2) ∧
    (∀ st : Store, st.length = EEPROM_SIZE →
      Store.getU8 (s.save st) 3 ≤ 21 ∧ Store.getU8 (s.save st) 4 ≤ 15 ∧
      Store.getU8 (s.save st) 5 ≤ 15 ∧ Store.getU8 (s.save st) 8 ≤ 3 ∧
      Store.getU8 (s.save st) 9 ≤ 2) := by
  have hin := reachable_inRange s hr
  refine ⟨hin, fun v => setters_clamp s v, fun st => ?_, fun st hst => ?_⟩
  · obtain ⟨_, a, b, c, _, d, e, _⟩ := load_fields st s
    exact ⟨a, b, c, d, e⟩
  · unfold EEPROM_SIZE at hst
    obtain ⟨_, _, _, b3, b4, b5, _, _, b8, b9, _⟩ := save_bytes s st (by omega)
    obtain ⟨i1, i2, i3, i4, i5⟩ := hin
    simp only [Store.getU8_eq, b3, b4, b5, b8, b9]
    omega

set_option maxRecDepth 100000 in
theorem settings_clamped_witness :
    SystemState.Reachable (SystemState.new.load (List.replicate 512 255)) ∧
    Store.getU8 (List.replicate 512 255) 3 = 255 ∧
    (SystemState.new.load (List.replicate 512 255)).getVolume = 21 ∧
    ((SystemState.new.load (List.replicate 512 255)).getVolume ≤ 21 ∧
      (SystemState.new.load (List.replicate 512 255)).getMouthBrightness ≤ 15 ∧
      (SystemState.new.load (List.replicate 512 255)).getEyeBrightness ≤ 15 ∧
      (SystemState.new.load (List.replicate 512 255)).getAudioMode ≤ 3 ∧
      (SystemState.new.load (List.replicate 512 255)).getVisualEffect ≤ 2) :=
  have hr : SystemState.Reachable (SystemState.new.load (List.replicate 512 255)) :=
    SystemState.Reachable.load _ _ SystemState.Reachable.new
  ⟨hr, by decide, by decide, (settings_clamped _ hr).1⟩

/-- C18, failing input: `setAudioThreshold(0)` on a freshly constructed
`SystemState` stores 0; `getAudioThreshold()` then returns 0, not 512. -/
theorem setAudioThreshold_zero_stored :
    SystemState.Reachable (SystemState.new.setAudioThreshold 0) ∧
    (SystemState.new.setAudioThreshold 0).getAudioThreshold = 0 :=
  ⟨SystemState.Reachable.setAudioThreshold _ 0 SystemState.Reachable.new (by decide), rfl⟩

/-- C19: for every store whose 2-byte magic field differs from `0xBEBE`,
`init` leaves the settings at the defaults (`powerOn` false, volume 10,
mouth brightness 8, eye brightness 10, threshold 512, mode 0, effect 0,
calibration offset 0) and leaves the store with magic `0xBEBE` holding those
defaults, bytes from offset 14 on untouched; for every store whose magic equals
`0xBEBE`, `init` loads the stored, clamped values and leaves the store as it
was. -/
theorem init_by_magic (s : SystemState) (st : Store) (millis0 millis1 : Nat)
    (hst : st.length = EEPROM_SIZE) :
    (Store.getU16 st 0 ≠ 48830 →
      ((s.init millis0 millis1 st).1.isPowerOn = false ∧
        (s.init millis0 millis1 st).1.getVolume = 10 ∧
        (s.init millis0 millis1 st).1.getMouthBrightness = 8 ∧
        (s.init millis0 millis1 st).1.getEyeBrightness = 10 ∧
        (s.init millis0 millis1 st).1.getAudioThreshold = 512 ∧
        (s.init millis0 millis1 st).1.getAudioMode = 0 ∧
        (s.init millis0 millis1 st).1.getVisualEffect = 0 ∧
        (s.init millis0 millis1 st).1.getTimeCalibrationOffset = 0) ∧
      (Store.getU16 (s.init millis0 millis1 st).2 0 = 48830 ∧
        Store.getU8 (s.init millis0 millis1 st).2 2 = 0 ∧
        Store.getU8 (s.init millis0 millis1 st).2 3 = 10 ∧
        Store.getU8 (s.init millis0 millis1 st).2 4 = 8 ∧
        Store.getU8 (s.init millis0 millis1 st).2 5 = 10 ∧
        Store.getU16 (s.init millis0 millis1 st).2 6 = 512 ∧
        Store.getU8 (s.init millis0 millis1 st).2 8 = 0 ∧
        Store.getU8 (s.init millis0 millis1 st).2 9 = 0 ∧
        Store.getI32 (s.init millis0 millis1 st).2 10 = 0 ∧
        ∀ j, 14 ≤ j → (s.init millis0 millis1 st).2.getD j 0 = st.getD j 0)) ∧
    (Store.getU16 st 0 = 48830 →
      (s.init millis0 millis1 st).2 = st ∧
      (s.init millis0 millis1 st).1.isPowerOn = decide (Store.getU8 st 2 ≠ 0) ∧
      (s.init millis0 millis1 st).1.getVolume = min (Store.getU8 st 3) 21 ∧
      (s.init millis0 millis1 st).1.getMouthBrightness = min (Store.getU8 st 4) 15 ∧
      (s.init millis0 millis1 st).1.getEyeBrightness = min (Store.getU8 st 5) 15 ∧
      (s.init millis0 millis1 st).1.getAudioThreshold
        = (if Store.getU16 st 6 = 0 then 512 else Store.getU16 st 6) ∧
      (s.init millis0 millis1 st).1.getAudioMode = min (Store.getU8 st 8) 3 ∧
      (s.init millis0 millis1 st).1.getVisualEffect = min (Store.getU8 st 9) 2 ∧
      (s.init millis0 millis1 st).1.getTimeCalibrationOffset = Store.getI32 st 10) := by
  unfold EEPROM_SIZE at hst
  obtain ⟨h1, h2⟩ := init_settings millis0 millis1 st s
  constructor
  · intro hm
    have hv : SystemState.isValidEEPROM st = false := by
      cases hc : SystemState.isValidEEPROM st with
      | false => rfl
      | true => exact absurd ((isValidEEPROM_iff st).1 hc) hm
    obtain ⟨e0, e1, e2, e3, e4, e5, e6, e7, e8⟩ := h2 hv
    obtain ⟨d1, d2, d3, d4, d5, d6, d7, d8⟩ := writeDefaults_fields s
    refine ⟨⟨e1.trans d1, e2.trans d2, e3.trans d3, e4.trans d4, e5.trans d5, e6.trans d6,
      e7.trans d7, e8.trans d8⟩, ?_⟩
    rw [e0]
    obtain ⟨r1, r2, r3, r4, r5, r6, r7, r8, r9⟩ :=
      save_reads s.writeDefaults st (by omega) (writeDefaults_wellTyped s)
    have hb := (save_bytes s.writeDefaults st (by omega)).2.2.2.2.2.2.2.2.2.2.2.2.2.2
    rw [d1] at r2
    rw [d2] at r3
    rw [d3] at r4
    rw [d4] at r5
    rw [d5] at r6
    rw [d6] at r7
    rw [d7] at r8
    rw [d8] at r9
    exact ⟨r1, r2, r3, r4, r5, r6, r7, r8, r9, hb⟩
  · intro hm
    have hv : SystemState.isValidEEPROM st = true := (isValidEEPROM_iff st).2 hm
    obtain ⟨e0, e1, e2, e3, e4, e5, e6, e7, e8⟩ := h1 hv
    obtain ⟨l1, l2, l3, l4, l5, l6, l7, l8⟩ := load_fields st s
    exact ⟨e0, e1.trans l1, e2.trans l2, e3.trans l3, e4.trans l4, e5.trans l5, e6.trans l6,
      e7.trans l7, e8.trans l8⟩

set_option maxRecDepth 100000 in
theorem init_by_magic_witness :
    (List.replicate 512 255 : Store).length = EEPROM_SIZE ∧
    Store.getU16 (List.replicate 512 255) 0 ≠ 48830 ∧
    (SystemState.new.init 100 100 (List.replicate 512 255)).1.getVolume = 10 ∧
    Store.getU16 (SystemState.new.init 100 100 (List.replicate 512 255)).2 0 = 48830 ∧
    (SystemState.new.init 7 7
      (SystemState.new.init 100 100 (List.replicate 512 255)).2).2
      = (SystemState.new.init 100 100 (List.replicate 512 255)).2 :=
  have h := init_by_magic SystemState.new (List.replicate 512 255) 100 100 (by decide)
  have hm : Store.getU16 (List.replicate 512 255) 0 ≠ 48830 := by decide
  have hl : (SystemState.new.init 100 100 (List.replicate 512 255)).2.length = EEPROM_SIZE := by
    decide
  ⟨by decide, hm, (h.1 hm).1.2.1, (h.1 hm).2.1,
    ((init_by_magic SystemState.new (SystemState.new.init 100 100 (List.replicate 512 255)).2
      7 7 hl).2 (h.1 hm).2.1).1⟩

/-- C20: `save` writes exactly the store bytes 0..13 and leaves every byte
from offset 14 on unchanged (the store keeps its size, and bytes 0..13 after
the call do not depend on their old contents): magic `0xBEBE` in 2 bytes at
offset 0, `powerOn` as one byte (0 or 1) at 2, volume at 3, mouth brightness
at 4, eye brightness at 5, threshold in 2 bytes at 6, mode at 8, effect at 9
and the calibration offset in 4 bytes at 10; every field reads back intact,
so no two fields overlap. -/
theorem save_layout (s : SystemState) (st : Store) (hst : st.length = EEPROM_SIZE)
    (ht : s.WellTyped) :
    (s.save st).length = st.length ∧
    (∀ j, 14 ≤ j → (s.save st).getD j 0 = st.getD j 0) ∧
    (∀ st2 : Store, st2.length = EEPROM_SIZE →
      ∀ j, j < 14 → (s.save st).getD j 0 = (s.save st2).getD j 0) ∧
    Store.getU16 (s.save st) 0 = 48830 ∧
    Store.getU8 (s.save st) 2 = (if s.isPowerOn then 1 else 0) ∧
    Store.getU8 (s.save st) 3 = s.getVolume ∧
    Store.getU8 (s.save st) 4 = s.getMouthBrightness ∧
    Store.getU8 (s.save st) 5 = s.getEyeBrightness ∧
    Store.getU16 (s.save st) 6 = s.getAudioThreshold ∧
    Store.getU8 (s.save st) 8 = s.getAudioMode ∧
    Store.getU8 (s.save st) 9 = s.getVisualEffect ∧
    Store.getI32 (s.save st) 10 = s.getTimeCalibrationOffset := by
  unfold EEPROM_SIZE at hst
  obtain ⟨r1, r2, r3, r4, r5, r6, r7, r8, r9⟩ := save_reads s st (by omega) ht
  obtain ⟨b0, b1, b2, b3, b4, b5, b6, b7, b8, b9, b10, b11, b12, b13, hb⟩ :=
    save_bytes s st (by omega)
  refine ⟨save_length s st, hb, ?_, r1, r2, r3, r4, r5, r6, r7, r8, r9⟩
  intro st2 hst2 j hj
  unfold EEPROM_SIZE at hst2
  obtain ⟨c0, c1, c2, c3, c4, c5, c6, c7, c8, c9, c10, c11, c12, c13, _⟩ :=
    save_bytes s st2 (by omega)
  interval_cases j
  · rw [b0, c0]
  · rw [b1, c1]
  · rw [b2, c2]
  · rw [b3, c3]
  · rw [b4, c4]
  · rw [b5, c5]
  · rw [b6, c6]
  · rw [b7, c7]
  · rw [b8, c8]
  · rw [b9, c9]
  · rw [b10, c10]
  · rw [b11, c11]
  · rw [b12, c12]
  · rw [b13, c13]

set_option maxRecDepth 100000 in
theorem save_layout_witness :
    (List.replicate 512 255 : Store).length = EEPROM_SIZE ∧
    SystemState.WellTyped (SystemState.new.setTimeCalibration (-113600)) ∧
    Store.getI32 ((SystemState.new.setTimeCalibration (-113600)).save (List.replicate 512 255)) 10
      = (SystemState.new.setTimeCalibration (-113600)).getTimeCalibrationOffset ∧
    ((SystemState.new.setTimeCalibration (-113600)).save (List.replicate 512 255)).take 16
      = [190, 190, 0, 10, 8, 10, 0, 2, 0, 0, 64, 68, 254, 255, 255, 255] :=
  have hw : SystemState.WellTyped (SystemState.new.setTimeCalibration (-113600)) :=
    ⟨by decide, by decide, by decide, by decide, by decide, by decide, by decide⟩
  ⟨by decide, hw,
    (save_layout (SystemState.new.setTimeCalibration (-113600)) (List.replicate 512 255)
      (by decide) hw).2.2.2.2.2.2.2.2.2.2.2,
    by decide⟩


/-! ### The gain limiter does not amplify -/

theorem F32.roundShift_exact (p k : Nat) (h : p % 2 ^ k = 0) :
    F32.roundShift p k = p / 2 ^ k := by
  unfold F32.roundShift
  have hP : 0 < 2 ^ k := Nat.pow_pos (by decide)
  simp only [h]
  rw [if_neg (by omega)]

theorem F32.toRat_eq_one_iff (g : F32) : g.toRat = 1 ↔ g.m = 2 ^ g.e := by
  unfold F32.toRat
  rw [div_eq_one_iff_eq (by positivity)]
  exact_mod_cast Iff.rfl

theorem F32.toRat_eq_zero_iff (g : F32) : g.toRat = 0 ↔ g.m = 0 := by
  unfold F32.toRat
  rw [div_eq_zero_iff]
  constructor
  · rintro (h | h)
    · exact_mod_cast h
    · exact absurd h (by positivity)
  · intro h
    left
    exact_mod_cast h

/-- The single-precision product of a sample and a gain of value 1 has the
sample as its integer part. -/
theorem F32.trunc_mul_one (s : Int) (g : F32) (hs : s.natAbs ≤ 32768) (h1 : g.m = 2 ^ g.e) :
    (F32.mul (F32.ofInt s) g).trunc = s := by
  rw [F32.ofInt_exact s (by omega)]
  unfold F32.mul F32.round
  simp only [Nat.zero_add]
  have hp : (s * g.m).natAbs = s.natAbs * 2 ^ g.e := by
    rw [Int.natAbs_mul, h1, Int.natAbs_pow]
    rfl
  have hsgn : (s * g.m < 0) ↔ s < 0 := by
    rw [h1]
    have : (0 : Int) < 2 ^ g.e := by positivity
    constructor
    · intro h
      by_contra hc
      have := mul_nonneg (not_lt.1 hc) this.le
      omega
    · intro h
      exact mul_neg_of_neg_of_pos h this
  rw [hp]
  simp only [hsgn]
  have hsh : max (F32.dropBits (s.natAbs * 2 ^ g.e) (s.natAbs * 2 ^ g.e)) (g.e - 149) ≤ g.e := by
    apply max_le
    · apply F32.dropBits_le
      calc s.natAbs * 2 ^ g.e ≤ 32768 * 2 ^ g.e := Nat.mul_le_mul_right _ hs
        _ < 2 ^ 24 * 2 ^ g.e :=
            Nat.mul_lt_mul_of_pos_right (by norm_num) (Nat.pow_pos (by decide))
        _ = 2 ^ (24 + g.e) := (pow_add 2 24 g.e).symm
    · omega
  generalize max (F32.dropBits (s.natAbs * 2 ^ g.e) (s.natAbs * 2 ^ g.e)) (g.e - 149) = k at hsh
  rw [if_pos hsh]
  have hsplit : s.natAbs * 2 ^ g.e = s.natAbs * 2 ^ (g.e - k) * 2 ^ k := by
    rw [Nat.mul_assoc, ← pow_add, Nat.sub_add_cancel hsh]
  have hq : F32.roundShift (s.natAbs * 2 ^ g.e) k = s.natAbs * 2 ^ (g.e - k) := by
    rw [F32.roundShift_exact _ _ (by rw [hsplit]; exact Nat.mul_mod_left _ _), hsplit]
    exact Nat.mul_div_cancel _ (Nat.pow_pos (by decide))
  rw [hq]
  unfold F32.trunc
  simp only []
  have hd : ((s.natAbs * 2 ^ (g.e - k) : Nat) / 2 ^ (g.e - k) : Nat) = s.natAbs :=
    Nat.mul_div_cancel _ (Nat.pow_pos (by decide))
  split
  · rw [show (-1 : Int) * ((s.natAbs * 2 ^ (g.e - k) : Nat) : Int)
        = -((s.natAbs * 2 ^ (g.e - k) : Nat) : Int) by ring, Int.neg_tdiv, tdiv_natCast_pow, hd]
    omega
  · rw [one_mul, tdiv_natCast_pow, hd]
    omega

/-- C30: the gain limiter never amplifies. For every 16-bit sample `s` and
every gain `k` in `[0, 1]`, the magnitude of `processSample(s)` is at most
that of `s`, the result is 0 or has the sign of `s`, the final clamp leaves
the converted value unchanged, and `processSample(s)` is `s` when `k = 1` and
0 when `k = 0`. -/
theorem processSample_never_amplifies (l : AudioGainLimiter) (s : Int) (hs : IsInt16 s)
    (h0 : 0 ≤ l.getGainFactor.toRat) (h1 : l.getGainFactor.toRat ≤ 1) :
    (l.processSample s).natAbs ≤ s.natAbs ∧
    (l.processSample s = 0 ∨ (0 < s ∧ 0 < l.processSample s) ∨
      (s < 0 ∧ l.processSample s < 0)) ∧
    constrain (wrapInt16 (F32.mul (F32.ofInt s) l.getGainFactor).trunc)
        DAC_MAX_NEGATIVE DAC_MAX_POSITIVE
      = wrapInt16 (F32.mul (F32.ofInt s) l.getGainFactor).trunc ∧
    (l.getGainFactor.toRat = 1 → l.processSample s = s) ∧
    (l.getGainFactor.toRat = 0 → l.processSample s = 0) := by
  have e : l.getGainFactor = l.gainFactor := rfl
  rw [e] at h0 h1 ⊢
  have hp := processSample_eq_trunc l s hs h0 h1
  obtain ⟨a, b⟩ := trunc_mul_between s l.gainFactor hs h0 h1
  have hone : l.gainFactor.toRat = 1 → (F32.mul (F32.ofInt s) l.gainFactor).trunc = s := by
    intro h
    rw [F32.toRat_eq_one_iff] at h
    unfold IsInt16 at hs
    exact F32.trunc_mul_one s l.gainFactor (by omega) h
  have hzero : l.gainFactor.toRat = 0 → (F32.mul (F32.ofInt s) l.gainFactor).trunc = 0 := by
    intro h
    rw [F32.toRat_eq_zero_iff] at h
    rw [F32.toRat_nonneg_iff] at h0
    rw [F32.toRat_le_one_iff] at h1
    unfold IsInt16 at hs
    obtain ⟨t, _, ht0, et⟩ := F32.trunc_mul_bounds s l.gainFactor (by omega) h0 h1
    rw [et, ht0 (by rw [h, mul_zero])]
    simp
  rw [hp]
  unfold IsInt16 at hs
  generalize (F32.mul (F32.ofInt s) l.gainFactor).trunc = t at a b hone hzero
  have ht : -32768 ≤ t ∧ t ≤ 32767 := by
    rcases le_total 0 s with h | h
    · have := a h; omega
    · have := b h; omega
  refine ⟨?_, ?_, ?_, hone, hzero⟩
  · rcases le_total 0 s with h | h
    · have := a h; omega
    · have := b h; omega
  · rcases le_total 0 s with h | h
    · have := a h; omega
    · have := b h; omega
  · rw [wrapInt16_of_range ht.1 ht.2]
    unfold constrain DAC_MAX_NEGATIVE DAC_MAX_POSITIVE
    rw [if_neg (by omega), if_neg (by omega)]

theorem processSample_never_amplifies_witness :
    IsInt16 (-20668) ∧
    ((AudioGainLimiter.new.setGainFactor F32.one).processSample (-20668)).natAbs
      ≤ (-20668 : Int).natAbs ∧
    (AudioGainLimiter.new.setGainFactor F32.one).processSample (-20668) = -20668 ∧
    ((AudioGainLimiter.new.setGainFactor F32.one).getGainFactor.toRat = 1) :=
  have e : (AudioGainLimiter.new.setGainFactor F32.one).getGainFactor = ⟨1, 0⟩ := by decide
  have hv : (AudioGainLimiter.new.setGainFactor F32.one).getGainFactor.toRat = 1 := by
    rw [e]; norm_num [F32.toRat]
  have hs : IsInt16 (-20668) := by decide
  have h := processSample_never_amplifies (AudioGainLimiter.new.setGainFactor F32.one) (-20668)
    hs (by rw [hv]; norm_num) (by rw [hv])
  ⟨hs, h.1, h.2.2.2.1 hv, hv⟩


/-! ### Saving and loading -/

/-- What `load` restores from a store `save` has written. -/
theorem load_save (s s2 : SystemState) (st : Store) (h : 14 ≤ st.length)
    (hin : SettingsInRange s) (ht0 : s.audioThreshold ≠ 0)
    (ht : SystemState.IsUInt16 s.audioThreshold) (ho : IsInt32 s.timeCalibrationOffset) :
    (s2.load (s.save st)).powerOn = s.powerOn ∧
    (s2.load (s.save st)).volume = s.volume ∧
    (s2.load (s.save st)).mouthBrightness = s.mouthBrightness ∧
    (s2.load (s.save st)).eyeBrightness = s.eyeBrightness ∧
    (s2.load (s.save st)).audioThreshold = s.audioThreshold ∧
    (s2.load (s.save st)).audioMode = s.audioMode ∧
    (s2.load (s.save st)).visualEffect = s.visualEffect ∧
    (s2.load (s.save st)).timeCalibrationOffset = s.timeCalibrationOffset := by
  obtain ⟨i1, i2, i3, i4, i5⟩ := hin
  have hw : s.WellTyped :=
    ⟨show s.volume < 256 by omega, show s.mouthBrightness < 256 by omega,
      show s.eyeBrightness < 256 by omega, ht, show s.audioMode < 256 by omega,
      show s.visualEffect < 256 by omega, ho⟩
  obtain ⟨_, r2, r3, r4, r5, r6, r8, r9, r10⟩ := save_reads s st h hw
  obtain ⟨l1, l2, l3, l4, l5, l6, l7, l8⟩ := load_fields (s.save st) s2
  rw [l1, l2, l3, l4, l5, l6, l7, l8, r2, r3, r4, r5, r6, r8, r9, r10]
  refine ⟨?_, by omega, by omega, by omega, ?_, by omega, by omega, rfl⟩
  · cases s.powerOn <;> decide
  · rw [if_neg ht0]

/-- C21: save/load round trip. For every state whose bounded fields are in
range and whose `audioThreshold` is a non-zero 16-bit value, `save()` followed
by `load()` on any instance, or by `init()` on a freshly constructed instance
over the same store, restores `powerOn`, `volume`, `mouthBrightness`,
`eyeBrightness`, `audioThreshold`, `audioMode`, `visualEffect` and
`timeCalibrationOffset` (any 32-bit value, negative ones included) to the
saved values. -/
theorem save_load_round_trip (s s2 : SystemState) (st : Store) (millis0 millis1 : Nat)
    (hst : st.length = EEPROM_SIZE) (hin : SettingsInRange s) (ht0 : s.audioThreshold ≠ 0)
    (ht : SystemState.IsUInt16 s.audioThreshold) (ho : IsInt32 s.timeCalibrationOffset) :
    ((s2.load (s.save st)).powerOn = s.powerOn ∧
      (s2.load (s.save st)).volume = s.volume ∧
      (s2.load (s.save st)).mouthBrightness = s.mouthBrightness ∧
      (s2.load (s.save st)).eyeBrightness = s.eyeBrightness ∧
      (s2.load (s.save st)).audioThreshold = s.audioThreshold ∧
      (s2.load (s.save st)).audioMode = s.audioMode ∧
      (s2.load (s.save st)).visualEffect = s.visualEffect ∧
      (s2.load (s.save st)).timeCalibrationOffset = s.timeCalibrationOffset) ∧
    ((SystemState.new.init millis0 millis1 (s.save st)).1.powerOn = s.powerOn ∧
      (SystemState.new.init millis0 millis1 (s.save st)).1.volume = s.volume ∧
      (SystemState.new.init millis0 millis1 (s.save st)).1.mouthBrightness = s.mouthBrightness ∧
      (SystemState.new.init millis0 millis1 (s.save st)).1.eyeBrightness = s.eyeBrightness ∧
      (SystemState.new.init millis0 millis1 (s.save st)).1.audioThreshold = s.audioThreshold ∧
      (SystemState.new.init millis0 millis1 (s.save st)).1.audioMode = s.audioMode ∧
      (SystemState.new.init millis0 millis1 (s.save st)).1.visualEffect = s.visualEffect ∧
      (SystemState.new.init millis0 millis1 (s.save st)).1.timeCalibrationOffset
        = s.timeCalibrationOffset) := by
  have h14 : 14 ≤ st.length := by rw [hst]; decide
  refine ⟨load_save s s2 st h14 hin ht0 ht ho, ?_⟩
  have hw : s.WellTyped := by
    obtain ⟨i1, i2, i3, i4, i5⟩ := hin
    exact ⟨show s.volume < 256 by omega, show s.mouthBrightness < 256 by omega,
      show s.eyeBrightness < 256 by omega, ht, show s.audioMode < 256 by omega,
      show s.visualEffect < 256 by omega, ho⟩
  have hv : SystemState.isValidEEPROM (s.save st) = true :=
    (isValidEEPROM_iff _).2 (save_reads s st h14 hw).1
  obtain ⟨_, e1, e2, e3, e4, e5, e6, e7, e8⟩ :=
    (init_settings millis0 millis1 (s.save st) SystemState.new).1 hv
  rw [e1, e2, e3, e4, e5, e6, e7, e8]
  exact load_save s SystemState.new st h14 hin ht0 ht ho

set_option maxRecDepth 100000 in
theorem save_load_round_trip_witness :
    (SystemState.new.load (SystemState.sampleSettings.save (List.replicate 512 255))).volume = 21 ∧
    (SystemState.new.load
      (SystemState.sampleSettings.save (List.replicate 512 255))).timeCalibrationOffset
      = -2147483648 ∧
    (SystemState.new.init 5 6 (SystemState.sampleSettings.save (List.replicate 512 255))).1.audioThreshold
      = 65535 :=
  have h := save_load_round_trip SystemState.sampleSettings SystemState.new
    (List.replicate 512 255) 5 6 (by decide) (by unfold SettingsInRange; decide) (by decide)
    (by decide) (by decide)
  ⟨h.1.2.1, h.1.2.2.2.2.2.2.2, h.2.2.2.2.2.1⟩


/-! ### Ring buffers -/

/-- One push into a ring buffer of 20 or 24 slots keeps it showing the last
levels, oldest first from the write index. -/
theorem ringWindow_step (n : Nat) (hn : n = 20 ∨ n = 24) (hist ls : List Nat) (l : Nat)
    (hl : hist.length = n)
    (hw : ∀ x, x < n → hist.getD ((ls.length % n + x) % n) 0 = ringWindow n ls x) :
    ∀ x, x < n →
      (hist.set (ls.length % n) l).getD (((ls.length + 1) % n + x) % n) 0
        = ringWindow n (ls ++ [l]) x := by
  intro x hx
  unfold ringWindow at hw ⊢
  rw [List.length_append, List.length_singleton, List.getD_eq_getElem?_getD]
  generalize hk : ls.length = k at hw
  by_cases hlast : x + 1 = n
  · have e2 : ((k + 1) % n + x) % n = k % n := by
      rcases hn with rfl | rfl <;> omega
    have e3 : k % n < hist.length := by
      rcases hn with rfl | rfl <;> omega
    rw [e2, List.getElem?_set_self e3, if_neg (by omega),
      show k + 1 + x - n = ls.length by omega, List.getD_eq_getElem?_getD,
      List.getElem?_append_right (Nat.le_refl _), Nat.sub_self]
    rfl
  · have e2 : ((k + 1) % n + x) % n = (k % n + (x + 1)) % n := by
      rcases hn with rfl | rfl <;> omega
    have e3 : k % n ≠ (k % n + (x + 1)) % n := by
      rcases hn with rfl | rfl <;> omega
    rw [e2, List.getElem?_set_ne e3, ← List.getD_eq_getElem?_getD, hw (x + 1) (by omega)]
    by_cases hc : k + (x + 1) < n
    · rw [if_pos hc, if_pos (by omega)]
    · rw [if_neg hc, if_neg (by omega), show k + 1 + x - n = k + (x + 1) - n by omega,
        List.getD_eq_getElem?_getD, List.getD_eq_getElem?_getD,
        List.getElem?_append_left (by omega)]

theorem ringWindow_nil (n x : Nat) (hx : x < n) : ringWindow n [] x = 0 := by
  unfold ringWindow
  rw [if_pos (by simpa using hx)]

theorem updateAudioLevel_history (newRaw : Nat) (s : AudioProcessor) :
    (s.updateAudioLevel newRaw).beatHistory = s.beatHistory ∧
    (s.updateAudioLevel newRaw).beatHistoryIndex = s.beatHistoryIndex :=
  ⟨rfl, rfl⟩

/-- C25: the ring buffer of the beat detector. In every state reachable from
construction `beatHistoryIndex` is below 20, and when `detectBeat` has been
called `k` times the 20 slots read in circular order from `beatHistoryIndex`
are the last 20 smoothed levels pushed, oldest first, with 0 standing for a
level not yet pushed. -/
theorem beatHistory_ring (s : AudioProcessor) (ls : List Nat)
    (h : AudioProcessor.Pushed s ls) :
    s.beatHistoryIndex < 20 ∧ s.beatHistoryIndex = ls.length % 20 ∧
    s.beatHistory.length = 20 ∧
    ∀ x, x < 20 →
      s.beatHistory.getD ((s.beatHistoryIndex + x) % 20) 0 = ringWindow 20 ls x := by
  induction h with
  | new =>
    refine ⟨by decide, rfl, rfl, ?_⟩
    intro x hx
    rw [ringWindow_nil 20 x hx]
    show (List.replicate 20 0).getD ((0 + x) % 20) 0 = 0
    rw [List.getD_eq_getElem?_getD, List.getElem?_replicate]
    split <;> rfl
  | init s ls bclk lrc dout adc threshold _ ih => exact ih
  | setThreshold s ls threshold _ ih => exact ih
  | tick s ls newRaw now _ ih =>
    obtain ⟨e1, e2⟩ := updateAudioLevel_history newRaw s
    obtain ⟨h1, h2, h3, h4⟩ := ih
    unfold AudioProcessor.tick
    rw [detectBeat_beatHistory, detectBeat_beatHistoryIndex, e1, e2, h2]
    have e : wrapUInt8 (((ls.length % 20 + 1) % BEAT_DETECTION_WINDOW : Nat) : Int)
        = (ls.length + 1) % 20 := by
      unfold BEAT_DETECTION_WINDOW
      rw [wrapUInt8_of_lt (by omega)]
      omega
    rw [e, List.length_append, List.length_singleton, List.length_set]
    refine ⟨by omega, rfl, h3, ?_⟩
    rw [h2] at h4
    exact ringWindow_step 20 (Or.inl rfl) s.beatHistory ls
      (s.updateAudioLevel newRaw).smoothedLevel h3 h4

theorem beatHistory_ring_witness :
    AudioProcessor.Pushed (AudioProcessor.new.tick 2000 7)
      ([] ++ [(AudioProcessor.new.updateAudioLevel 2000).smoothedLevel]) ∧
    (AudioProcessor.new.tick 2000 7).beatHistoryIndex < 20 ∧
    (AudioProcessor.new.tick 2000 7).beatHistoryIndex = 1 :=
  have hp := AudioProcessor.Pushed.tick AudioProcessor.new [] 2000 7 AudioProcessor.Pushed.new
  ⟨hp, (beatHistory_ring _ _ hp).1, (beatHistory_ring _ _ hp).2.1⟩


/-! ### The mouth waveform -/

theorem drawMouthWaveform_state (l : Nat) (r : LEDMatrixRenderer) :
    (r.drawMouthWaveform l).1.waveformHistory = r.waveformHistory.set r.waveformIndex l ∧
    (r.drawMouthWaveform l).1.waveformIndex = (r.waveformIndex + 1) % 24 ∧
    (r.drawMouthWaveform l).2 = (r.drawMouthWaveform l).1.drawWaveformMode0 := by
  refine ⟨rfl, ?_, rfl⟩
  show wrapUInt8 (((r.waveformIndex + 1) % 24 : Nat) : Int) = (r.waveformIndex + 1) % 24
  exact wrapUInt8_of_lt (by omega)

theorem drawAll_snoc (ls : List Nat) (l : Nat) (r : LEDMatrixRenderer) :
    LEDMatrixRenderer.drawAll (ls ++ [l]) r
      = ((LEDMatrixRenderer.drawAll ls r).drawMouthWaveform l).1 := by
  unfold LEDMatrixRenderer.drawAll
  rw [List.foldl_append]
  rfl

/-- The history after any number of calls on a fresh renderer. -/
theorem drawAll_ring (ls : List Nat) :
    (LEDMatrixRenderer.drawAll ls LEDMatrixRenderer.new).waveformIndex = ls.length % 24 ∧
    (LEDMatrixRenderer.drawAll ls LEDMatrixRenderer.new).waveformHistory.length = 24 ∧
    ∀ x, x < 24 →
      (LEDMatrixRenderer.drawAll ls LEDMatrixRenderer.new).columnLevel x
        = ringWindow 24 ls x := by
  induction ls using List.reverseRecOn with
  | nil =>
    refine ⟨rfl, rfl, ?_⟩
    intro x hx
    rw [ringWindow_nil 24 x hx]
    show (List.replicate 24 0).getD ((0 + x) % 24) 0 = 0
    rw [List.getD_eq_getElem?_getD, List.getElem?_replicate]
    split <;> rfl
  | append_singleton ls l ih =>
    obtain ⟨h1, h2, h3⟩ := ih
    rw [drawAll_snoc]
    obtain ⟨e1, e2, _⟩ := drawMouthWaveform_state l
      (LEDMatrixRenderer.drawAll ls LEDMatrixRenderer.new)
    unfold LEDMatrixRenderer.columnLevel MOUTH_WIDTH at h3 ⊢
    rw [e1, e2, h1, List.length_set, List.length_append, List.length_singleton]
    rw [h1] at h3
    refine ⟨by omega, h2, ?_⟩
    intro x hx
    have := ringWindow_step 24 (Or.inr rfl) _ ls l h2 h3 x hx
    rw [← this]
    congr 2
    omega

/-- C22: the mouth waveform window. After the calls `drawMouthWaveform(l_1)`,
..., `drawMouthWaveform(l_k)` on a freshly constructed renderer, the drawing
issued by the `k`-th call takes column `x` (for `0 ≤ x < 24`) from level
`l_(k-23+x)`, with 0 for indices below 1: the 24-entry circular buffer is
drawn oldest to newest from left to right, the newest level in the rightmost
column, and `waveformIndex` stays below 24. -/
theorem drawMouthWaveform_window (ls : List Nat) (l : Nat) :
    (((LEDMatrixRenderer.drawAll ls LEDMatrixRenderer.new).drawMouthWaveform l).1.waveformIndex
      < 24) ∧
    (∀ x, x < 24 →
      ((LEDMatrixRenderer.drawAll ls LEDMatrixRenderer.new).drawMouthWaveform l).1.columnLevel x
        = ringWindow 24 (ls ++ [l]) x) ∧
    ((LEDMatrixRenderer.drawAll ls LEDMatrixRenderer.new).drawMouthWaveform l).2
      = LEDMatrixRenderer.clearMouth
        ++ (List.range 24).flatMap
            (fun x => LEDMatrixRenderer.waveformColumn0 x (ringWindow 24 (ls ++ [l]) x))
        ++ [DrawOp.update] ∧
    ringWindow 24 (ls ++ [l]) 23 = l ∧
    (∀ x, ls.length + 1 + x < 24 → ringWindow 24 (ls ++ [l]) x = 0) ∧
    (∀ x, x < 24 → 24 ≤ ls.length + 1 + x →
      ringWindow 24 (ls ++ [l]) x = (ls ++ [l]).getD (ls.length + 1 + x - 24) 0) := by
  obtain ⟨h1, _, h3⟩ := drawAll_ring (ls ++ [l])
  rw [drawAll_snoc] at h1 h3
  refine ⟨by omega, h3, ?_, ?_, ?_, ?_⟩
  · rw [(drawMouthWaveform_state l _).2.2]
    unfold LEDMatrixRenderer.drawWaveformMode0 MOUTH_WIDTH
    rw [List.flatMap_congr (fun x hx => by rw [h3 x (List.mem_range.1 hx)])]
  · unfold ringWindow
    rw [List.length_append, List.length_singleton, if_neg (by omega),
      show ls.length + 1 + 23 - 24 = ls.length by omega, List.getD_eq_getElem?_getD,
      List.getElem?_append_right (Nat.le_refl _), Nat.sub_self]
    rfl
  · intro x hx
    unfold ringWindow
    rw [List.length_append, List.length_singleton, if_pos hx]
  · intro x _ hx
    unfold ringWindow
    rw [List.length_append, List.length_singleton, if_neg (by omega)]


/-! ### The drawing strategy of the mouth -/

theorem mapLevel_eight (level : Nat) (h : level < 256) :
    LEDMatrixRenderer.mapLevel level 0 8 = level * 8 / 100 := by
  unfold LEDMatrixRenderer.mapLevel map
  have e1 : wrapInt32 ((100 : Int) - 0) = 100 := by decide
  have e2 : wrapInt32 ((level : Int) - 0) = (level : Int) :=
    wrapInt32_of_range (by omega) (by omega)
  have e3 : wrapInt32 ((8 : Int) - 0) = 8 := by decide
  have e4 : wrapInt32 ((level : Int) * 8) = (level : Int) * 8 :=
    wrapInt32_of_range (by omega) (by omega)
  rw [e1, e2, e3, e4, if_neg (by decide)]
  have e5 : Int.tdiv ((level : Int) * 8) 100 = ((level * 8 / 100 : Nat) : Int) := by
    rw [Int.tdiv_eq_ediv (by omega) (by omega)]
    push_cast
    rfl
  rw [e5]
  have hq : level * 8 / 100 ≤ 20 := by omega
  generalize level * 8 / 100 = q at hq
  rw [wrapInt32_of_range (by omega) (by omega), Int.add_zero]
  exact wrapUInt8_of_lt (by omega)

/-- A column of `drawWaveformMode0` is a bar of `min(level * 8 / 100, 7) + 1`
dots standing on the bottom row. -/
theorem waveformColumn0_bar (x level : Nat) (h : level < 256) :
    LEDMatrixRenderer.waveformColumn0 x level
      = (List.range (min (level * 8 / 100) 7 + 1)).map
          (fun y => DrawOp.dot (x : Int) (7 - (y : Int))) := by
  unfold LEDMatrixRenderer.waveformColumn0
  simp only []
  have e0 : ((MATRIX_HEIGHT : Nat) : Int) = 8 := rfl
  have e1 : ((MATRIX_HEIGHT : Nat) : Int) - 1 = 7 := rfl
  rw [e1, e0, mapLevel_eight level h, constrain_byte _ 7 (by decide) (by decide)]
  rfl

theorem getD_set_lt (hist : List Nat) (idx l i : Nat) (hl : l < 256)
    (hh : ∀ v, v ∈ hist → v < 256) : (hist.set idx l).getD i 0 < 256 := by
  rw [List.getD_eq_getElem?_getD]
  cases hv : (hist.set idx l)[i]? with
  | none => exact Nat.zero_lt_succ _
  | some v =>
    rcases List.mem_or_eq_of_mem_set (List.getElem?_mem hv) with h | h
    · exact hh v h
    · rw [Option.getD_some, h]; exact hl

set_option maxRecDepth 100000 in
/-- C23, counterexample: on a fresh renderer `drawMouthWaveform(100)` issues
the vertical bars of `drawWaveformMode0`, which are neither the centred bars
of `drawWaveformMode1` nor the line plot of `drawWaveformMode2` for the same
history; the call has no visual-effect argument and the renderer stores no
effect index, so this is what it draws under effect index 1 or 2 as well. -/
theorem drawMouthWaveform_effect_not_selected :
    (LEDMatrixRenderer.new.drawMouthWaveform 100).2
      = (LEDMatrixRenderer.new.drawMouthWaveform 100).1.drawWaveformMode0 ∧
    (LEDMatrixRenderer.new.drawMouthWaveform 100).2
      ≠ (LEDMatrixRenderer.new.drawMouthWaveform 100).1.drawWaveformMode1 ∧
    (LEDMatrixRenderer.new.drawMouthWaveform 100).2
      ≠ (LEDMatrixRenderer.new.drawMouthWaveform 100).1.drawWaveformMode2 := by
  decide

/-- C23, amended: `drawMouthWaveform` always renders with the vertical bars of
`drawWaveformMode0`, whatever the visual-effect index, which it does not
read: after clearing the mouth, column `x` gets `min(level * 8 / 100, 7) + 1`
dots standing on the bottom row, `level` being the history entry of the
column, and the matrix is updated. The stored history after the call is the
old one with the new level written at `waveformIndex`, so it does not depend
on a strategy. -/
theorem drawMouthWaveform_always_bars (r : LEDMatrixRenderer) (l : Nat) (hl : l < 256)
    (hh : ∀ v, v ∈ r.waveformHistory → v < 256) :
    (r.drawMouthWaveform l).2 = (r.drawMouthWaveform l).1.drawWaveformMode0 ∧
    (r.drawMouthWaveform l).2
      = LEDMatrixRenderer.clearMouth
        ++ (List.range 24).flatMap
            (fun x => (List.range
                (min ((r.drawMouthWaveform l).1.columnLevel x * 8 / 100) 7 + 1)).map
              (fun y => DrawOp.dot (x : Int) (7 - (y : Int))))
        ++ [DrawOp.update] ∧
    (r.drawMouthWaveform l).1.waveformHistory = r.waveformHistory.set r.waveformIndex l ∧
    (r.drawMouthWaveform l).1.waveformIndex = (r.waveformIndex + 1) % 24 := by
  obtain ⟨e1, e2, e3⟩ := drawMouthWaveform_state l r
  refine ⟨e3, ?_, e1, e2⟩
  rw [e3]
  unfold LEDMatrixRenderer.drawWaveformMode0 MOUTH_WIDTH
  rw [List.flatMap_congr (fun x _ => waveformColumn0_bar x _ (by
    unfold LEDMatrixRenderer.columnLevel
    rw [e1]
    exact getD_set_lt _ _ _ _ hl hh))]

set_option maxRecDepth 100000 in
theorem drawMouthWaveform_always_bars_witness :
    (LEDMatrixRenderer.new.drawMouthWaveform 100).1.waveformHistory
      = LEDMatrixRenderer.new.waveformHistory.set LEDMatrixRenderer.new.waveformIndex 100 ∧
    (LEDMatrixRenderer.new.drawMouthWaveform 100).2
      = LEDMatrixRenderer.clearMouth
        ++ (List.range 24).flatMap
            (fun x => (List.range
                (min ((LEDMatrixRenderer.new.drawMouthWaveform 100).1.columnLevel x * 8 / 100) 7
                  + 1)).map
              (fun y => DrawOp.dot (x : Int) (7 - (y : Int))))
        ++ [DrawOp.update] :=
  have h := drawMouthWaveform_always_bars LEDMatrixRenderer.new 100 (by decide) (by decide)
  ⟨h.2.2.1, h.2.1⟩


/-! ### The peak follower -/

/-- Integer part of the single-precision product of an integer below `2 ^ 24`
in magnitude and a factor in `[0, 1]`. -/
theorem F32.trunc_mul_bounds_wide (s : Int) (g : F32) (hs : s.natAbs < 16777216)
    (h0 : 0 ≤ g.m) (h1 : g.m ≤ 2 ^ g.e) :
    ∃ t : Nat, t ≤ s.natAbs ∧ (s * g.m = 0 → t = 0) ∧
      (F32.mul (F32.ofInt s) g).trunc = (if s * g.m < 0 then -1 else 1) * (t : Int) := by
  rw [F32.ofInt_exact s hs]
  unfold F32.mul F32.round
  simp only [Nat.zero_add]
  have hpb : (s * g.m).natAbs ≤ s.natAbs * 2 ^ g.e := by
    rw [Int.natAbs_mul]
    apply Nat.mul_le_mul_left
    have e1 : ((g.m.natAbs : Nat) : Int) = g.m := Int.natAbs_of_nonneg h0
    have e2 : ((g.m.natAbs : Nat) : Int) ≤ ((2 ^ g.e : Nat) : Int) := by
      rw [e1]; exact_mod_cast h1
    exact_mod_cast e2
  have hp0 : s * g.m = 0 → (s * g.m).natAbs = 0 := fun h => by rw [h]; rfl
  generalize (s * g.m).natAbs = p at hpb hp0
  have hsh : max (F32.dropBits p p) (g.e - 149) ≤ g.e := by
    apply max_le
    · apply F32.dropBits_le
      calc p ≤ s.natAbs * 2 ^ g.e := hpb
        _ < 2 ^ 24 * 2 ^ g.e := Nat.mul_lt_mul_of_pos_right hs (Nat.pow_pos (by decide))
        _ = 2 ^ (24 + g.e) := (pow_add 2 24 g.e).symm
    · omega
  generalize max (F32.dropBits p p) (g.e - 149) = k at hsh
  rw [if_pos hsh]
  unfold F32.trunc
  simp only []
  have hq : F32.roundShift p k ≤ s.natAbs * 2 ^ (g.e - k) := by
    apply F32.roundShift_le
    rw [Nat.mul_assoc, ← pow_add, Nat.sub_add_cancel hsh]
    exact hpb
  have hq0 : s * g.m = 0 → F32.roundShift p k = 0 := fun h => by
    have := F32.roundShift_le p k 0 (by rw [hp0 h]; exact Nat.zero_le _)
    omega
  generalize F32.roundShift p k = q at hq hq0
  refine ⟨q / 2 ^ (g.e - k), ?_, ?_, ?_⟩
  · exact Nat.div_le_of_le_mul (by rw [Nat.mul_comm]; exact hq)
  · intro h
    rw [hq0 h, Nat.zero_div]
  · split
    · rw [show (-1 : Int) * (q : Int) = -(q : Int) by ring, Int.neg_tdiv, tdiv_natCast_pow]
      ring
    · rw [one_mul, one_mul, tdiv_natCast_pow]

/-- The decayed peak `(uint16_t)(peak * 0.99f)` is the integer part of the
product and is at most the peak. -/
theorem peak_decay_le (p : Nat) (hp : p < 65536) :
    wrapUInt16 (F32.mul (F32.ofInt (p : Int)) peakDecay).trunc
      = (F32.mul (F32.ofInt (p : Int)) peakDecay).trunc.toNat ∧
    wrapUInt16 (F32.mul (F32.ofInt (p : Int)) peakDecay).trunc ≤ p := by
  obtain ⟨t, ht, _, e⟩ := F32.trunc_mul_bounds_wide (p : Int) peakDecay (by omega)
    (by decide) (by decide)
  have hn : ¬ ((p : Int) * peakDecay.m < 0) := by
    have : (0 : Int) ≤ (p : Int) * peakDecay.m := mul_nonneg (by omega) (by decide)
    omega
  rw [if_neg hn, one_mul] at e
  rw [e]
  have ht2 : t ≤ p := by omega
  rw [wrapUInt16_of_lt (by omega)]
  exact ⟨by omega, ht2⟩

set_option maxRecDepth 100000 in
/-- C24, counterexample: from construction, a tick with ADC reading 334 gives
raw level 100 and peak 100; the next tick, with reading 100, gives raw level
100 again, which is not above the peak, so the peak decays to 99: it is below
the raw level and is not `max(100, 100 * 0.99)`. -/
theorem peak_below_raw_counterexample :
    (AudioProcessor.new.updateAudioLevel 334).rawLevel = 100 ∧
    (AudioProcessor.new.updateAudioLevel 334).peakLevel = 100 ∧
    ((AudioProcessor.new.updateAudioLevel 334).updateAudioLevel 100).rawLevel = 100 ∧
    ((AudioProcessor.new.updateAudioLevel 334).updateAudioLevel 100).peakLevel = 99 := by
  decide

/-- C24, amended: for every prior peak, every threshold and every new
filtered raw level `r`, `updateAudioLevel` sets `peakLevel` to `r` when `r` is
above the prior peak and otherwise to the integer part of `peak * 0.99f`,
which is at most the prior peak: the peak rises at once and otherwise decays
by 1% per tick. After the tick `peakLevel >= rawLevel` holds exactly when `r`
is above the prior peak or at most the decayed peak. -/
theorem updateAudioLevel_peakLevel (s : AudioProcessor) (newRaw : Nat)
    (hp : s.peakLevel < 65536) :
    (s.updateAudioLevel newRaw).rawLevel = AudioProcessor.filteredLevel newRaw s ∧
    (s.peakLevel < (s.updateAudioLevel newRaw).rawLevel →
      (s.updateAudioLevel newRaw).peakLevel = (s.updateAudioLevel newRaw).rawLevel) ∧
    ((s.updateAudioLevel newRaw).rawLevel ≤ s.peakLevel →
      (s.updateAudioLevel newRaw).peakLevel
        = (F32.mul (F32.ofInt (s.peakLevel : Int)) peakDecay).trunc.toNat ∧
      (s.updateAudioLevel newRaw).peakLevel ≤ s.peakLevel) ∧
    ((s.updateAudioLevel newRaw).rawLevel ≤ (s.updateAudioLevel newRaw).peakLevel ↔
      (s.peakLevel < (s.updateAudioLevel newRaw).rawLevel ∨
        (s.updateAudioLevel newRaw).rawLevel
          ≤ (F32.mul (F32.ofInt (s.peakLevel : Int)) peakDecay).trunc.toNat)) := by
  obtain ⟨d1, d2⟩ := peak_decay_le s.peakLevel hp
  have er : (s.updateAudioLevel newRaw).rawLevel = AudioProcessor.filteredLevel newRaw s := rfl
  have ep : (s.updateAudioLevel newRaw).peakLevel
      = (if AudioProcessor.filteredLevel newRaw s > s.peakLevel
        then AudioProcessor.filteredLevel newRaw s
        else wrapUInt16 (F32.mul (F32.ofInt (s.peakLevel : Int)) peakDecay).trunc) := rfl
  rw [er, ep, d1]
  rw [d1] at d2
  generalize (F32.mul (F32.ofInt (s.peakLevel : Int)) peakDecay).trunc.toNat = d at d2
  generalize AudioProcessor.filteredLevel newRaw s = r
  generalize s.peakLevel = p at d2
  refine ⟨rfl, ?_, ?_, ?_⟩
  · intro h
    rw [if_pos h]
  · intro h
    rw [if_neg (by omega)]
    exact ⟨rfl, d2⟩
  · split <;> omega

set_option maxRecDepth 100000 in
theorem updateAudioLevel_peakLevel_witness :
    (AudioProcessor.new.updateAudioLevel 334).peakLevel < 65536 ∧
    ((AudioProcessor.new.updateAudioLevel 334).updateAudioLevel 100).rawLevel
      ≤ (AudioProcessor.new.updateAudioLevel 334).peakLevel ∧
    ((AudioProcessor.new.updateAudioLevel 334).updateAudioLevel 100).peakLevel
      = (F32.mul (F32.ofInt ((AudioProcessor.new.updateAudioLevel 334).peakLevel : Int))
          peakDecay).trunc.toNat ∧
    ((AudioProcessor.new.updateAudioLevel 334).updateAudioLevel 100).peakLevel
      ≤ (AudioProcessor.new.updateAudioLevel 334).peakLevel :=
  have h := updateAudioLevel_peakLevel (AudioProcessor.new.updateAudioLevel 334) 100 (by decide)
  ⟨by decide, by decide, (h.2.2.1 (by decide)).1, (h.2.2.1 (by decide)).2⟩


/-! ### The pending click count -/

/-- After a single click reported at time `t`, an idle tick `e` milliseconds
later on which the button is not released from a hold clears the pending
count exactly when `e` exceeds 1000. -/
theorem single_click_timeout (s : EncoderControl) (click idle : EncoderInput) (e : Nat)
    (hc : click.turn = false ∧ click.hasClicks = true ∧ click.getClicks = 1)
    (hi : EncoderControl.IsIdle idle) (ht : IsMillis click.millis) (he : e < 4294967296)
    (hnow : idle.millis = (click.millis + e) % 4294967296)
    (hr : ¬ ((s.tick click).wasHolding = true ∧ idle.pressing = false)) :
    (s.tick click).clickCount = 1 ∧
    (((s.tick click).tick idle).clickCount = 0 ↔ 1000 < e) ∧
    (e ≤ 1000 → ((s.tick click).tick idle).clickCount = 1) := by
  obtain ⟨c1, c2, c3⟩ := hc
  have hs : s.tick click
      = { s with lastEvent := ⟨EncoderEventType.EVENT_SINGLE_CLICK, 1⟩, eventConsumed := false
                 clickStartTime := click.millis, clickCount := 1 } := by
    unfold EncoderControl.tick EncoderControl.processEncoderState
    rw [if_neg (by rw [c1]; exact Bool.false_ne_true), if_pos c2]
    simp only [c3, if_true]
  have hcount : (s.tick click).clickCount = 1 := by rw [hs]
  have hstart : (s.tick click).clickStartTime = click.millis := by rw [hs]
  obtain ⟨_, _, _, _, _, _, h7, _, h9⟩ := idle_tick idle (s.tick click) hi
  rw [hstart, hnow] at h7 h9
  rw [hcount] at h9
  unfold IsMillis at ht
  have hel : ((click.millis + e) % 4294967296 + 4294967296 - click.millis) % 4294967296 = e := by
    omega
  rw [hel] at h7 h9
  refine ⟨hcount, ⟨fun h => ?_, h7⟩, fun h => h9 (by omega) hr⟩
  by_contra hle
  have := h9 (by omega) hr
  omega

/-- C26, failing input: on a fresh controller a double click is reported at
time 5000 and leaves the pending count 2; the idle tick at time 5001 clears
it, 1 ms after the double click, whether or not the button is pressed by
then, because the timeout is measured from `clickStartTime`, which only a
single click sets; a rotation with the button held at time 5002 is then
recorded as `EVENT_HOLD_ROTATE`, not as `EVENT_DOUBLE_CLICK_HOLD_ROTATE`. -/
theorem double_click_count_cleared_early :
    (EncoderControl.ticks [⟨false, 0, false, true, 2, 5000⟩] EncoderControl.new).clickCount = 2 ∧
    (EncoderControl.ticks [⟨false, 0, false, true, 2, 5000⟩] EncoderControl.new).clickStartTime
      = 0 ∧
    (EncoderControl.ticks [⟨false, 0, false, true, 2, 5000⟩, ⟨false, 0, false, false, 0, 5001⟩]
      EncoderControl.new).clickCount = 0 ∧
    (EncoderControl.ticks [⟨false, 0, false, true, 2, 5000⟩, ⟨false, 0, true, false, 0, 5001⟩]
      EncoderControl.new).clickCount = 0 ∧
    (EncoderControl.ticks [⟨false, 0, false, true, 2, 5000⟩, ⟨false, 0, true, false, 0, 5001⟩,
      ⟨true, 1, true, false, 0, 5002⟩] EncoderControl.new).lastEvent
      = ⟨EncoderEventType.EVENT_HOLD_ROTATE, 1⟩ := by
  decide


/-! ### The hold tracking and the range of the pending click count -/

theorem getEvent_keeps (s : EncoderControl) :
    s.getEvent.2.wasHolding = s.wasHolding ∧ s.getEvent.2.clickCount = s.clickCount ∧
    s.getEvent.2.clickStartTime = s.clickStartTime := by
  unfold EncoderControl.getEvent
  split <;> exact ⟨rfl, rfl, rfl⟩

/-- A tick that is not idle leaves `wasHolding` unchanged. -/
theorem tick_wasHolding (inp : EncoderInput) (s : EncoderControl) :
    (s.tick inp).wasHolding
      = (if inp.turn = false ∧ inp.hasClicks = false then inp.pressing else s.wasHolding) := by
  by_cases hi : inp.turn = false ∧ inp.hasClicks = false
  · rw [if_pos hi]
    exact (idle_tick inp s hi).2.2.2.2.1
  · rw [if_neg hi]
    unfold EncoderControl.tick EncoderControl.processEncoderState
    by_cases ht : inp.turn = true
    · rw [if_pos ht]
      simp only []
      split_ifs <;> rfl
    · have hc : inp.hasClicks = true := by
        cases h1 : inp.turn
        · cases h2 : inp.hasClicks
          · exact absurd ⟨h1, h2⟩ hi
          · rfl
        · exact absurd h1 ht
      rw [if_neg ht, if_pos hc]
      simp only []
      split_ifs <;> rfl

theorem lastIdlePressing_snoc (inps : List EncoderInput) (inp : EncoderInput) :
    EncoderControl.lastIdlePressing (inps ++ [inp])
      = (if inp.turn = false ∧ inp.hasClicks = false then inp.pressing
        else EncoderControl.lastIdlePressing inps) := by
  unfold EncoderControl.lastIdlePressing
  rw [List.foldl_append]
  rfl

/-- C27, counterexample: a single click at time 0, then a rotation with the
button held at time 100 (recorded as `EVENT_CLICK_HOLD_ROTATE`), then an idle
tick at time 200 with the button released. After the rotation tick
`wasHolding` is false although the button was pressed at that tick, and the
idle tick, on which the button was pressed at the previous tick and is not
pressed now, does not reset the pending click count. -/
theorem hold_release_missed_after_rotation :
    (EncoderControl.ticks [⟨false, 0, false, true, 1, 0⟩, ⟨true, 1, true, false, 0, 100⟩]
      EncoderControl.new).wasHolding = false ∧
    (EncoderControl.ticks [⟨false, 0, false, true, 1, 0⟩, ⟨true, 1, true, false, 0, 100⟩]
      EncoderControl.new).lastEvent = ⟨EncoderEventType.EVENT_CLICK_HOLD_ROTATE, 1⟩ ∧
    (EncoderControl.ticks [⟨false, 0, false, true, 1, 0⟩, ⟨true, 1, true, false, 0, 100⟩,
      ⟨false, 0, false, false, 0, 200⟩] EncoderControl.new).clickCount = 1 := by
  decide

/-- C27, amended: `wasHolding` is the pressed state sampled at the most recent
idle tick (a tick with no rotation and no completed click burst), false when
there has been none, because ticks with a rotation or a burst return before
the hold tracking. So on an idle tick on which the timeout does not fire, the
hold-release rule resets the pending click count to 0 exactly when the button
was pressed at the most recent earlier idle tick and is not pressed now. -/
theorem wasHolding_last_idle (s : EncoderControl) (inps : List EncoderInput)
    (h : EncoderControl.Ran s inps) :
    s.wasHolding = EncoderControl.lastIdlePressing inps ∧
    ∀ inp : EncoderInput, EncoderControl.IsIdle inp →
      ¬ (s.clickCount > 0 ∧ (inp.millis + 4294967296 - s.clickStartTime) % 4294967296 > 1000) →
      (s.tick inp).clickCount
        = (if EncoderControl.lastIdlePressing inps = true ∧ inp.pressing = false then 0
          else s.clickCount) := by
  have hw : s.wasHolding = EncoderControl.lastIdlePressing inps := by
    induction h with
    | new => rfl
    | tick s inps inp _ ih => rw [tick_wasHolding, lastIdlePressing_snoc, ih]
    | getEvent s inps _ ih => rw [(getEvent_keeps s).1, ih]
  refine ⟨hw, ?_⟩
  intro inp hi ht
  obtain ⟨_, _, _, _, _, _, _, h8, h9⟩ := idle_tick inp s hi
  rw [hw] at h8 h9
  by_cases hr : EncoderControl.lastIdlePressing inps = true ∧ inp.pressing = false
  · rw [if_pos hr]
    exact h8 hr.1 hr.2
  · rw [if_neg hr]
    exact h9 ht hr

theorem wasHolding_last_idle_witness :
    (EncoderControl.ticks [⟨false, 0, false, true, 1, 0⟩, ⟨false, 0, true, false, 0, 50⟩]
      EncoderControl.new).wasHolding
      = EncoderControl.lastIdlePressing
          [⟨false, 0, false, true, 1, 0⟩, ⟨false, 0, true, false, 0, 50⟩] ∧
    EncoderControl.lastIdlePressing
      [⟨false, 0, false, true, 1, 0⟩, ⟨false, 0, true, false, 0, 50⟩] = true ∧
    ((EncoderControl.ticks [⟨false, 0, false, true, 1, 0⟩, ⟨false, 0, true, false, 0, 50⟩]
      EncoderControl.new).tick ⟨false, 0, false, false, 0, 200⟩).clickCount = 0 :=
  have hr : EncoderControl.Ran
      (EncoderControl.ticks [⟨false, 0, false, true, 1, 0⟩, ⟨false, 0, true, false, 0, 50⟩]
        EncoderControl.new)
      [⟨false, 0, false, true, 1, 0⟩, ⟨false, 0, true, false, 0, 50⟩] :=
    EncoderControl.Ran.tick _ _ ⟨false, 0, true, false, 0, 50⟩
      (EncoderControl.Ran.tick _ _ ⟨false, 0, false, true, 1, 0⟩ EncoderControl.Ran.new)
  have h := wasHolding_last_idle _ _ hr
  ⟨h.1, by decide, (h.2 ⟨false, 0, false, false, 0, 200⟩ ⟨rfl, rfl⟩ (by decide)).trans
    (by decide)⟩


/-- The pending click count after a tick: 0, the old count, or the size of
the burst reported at this tick, which is not 3. -/
theorem tick_clickCount (inp : EncoderInput) (s : EncoderControl) :
    (s.tick inp).clickCount = 0 ∨ (s.tick inp).clickCount = s.clickCount ∨
    (inp.turn = false ∧ inp.hasClicks = true ∧ inp.getClicks ≠ 3 ∧
      (s.tick inp).clickCount = inp.getClicks) := by
  by_cases hi : inp.turn = false ∧ inp.hasClicks = false
  · rcases (idle_tick inp s hi).2.2.2.2.2.1 with h | h
    · exact Or.inl h
    · exact Or.inr (Or.inl h)
  · unfold EncoderControl.tick EncoderControl.processEncoderState
    by_cases ht : inp.turn = true
    · rw [if_pos ht]
      simp only []
      right; left
      split_ifs <;> rfl
    · have h1 : inp.turn = false := by
        cases h : inp.turn
        · rfl
        · exact absurd h ht
      have hc : inp.hasClicks = true := by
        cases h2 : inp.hasClicks
        · exact absurd ⟨h1, h2⟩ hi
        · rfl
      rw [if_neg ht, if_pos hc]
      simp only []
      by_cases h3 : inp.getClicks = 3
      · left
        rw [if_neg (by omega), if_neg (by omega), if_pos h3]
      · right; right
        refine ⟨h1, hc, h3, ?_⟩
        split_ifs <;> rfl

/-- C28, counterexample: on a fresh controller a tick on which the driver
reports a completed burst of 4 clicks leaves the pending click count 4. -/
theorem four_click_burst_count :
    (EncoderControl.new.tick ⟨false, 0, false, true, 4, 5000⟩).clickCount = 4 ∧
    EncoderControl.Ran (EncoderControl.new.tick ⟨false, 0, false, true, 4, 5000⟩)
      ([] ++ [⟨false, 0, false, true, 4, 5000⟩]) :=
  ⟨by decide, EncoderControl.Ran.tick _ _ _ EncoderControl.Ran.new⟩

/-- C28, amended: in every reachable state the pending click count is 0 or
the size of a burst the driver reported, and it is never 3, a triple click
resetting it at once; so it is 0, 1, 2 or at least 4, and one of 0, 1, 2
when every reported burst has at most 3 clicks. -/
theorem clickCount_range (s : EncoderControl) (inps : List EncoderInput)
    (h : EncoderControl.Ran s inps) :
    s.clickCount ≠ 3 ∧
    (s.clickCount = 0 ∨
      ∃ inp, inp ∈ inps ∧ inp.turn = false ∧ inp.hasClicks = true ∧
        inp.getClicks = s.clickCount) ∧
    ((∀ inp, inp ∈ inps → inp.turn = false → inp.hasClicks = true → inp.getClicks ≤ 3) →
      s.clickCount ≤ 2) := by
  have hk : s.clickCount ≠ 3 ∧
      (s.clickCount = 0 ∨
        ∃ inp, inp ∈ inps ∧ inp.turn = false ∧ inp.hasClicks = true ∧
          inp.getClicks = s.clickCount) := by
    induction h with
    | new => exact ⟨by decide, Or.inl rfl⟩
    | tick s inps inp _ ih =>
      rcases tick_clickCount inp s with h | h | ⟨h1, h2, h3, h4⟩
      · rw [h]
        exact ⟨by decide, Or.inl rfl⟩
      · rw [h]
        refine ⟨ih.1, ?_⟩
        rcases ih.2 with h0 | ⟨i, hi, hr⟩
        · exact Or.inl h0
        · exact Or.inr ⟨i, List.mem_append_left _ hi, hr⟩
      · rw [h4]
        exact ⟨h3, Or.inr ⟨inp, List.mem_append_right _ (List.mem_singleton.2 rfl), h1, h2, rfl⟩⟩
    | getEvent s inps _ ih =>
      rw [(getEvent_keeps s).2.1]
      exact ih
  refine ⟨hk.1, hk.2, ?_⟩
  intro hb
  rcases hk.2 with h0 | ⟨i, hi, h1, h2, h3⟩
  · omega
  · have := hb i hi h1 h2
    have := hk.1
    omega

theorem clickCount_range_witness :
    EncoderControl.Ran (EncoderControl.new.tick ⟨false, 0, false, true, 2, 5000⟩)
      ([] ++ [⟨false, 0, false, true, 2, 5000⟩]) ∧
    (EncoderControl.new.tick ⟨false, 0, false, true, 2, 5000⟩).clickCount ≠ 3 ∧
    (EncoderControl.new.tick ⟨false, 0, false, true, 2, 5000⟩).clickCount ≤ 2 :=
  have hr : EncoderControl.Ran (EncoderControl.new.tick ⟨false, 0, false, true, 2, 5000⟩)
      ([] ++ [⟨false, 0, false, true, 2, 5000⟩]) :=
    EncoderControl.Ran.tick _ _ _ EncoderControl.Ran.new
  have h := clickCount_range _ _ hr
  ⟨hr, h.1, h.2.2 (by decide)⟩


/-! ### Elapsed time across a wrap of the millisecond counter -/

/-- The 32-bit difference between a counter reading and a stored earlier
reading is the elapsed time, whether or not the counter wrapped in between. -/
theorem elapsed_mod (s e : Nat) (hs : s < 4294967296) (he : e < 4294967296) :
    ((s + e) % 4294967296 + 4294967296 - s) % 4294967296 = e := by
  omega

theorem updateEyeAnimation_gate (now audioLevel : Nat) (isBeat : Bool) (effectMode : Nat)
    (rnd : List Int) (r : LEDMatrixRenderer) :
    ((now + 4294967296 - r.lastEyeUpdate) % 4294967296 < 100 →
      r.updateEyeAnimation now audioLevel isBeat effectMode rnd = (r, [])) ∧
    (¬ (now + 4294967296 - r.lastEyeUpdate) % 4294967296 < 100 →
      (r.updateEyeAnimation now audioLevel isBeat effectMode rnd).1.lastEyeUpdate = now ∧
      (r.updateEyeAnimation now audioLevel isBeat effectMode rnd).2 ≠ []) := by
  unfold LEDMatrixRenderer.updateEyeAnimation EYE_ANIMATION_INTERVAL
  constructor
  · intro h
    rw [if_pos h]
  · intro h
    rw [if_neg h]
    simp only []
    split
    · exact ⟨rfl, by simp [LEDMatrixRenderer.animateEyesMode0, LEDMatrixRenderer.clearEyes]⟩
    · exact ⟨rfl, by simp [LEDMatrixRenderer.animateEyesMode1, LEDMatrixRenderer.clearEyes]⟩
    · unfold LEDMatrixRenderer.animateEyesMode2
      split
      · exact ⟨rfl, by simp [LEDMatrixRenderer.clearEyes]⟩
      · exact ⟨rfl, by simp [LEDMatrixRenderer.clearEyes]⟩
    · exact ⟨rfl, by simp [LEDMatrixRenderer.animateEyesMode0, LEDMatrixRenderer.clearEyes]⟩

/-- C29: the beat refractory test `now - lastBeatTime > 100`, the click-burst
timeout `now - clickStartTime > 1000` and the eye-animation rate limit
`now - lastEyeUpdate < 100` take the difference modulo `2 ^ 32`. So with a
stored timestamp `s` and a true elapsed time `e < 2 ^ 32` ms, the counter
reading `(s + e) mod 2 ^ 32`, each test compares `e`, also when the counter
has wrapped between `s` and now: a beat is detected exactly when the level
conditions hold and `e > 100`, an idle tick with a pending count and no hold
release clears the count exactly when `e > 1000`, and `updateEyeAnimation`
returns without drawing when `e < 100` and otherwise draws and stores the
reading. -/
theorem elapsed_tests_wrap (s e : Nat) (hs : IsMillis s) (he : e < 4294967296) :
    (∀ a : AudioProcessor, a.lastBeatTime = s →
      ((a.detectBeat ((s + e) % 4294967296)).isBeatDetected = true ↔
        (a.smoothedLevel >
            wrapUInt16 ((AudioProcessor.calculateAverage
                  (a.detectBeat ((s + e) % 4294967296)).beatHistory BEAT_DETECTION_WINDOW
                + AudioProcessor.calculateAverage
                  (a.detectBeat ((s + e) % 4294967296)).beatHistory BEAT_DETECTION_WINDOW / 2
                : Nat) : Int)
          ∧ a.smoothedLevel > 20 ∧ e > 100))) ∧
    (∀ (c : EncoderControl) (inp : EncoderInput), c.clickStartTime = s →
      inp.millis = (s + e) % 4294967296 → EncoderControl.IsIdle inp → 0 < c.clickCount →
      ¬ (c.wasHolding = true ∧ inp.pressing = false) →
      ((c.tick inp).clickCount = 0 ↔ e > 1000)) ∧
    (∀ (r : LEDMatrixRenderer) (audioLevel : Nat) (isBeat : Bool) (effectMode : Nat)
      (rnd : List Int), r.lastEyeUpdate = s →
      (e < 100 →
        r.updateEyeAnimation ((s + e) % 4294967296) audioLevel isBeat effectMode rnd
          = (r, [])) ∧
      (¬ e < 100 →
        (r.updateEyeAnimation ((s + e) % 4294967296) audioLevel isBeat effectMode rnd
          ).1.lastEyeUpdate = (s + e) % 4294967296 ∧
        (r.updateEyeAnimation ((s + e) % 4294967296) audioLevel isBeat effectMode rnd).2
          ≠ [])) := by
  unfold IsMillis at hs
  have hel := elapsed_mod s e hs he
  refine ⟨?_, ?_, ?_⟩
  · intro a ha
    have h := detectBeat_beatDetected ((s + e) % 4294967296) a
    rw [ha, hel] at h
    exact h
  · intro c inp hc hm hi hpos hr
    obtain ⟨_, _, _, _, _, _, h7, _, h9⟩ := idle_tick inp c hi
    rw [hc, hm, hel] at h7 h9
    refine ⟨fun h => ?_, h7⟩
    by_contra hle
    have := h9 (fun hh => hle hh.2) hr
    omega
  · intro r audioLevel isBeat effectMode rnd hr
    have h := updateEyeAnimation_gate ((s + e) % 4294967296) audioLevel isBeat effectMode rnd r
    rw [hr, hel] at h
    exact h

theorem elapsed_tests_wrap_witness :
    IsMillis 4294967246 ∧ (4294967246 + 110) % 4294967296 = 60 ∧
    (AudioProcessor.detectBeat 60
      { AudioProcessor.steadyTen 4294967246 with smoothedLevel := 60 }).isBeatDetected = true :=
  have h := elapsed_tests_wrap 4294967246 110 (by decide) (by decide)
  ⟨by decide, by decide,
    (h.1 { AudioProcessor.steadyTen 4294967246 with smoothedLevel := 60 } rfl).2
      ⟨by decide, by decide, by decide⟩⟩


/-! ### Timekeeper: the argument of `init` -/

/-- The state after `updateTime` depends on the state before it through the
calibration offset only. -/
theorem updateTime_of_offset (millis : Nat) (tk tk0 : Timekeeper)
    (h : tk0.calibrationOffset = tk.calibrationOffset) :
    Timekeeper.updateTime millis tk0 = Timekeeper.updateTime millis tk := by
  cases tk
  cases tk0
  simp only at h
  subst h
  rfl

/-- C31: `Timekeeper::init` ignores its argument. For every
`initialTimeSeconds`, every counter value and every calibration offset, the
state after `init(initialTimeSeconds)`, so its hours, minutes and seconds of
day, is the one a bare `tick()` produces at the same counter value and
offset; two calls of `init` with different arguments give the same state, so
a restored initial time is always overwritten. -/
theorem init_ignores_argument (millis0 millis1 : Nat) (t : Int) (tk : Timekeeper) :
    Timekeeper.init millis0 millis1 t tk = Timekeeper.tick millis1 tk ∧
    (Timekeeper.init millis0 millis1 t tk).getHours = (Timekeeper.tick millis1 tk).getHours ∧
    (Timekeeper.init millis0 millis1 t tk).getMinutes
      = (Timekeeper.tick millis1 tk).getMinutes ∧
    (Timekeeper.init millis0 millis1 t tk).currentTimeSeconds
      = (Timekeeper.tick millis1 tk).currentTimeSeconds ∧
    (Timekeeper.init millis0 millis1 t tk).getCalibrationOffset = tk.getCalibrationOffset ∧
    ∀ t2 : Int, Timekeeper.init millis0 millis1 t2 tk = Timekeeper.init millis0 millis1 t tk := by
  have key : ∀ u : Int, Timekeeper.init millis0 millis1 u tk = Timekeeper.tick millis1 tk := by
    intro u
    obtain ⟨tk0, h0, e⟩ := init_eq_updateTime millis0 millis1 u tk
    rw [e]
    exact updateTime_of_offset millis1 tk tk0 h0
  rw [key t]
  exact ⟨rfl, rfl, rfl, rfl, rfl, fun t2 => key t2⟩

/-- C31, an instance: with offset 3600 stored, `init(45296)` (12:34:56) at
counter value 5000 shows 01:00, as a bare `tick()` does. -/
theorem init_overwrites_restored_time :
    (Timekeeper.init 4000 5000 45296
      (Timekeeper.setCalibrationOffset 0 0 3600 Timekeeper.new)).getHours = 1 ∧
    (Timekeeper.init 4000 5000 45296
      (Timekeeper.setCalibrationOffset 0 0 3600 Timekeeper.new)).getMinutes = 0 ∧
    (Timekeeper.init 4000 5000 45296
      (Timekeeper.setCalibrationOffset 0 0 3600 Timekeeper.new)).currentTimeSeconds = 3605 ∧
    (Timekeeper.init 4000 5000 45296 Timekeeper.new).currentTimeSeconds = 5 := by
  decide


/-! ### The divisor of the rescale -/

/-- With the threshold 4095 the range of the map is empty: `map` returns
`MAP_EMPTY_RANGE`, which the `uint16_t` conversion and `constrain` turn into
the level 100. -/
theorem updateAudioLevel_at_4095 :
    map 0 0 (4095 - ((AudioProcessor.new.setThreshold 4095).audioThreshold : Int)) 0 100
      = MAP_EMPTY_RANGE ∧
    ((AudioProcessor.new.setThreshold 4095).updateAudioLevel 2000).smoothedLevel = 100 := by
  decide

end BendeRadio
